import Mathlib

/-!
# Ray tracer: intersection tests, scene queries, shading, matrices, camera and light loop

A shallow embedding of `Utils.h` (`GeometryUtils`, `LightUtils`), `Scene.cpp`, `BRDFs.h`,
`Material.h`, `Matrix.cpp`, `Camera.h` (`CalculateCameraToWorld`) and the light loop of
`Renderer.cpp` of the ray tracer.

Modelling conventions.

* A C++ `float` that holds a finite value is an element of a linearly ordered field `K`,
  and arithmetic on finite values is exact (no rounding, no overflow).  Every definition is
  computable for `K = ℚ`.
* `sqrt`, `pow`, `M_PI` and `FLT_MAX` are parameters: `sqrtf` is any function `K → K`, `pow`
  any function `K → K → K`, and the theorems that need them assume only what they use about
  them, at the arguments where they are applied.
* A float division can leave the finite values (`x / 0`).  In the intersection tests its
  result is a `Flt K`: a finite value, `+∞`, `-∞` or NaN, compared the IEEE way.
  `HitRecord::t` is the one field that the code can fill with such a value and then read in
  comparisons, so it is a `Flt K`.  Elsewhere (normalization, the BRDF functions, radiance) a
  quotient is `K`'s division; a float quotient by zero is not a finite value and lies outside
  the model.  Where a claim turns on such a value, the function has a second embedding that
  follows it through the special values: in the namespace `Ieee` the geometry term
  `GeometryFunction_SchlickGGX` and `Material_CookTorrence::Shade` with the functions it
  calls, and in the namespace `Unbounded` the plane test for a ray whose bounds may be
  infinite.  The two embeddings agree whenever no divisor is zero and the bounds are finite.
* A mutating `bool f(..., HitRecord& hitRecord, ...)` becomes a function returning the
  boolean together with the new record; a member function that changes its object becomes a
  function returning the object after the call.
-/

namespace dae

/-! ## Floats that may be non-finite -/

/-- A float value: finite, or one of the three IEEE special values. -/
inductive Flt (K : Type) where
  | fin (x : K)
  | pinf
  | ninf
  | nan
  deriving DecidableEq, Repr

namespace Flt

variable {K : Type} [LinearOrderedField K]

/-- IEEE `a < b`: false as soon as one side is NaN. -/
def lt : Flt K → Flt K → Bool
  | fin a, fin b => decide (a < b)
  | fin _, pinf => true
  | fin _, ninf => false
  | ninf, fin _ => true
  | ninf, pinf => true
  | ninf, ninf => false
  | pinf, _ => false
  | nan, _ => false
  | _, nan => false

/-- IEEE `a <= b`: false as soon as one side is NaN. -/
def le : Flt K → Flt K → Bool
  | fin a, fin b => decide (a ≤ b)
  | fin _, pinf => true
  | fin _, ninf => false
  | ninf, fin _ => true
  | ninf, pinf => true
  | ninf, ninf => true
  | pinf, pinf => true
  | pinf, fin _ => false
  | pinf, ninf => false
  | nan, _ => false
  | _, nan => false

/-- Float division of two finite values.  A zero divisor gives NaN for `0 / 0` and an
infinity otherwise; the infinity takes the sign of the dividend (the divisor is read as `+0`;
for `-0` the two infinities swap, which no comparison made by the code can tell apart from
this: see `Flt.le_le_fin` and `Flt.lt_lt_fin`). -/
def fdiv (a b : K) : Flt K :=
  if b = 0 then (if a = 0 then nan else if 0 < a then pinf else ninf) else fin (a / b)

end Flt

/-! ## Vectors, rays, hit records, primitives

`Vector3`, `Ray`, `HitRecord`, `Sphere`, `Plane`, `Triangle` and `TriangleMesh` are declared
in `Vector3.h` and `DataTypes.h`, which are not among the source files. -/

/-- Modelled from the spec: `Vector3` (declared in `Vector3.h`, missing), an "ordered triple
of floating-point components". -/
structure Vector3 (K : Type) where
  x : K
  y : K
  z : K
  deriving DecidableEq, Repr

namespace Vector3

variable {K : Type} [LinearOrderedField K]

instance : Add (Vector3 K) := ⟨fun a b => ⟨a.x + b.x, a.y + b.y, a.z + b.z⟩⟩
instance : Sub (Vector3 K) := ⟨fun a b => ⟨a.x - b.x, a.y - b.y, a.z - b.z⟩⟩
instance : HMul K (Vector3 K) (Vector3 K) := ⟨fun s a => ⟨s * a.x, s * a.y, s * a.z⟩⟩

/-- Modelled from the spec: `Vector3::Dot`, the dot product. -/
def Dot (a b : Vector3 K) : K := a.x * b.x + a.y * b.y + a.z * b.z

/-- Modelled from the spec: `Vector3::Magnitude`, the square root of the sum of the squared
components. -/
def Magnitude (sqrt : K → K) (v : Vector3 K) : K := sqrt (v.x * v.x + v.y * v.y + v.z * v.z)

/-- Modelled from the spec: `Vector3::Normalize`, which divides every component by the
magnitude.  (On a vector of magnitude zero the C++ yields NaN components, which a
`Vector3 K` cannot hold; the theorems about a normalized vector establish that the magnitude
is non-zero.) -/
def Normalize (sqrt : K → K) (v : Vector3 K) : Vector3 K :=
  let m := Magnitude sqrt v
  ⟨v.x / m, v.y / m, v.z / m⟩

/-- Product `t * v` of a float that may be non-finite with a vector.  (For a non-finite `t`
the C++ yields non-finite components, which a `Vector3 K` cannot hold; the theorems about a
hit point establish that `t` is finite where this product is formed.) -/
def scale (t : Flt K) (v : Vector3 K) : Vector3 K :=
  match t with
  | Flt.fin x => x * v
  | _ => v

end Vector3

/-- Modelled from the spec: `Ray` (declared in `DataTypes.h`, missing): origin, direction and
the finite bounds `min`, `max` on the parameter `t`. -/
structure Ray (K : Type) where
  origin : Vector3 K
  direction : Vector3 K
  min : K
  max : K
  deriving DecidableEq, Repr

/-- Modelled from the spec: `HitRecord` (declared in `DataTypes.h`, missing): hit point,
surface normal, parameter `t`, `didHit` flag and `materialIndex`. -/
structure HitRecord (K : Type) where
  origin : Vector3 K
  normal : Vector3 K
  t : Flt K
  didHit : Bool
  materialIndex : Nat
  deriving DecidableEq, Repr

/-- Modelled from the spec: the default-constructed `HitRecord{}`, "default-constructed with
`t = +infinity`-like sentinel" (`FLT_MAX`), zero vectors, `didHit = false`, material 0. -/
def HitRecord.default {K : Type} [LinearOrderedField K] (FLT_MAX : K) : HitRecord K :=
  { origin := ⟨0, 0, 0⟩, normal := ⟨0, 0, 0⟩, t := Flt.fin FLT_MAX, didHit := false,
    materialIndex := 0 }

/-- Modelled from the spec: `Sphere` (declared in `DataTypes.h`, missing). -/
structure Sphere (K : Type) where
  origin : Vector3 K
  radius : K
  materialIndex : Nat
  deriving DecidableEq, Repr

/-- Modelled from the spec: `Plane` (declared in `DataTypes.h`, missing). -/
structure Plane (K : Type) where
  origin : Vector3 K
  normal : Vector3 K
  materialIndex : Nat
  deriving DecidableEq, Repr

/-- Modelled from the spec: `TriangleCullMode` (declared in `DataTypes.h`, missing), "a
front/back/no-cull mode". -/
inductive TriangleCullMode where
  | FrontFaceCulling
  | BackFaceCulling
  | NoCulling
  deriving DecidableEq, Repr

/-- Modelled from the spec: `Triangle` (declared in `DataTypes.h`, missing). -/
structure Triangle (K : Type) where
  v0 : Vector3 K
  v1 : Vector3 K
  v2 : Vector3 K
  normal : Vector3 K
  cullMode : TriangleCullMode
  materialIndex : Nat
  deriving DecidableEq, Repr

/-- Modelled from the spec: `TriangleMesh` (declared in `DataTypes.h`, missing): "vertex
positions, indices, per-face normals, cull mode, materialIndex". -/
structure TriangleMesh (K : Type) where
  positions : List (Vector3 K)
  normals : List (Vector3 K)
  indices : List Int
  cullMode : TriangleCullMode
  materialIndex : Nat
  deriving DecidableEq, Repr

/-! ## `GeometryUtils` (Utils.h) -/

namespace GeometryUtils

variable {K : Type} [LinearOrderedField K]

/-- The coefficient `A` of `HitTest_Sphere` (Utils.h:19). -/
def sphereA (ray : Ray K) : K := Vector3.Dot ray.direction ray.direction

/-- The coefficient `B` of `HitTest_Sphere` (Utils.h:20). -/
def sphereB (sphere : Sphere K) (ray : Ray K) : K :=
  Vector3.Dot ((2 : K) * ray.direction) (ray.origin - sphere.origin)

/-- The coefficient `C` of `HitTest_Sphere` (Utils.h:21). -/
def sphereC (sphere : Sphere K) (ray : Ray K) : K :=
  Vector3.Dot (ray.origin - sphere.origin) (ray.origin - sphere.origin)
    - (sphere.radius * sphere.radius)

/-- The discriminant of `HitTest_Sphere` (Utils.h:24). -/
def discriminant (sphere : Sphere K) (ray : Ray K) : K :=
  (sphereB sphere ray * sphereB sphere ray) - (4 * sphereA ray * sphereC sphere ray)

/-- `HitTest_Sphere(sphere, ray, hitRecord, ignoreHitRecord)` (Utils.h:12-48). -/
def HitTest_Sphere (sqrt : K → K) (sphere : Sphere K) (ray : Ray K) (hitRecord : HitRecord K)
    (ignoreHitRecord : Bool) : Bool × HitRecord K :=
  let A := sphereA ray
  let B := sphereB sphere ray
  let disc := discriminant sphere ray
  let rec1 : HitRecord K := { hitRecord with didHit := decide (disc > 0) }
  if !ignoreHitRecord && rec1.didHit then
    let t1 := Flt.fdiv (-B - sqrt disc) (2 * A)
    let t := if Flt.lt t1 (Flt.fin ray.min) then Flt.fdiv (-B + sqrt disc) (2 * A) else t1
    let origin := ray.origin + Vector3.scale t ray.direction
    let normal := Vector3.Normalize sqrt (origin - sphere.origin)
    (true, { origin := origin, normal := normal, t := t, didHit := true,
             materialIndex := sphere.materialIndex })
  else
    (rec1.didHit, rec1)

/-- `HitTest_Sphere(sphere, ray)` (Utils.h:50-54): the overload without a hit record. -/
def HitTest_Sphere2 (sqrt : K → K) (FLT_MAX : K) (sphere : Sphere K) (ray : Ray K) : Bool :=
  (HitTest_Sphere sqrt sphere ray (HitRecord.default FLT_MAX) true).1

/-- `HitTest_Plane(plane, ray, hitRecord, ignoreHitRecord)` (Utils.h:58-76). -/
def HitTest_Plane (plane : Plane K) (ray : Ray K) (hitRecord : HitRecord K)
    (_ignoreHitRecord : Bool) : Bool × HitRecord K :=
  let t := Flt.fdiv (Vector3.Dot (plane.origin - ray.origin) plane.normal)
    (Vector3.Dot ray.direction plane.normal)
  let rec1 : HitRecord K :=
    { hitRecord with t := t, didHit := Flt.lt t (Flt.fin ray.max) && Flt.lt (Flt.fin ray.min) t }
  if Flt.le (Flt.fin ray.min) rec1.t && Flt.le rec1.t (Flt.fin ray.max) then
    (true, { rec1 with origin := ray.origin + Vector3.scale rec1.t ray.direction,
                       normal := plane.normal,
                       materialIndex := plane.materialIndex,
                       didHit := true })
  else
    (false, { rec1 with didHit := false })

/-- `HitTest_Plane(plane, ray)` (Utils.h:78-82): the overload without a hit record. -/
def HitTest_Plane2 (FLT_MAX : K) (plane : Plane K) (ray : Ray K) : Bool :=
  (HitTest_Plane plane ray (HitRecord.default FLT_MAX) true).1

/-- `HitTest_Triangle(triangle, ray, hitRecord, ignoreHitRecord)` (Utils.h:86-91): throws
`std::runtime_error("Not Implemented Yet")`; the `return false` after it is never reached. -/
def HitTest_Triangle (_triangle : Triangle K) (_ray : Ray K) (_hitRecord : HitRecord K)
    (_ignoreHitRecord : Bool) : Except String (Bool × HitRecord K) :=
  Except.error "Not Implemented Yet"

/-- `HitTest_Triangle(triangle, ray)` (Utils.h:93-97). -/
def HitTest_Triangle2 (FLT_MAX : K) (triangle : Triangle K) (ray : Ray K) : Except String Bool :=
  (HitTest_Triangle triangle ray (HitRecord.default FLT_MAX) true).map Prod.fst

/-- `HitTest_TriangleMesh(mesh, ray, hitRecord, ignoreHitRecord)` (Utils.h:100-105): throws
`std::runtime_error("Not Implemented Yet")`. -/
def HitTest_TriangleMesh (_mesh : TriangleMesh K) (_ray : Ray K) (_hitRecord : HitRecord K)
    (_ignoreHitRecord : Bool) : Except String (Bool × HitRecord K) :=
  Except.error "Not Implemented Yet"

/-- `HitTest_TriangleMesh(mesh, ray)` (Utils.h:107-111). -/
def HitTest_TriangleMesh2 (FLT_MAX : K) (mesh : TriangleMesh K) (ray : Ray K) :
    Except String Bool :=
  (HitTest_TriangleMesh mesh ray (HitRecord.default FLT_MAX) true).map Prod.fst

end GeometryUtils

/-! ## Lights, materials and the scene (Scene.cpp) -/

/-- Modelled from the spec: `ColorRGB` (declared in `ColorRGB.h`, missing), "a linear RGB
triple". -/
structure ColorRGB (K : Type) where
  r : K
  g : K
  b : K
  deriving DecidableEq, Repr

/-- Modelled from the spec: `LightType` (declared in `DataTypes.h`, missing). -/
inductive LightType where
  | Point
  | Directional
  deriving DecidableEq, Repr

/-- Modelled from the spec: `Light` (declared in `DataTypes.h`, missing). -/
structure Light (K : Type) where
  origin : Vector3 K
  direction : Vector3 K
  color : ColorRGB K
  intensity : K
  type : LightType
  deriving DecidableEq, Repr

/-- The material classes of Material.h, as a tagged variant holding each class's members. -/
inductive Material (K : Type) where
  | SolidColor (m_Color : ColorRGB K)
  | Lambert (m_DiffuseColor : ColorRGB K) (m_DiffuseReflectance : K)
  | LambertPhong (m_DiffuseColor : ColorRGB K) (m_DiffuseReflectance : K)
      (m_SpecularReflectance : K) (m_PhongExponent : K)
  | CookTorrence (m_Albedo : ColorRGB K) (m_Metalness : K) (m_Roughness : K)
  deriving DecidableEq, Repr

/-- The data members of `Scene` that Scene.cpp uses (the class is declared in `Scene.h`,
missing). -/
structure Scene (K : Type) where
  m_SphereGeometries : List (Sphere K)
  m_PlaneGeometries : List (Plane K)
  m_TriangleMeshGeometries : List (TriangleMesh K)
  m_Lights : List (Light K)
  m_Materials : List (Material K)
  deriving Repr

namespace Scene

variable {K : Type} [LinearOrderedField K]

open GeometryUtils

/-- `Scene::Scene()` (Scene.cpp:9-16): no geometry, no lights, and the solid red material. -/
def new : Scene K :=
  { m_SphereGeometries := [], m_PlaneGeometries := [], m_TriangleMeshGeometries := [],
    m_Lights := [], m_Materials := [Material.SolidColor ⟨1, 0, 0⟩] }

/-- The local variables of `Scene::GetClosestHit` together with its in-out hit record. -/
structure ClosestState (K : Type) where
  closestHit : HitRecord K
  smallestT : Flt K
  closestIdx : Int
  planeCloser : Bool
  deriving DecidableEq, Repr

/-- The body of the sphere loop of `GetClosestHit` (Scene.cpp:40-45) at index
`sphereIndex`. -/
def sphereStep (sqrt : K → K) (ray : Ray K) (s : Sphere K) (sphereIndex : Int)
    (st : ClosestState K) : ClosestState K :=
  let closestHit := (HitTest_Sphere sqrt s ray st.closestHit false).2
  if Flt.lt closestHit.t st.smallestT && Flt.lt (Flt.fin 0) closestHit.t then
    { st with closestHit := closestHit, smallestT := closestHit.t, closestIdx := sphereIndex }
  else
    { st with closestHit := closestHit }

/-- The sphere loop of `GetClosestHit` (Scene.cpp:38-46), from index `sphereIndex` on, over
the spheres that remain. -/
def sphereLoop (sqrt : K → K) (ray : Ray K) :
    List (Sphere K) → Int → ClosestState K → ClosestState K
  | [], _, st => st
  | s :: rest, sphereIndex, st =>
    sphereLoop sqrt ray rest (sphereIndex + 1) (sphereStep sqrt ray s sphereIndex st)

/-- The body of the plane loop of `GetClosestHit` (Scene.cpp:55-61) at index `planeIndex`. -/
def planeStep (ray : Ray K) (p : Plane K) (planeIndex : Int) (st : ClosestState K) :
    ClosestState K :=
  let closestHit := (HitTest_Plane p ray st.closestHit false).2
  if Flt.lt closestHit.t st.smallestT && Flt.lt (Flt.fin 0) closestHit.t then
    { closestHit := closestHit, smallestT := closestHit.t, closestIdx := planeIndex,
      planeCloser := true }
  else
    { st with closestHit := closestHit }

/-- The plane loop of `GetClosestHit` (Scene.cpp:53-62), from index `planeIndex` on, over the
planes that remain. -/
def planeLoop (ray : Ray K) : List (Plane K) → Int → ClosestState K → ClosestState K
  | [], _, st => st
  | p :: rest, planeIndex, st =>
    planeLoop ray rest (planeIndex + 1) (planeStep ray p planeIndex st)

/-- The state of `GetClosestHit` after both loops (Scene.cpp:31-62). -/
def closestScan (sqrt : K → K) (scene : Scene K) (ray : Ray K) (closestHit : HitRecord K) :
    ClosestState K :=
  planeLoop ray scene.m_PlaneGeometries 0
    (sphereLoop sqrt ray scene.m_SphereGeometries 0
      { closestHit := closestHit, smallestT := closestHit.t, closestIdx := -1,
        planeCloser := false })

/-- `Scene::GetClosestHit(ray, closestHit)` (Scene.cpp:29-79); the result is the record the
call leaves in `closestHit`.  (`v[closestIdx]` is unchecked in C++; the index is always in
range, see `ScanInv`.) -/
def GetClosestHit (sqrt : K → K) (scene : Scene K) (ray : Ray K) (closestHit : HitRecord K) :
    HitRecord K :=
  let st := closestScan sqrt scene ray closestHit
  if st.closestIdx ≠ -1 then
    if st.planeCloser then
      match scene.m_PlaneGeometries[st.closestIdx.toNat]? with
      | some p => (HitTest_Plane p ray st.closestHit false).2
      | none => st.closestHit
    else
      match scene.m_SphereGeometries[st.closestIdx.toNat]? with
      | some s => (HitTest_Sphere sqrt s ray st.closestHit false).2
      | none => st.closestHit
  else
    st.closestHit

/-- The body of the sphere loop of `DoesHit` (Scene.cpp:86-106): whether this sphere makes
the function return true. -/
def doesHitSphere (sqrt : K → K) (sphere : Sphere K) (ray : Ray K) : Bool :=
  let A := Vector3.Dot ray.direction ray.direction
  let B := Vector3.Dot ((2 : K) * ray.direction) (ray.origin - sphere.origin)
  let C := Vector3.Dot (ray.origin - sphere.origin) (ray.origin - sphere.origin)
    - (sphere.radius * sphere.radius)
  let disc := (B * B) - (4 * A * C)
  if disc > 0 then
    let t := Flt.fdiv (-B - sqrt disc) (2 * A)
    if Flt.lt t (Flt.fin ray.max) then
      if Flt.lt (Flt.fin ray.min) t then true else false
    else false
  else false

/-- `Scene::DoesHit(ray)` (Scene.cpp:81-115): true at the first sphere, then the first
plane, that passes its test. -/
def DoesHit (sqrt : K → K) (FLT_MAX : K) (scene : Scene K) (ray : Ray K) : Bool :=
  if scene.m_SphereGeometries.any (fun s => doesHitSphere sqrt s ray) then true
  else if scene.m_PlaneGeometries.any (fun p => HitTest_Plane2 FLT_MAX p ray) then true
  else false

/-- `Scene::AddSphere` (Scene.cpp:118-127): the scene after the call. -/
def AddSphere (scene : Scene K) (origin : Vector3 K) (radius : K) (materialIndex : Nat) :
    Scene K :=
  { scene with m_SphereGeometries := scene.m_SphereGeometries ++
      [{ origin := origin, radius := radius, materialIndex := materialIndex }] }

/-- `Scene::AddPlane` (Scene.cpp:129-138): the scene after the call. -/
def AddPlane (scene : Scene K) (origin : Vector3 K) (normal : Vector3 K) (materialIndex : Nat) :
    Scene K :=
  { scene with m_PlaneGeometries := scene.m_PlaneGeometries ++
      [{ origin := origin, normal := normal, materialIndex := materialIndex }] }

/-- `Scene::AddTriangleMesh` (Scene.cpp:140-148): the scene after the call. -/
def AddTriangleMesh (scene : Scene K) (cullMode : TriangleCullMode) (materialIndex : Nat) :
    Scene K :=
  { scene with m_TriangleMeshGeometries := scene.m_TriangleMeshGeometries ++
      [{ positions := [], normals := [], indices := [], cullMode := cullMode,
         materialIndex := materialIndex }] }

end Scene

/-! ## Colours and the BRDF functions (BRDFs.h)

The BRDF functions and the materials work on finite values: their quotients are `K`'s
division.  `sqrtf`, `pow` and `M_PI` are parameters.  The float literals `0.0001f` and
`0.04f` are the rationals `1/10000` and `4/100`.  `ColorRGB`'s operators and `MaxToOne` are
declared in `ColorRGB.h`, which is not among the source files. -/

namespace Vector3

variable {K : Type} [LinearOrderedField K]

instance : Neg (Vector3 K) := ⟨fun a => ⟨-a.x, -a.y, -a.z⟩⟩

/-- Modelled from the spec: `Vector3::Normalized`, which "returns a unit-length copy without
mutating the original": every component divided by the magnitude. -/
def Normalized (sqrt : K → K) (v : Vector3 K) : Vector3 K :=
  let m := Magnitude sqrt v
  ⟨v.x / m, v.y / m, v.z / m⟩

end Vector3

namespace ColorRGB

variable {K : Type} [LinearOrderedField K]

instance : Add (ColorRGB K) := ⟨fun a c => ⟨a.r + c.r, a.g + c.g, a.b + c.b⟩⟩
instance : Sub (ColorRGB K) := ⟨fun a c => ⟨a.r - c.r, a.g - c.g, a.b - c.b⟩⟩
instance : Mul (ColorRGB K) := ⟨fun a c => ⟨a.r * c.r, a.g * c.g, a.b * c.b⟩⟩
instance : HMul (ColorRGB K) K (ColorRGB K) := ⟨fun c s => ⟨c.r * s, c.g * s, c.b * s⟩⟩
instance : HMul K (ColorRGB K) (ColorRGB K) := ⟨fun s c => ⟨c.r * s, c.g * s, c.b * s⟩⟩
instance : HDiv (ColorRGB K) K (ColorRGB K) := ⟨fun c s => ⟨c.r / s, c.g / s, c.b / s⟩⟩

/-- Modelled from the spec: `colors::White` (declared in `ColorRGB.h`, missing). -/
def White : ColorRGB K := ⟨1, 1, 1⟩

/-- Modelled from the spec: `ColorRGB::MaxToOne` (declared in `ColorRGB.h`, missing),
"clamped so the maximum channel does not exceed 1 (over-bright channels are scaled down
proportionally, not hard-clipped)": when the largest channel exceeds 1, every channel is
divided by it. -/
def MaxToOne (c : ColorRGB K) : ColorRGB K :=
  let maxValue := max c.r (max c.g c.b)
  if maxValue > 1 then c / maxValue else c

end ColorRGB

/-- Modelled from the spec: `Square` (declared in `MathHelpers.h`, missing). -/
def Square {K : Type} [LinearOrderedField K] (a : K) : K := a * a

namespace BRDF

variable {K : Type} [LinearOrderedField K]

/-- `BRDF::Lambert(float kd, const ColorRGB& cd)` (BRDFs.h:14-18). -/
def Lambert (M_PI : K) (kd : K) (cd : ColorRGB K) : ColorRGB K :=
  let rho : ColorRGB K := cd * kd
  rho / M_PI

/-- `BRDF::Lambert(const ColorRGB& kd, const ColorRGB& cd)` (BRDFs.h:20-24). -/
def LambertRGB (M_PI : K) (kd : ColorRGB K) (cd : ColorRGB K) : ColorRGB K :=
  let rho : ColorRGB K := cd * kd
  rho / M_PI

/-- `BRDF::Phong(ks, exp, l, v, n)` (BRDFs.h:35-47). -/
def Phong (sqrt : K → K) (pow : K → K → K) (ks exp : K) (l v n : Vector3 K) : ColorRGB K :=
  let nDOTv := Vector3.Dot (Vector3.Normalized sqrt n) (Vector3.Normalized sqrt v)
  let reflectVector : Vector3 K :=
    Vector3.Normalized sqrt l - (2 * nDOTv) * Vector3.Normalized sqrt n
  let cosAlpha := Vector3.Dot (Vector3.Normalized sqrt reflectVector) (Vector3.Normalized sqrt v)
  (ks * pow cosAlpha exp) * (⟨1, 1, 1⟩ : ColorRGB K)

/-- `BRDF::FresnelFunction_Schlick(h, v, f0)` (BRDFs.h:56-66). -/
def FresnelFunction_Schlick (sqrt : K → K) (pow : K → K → K) (h v : Vector3 K)
    (f0 : ColorRGB K) : ColorRGB K :=
  let hDOTv := Vector3.Dot (Vector3.Normalized sqrt h) (Vector3.Normalized sqrt v)
  let hDOTv := max hDOTv (1 / 10000)
  let F : ColorRGB K := f0 + (ColorRGB.White - f0) * (pow (1 - hDOTv) 5)
  ColorRGB.MaxToOne F

/-- `BRDF::NormalDistribution_GGX(n, h, roughness)` (BRDFs.h:75-85). -/
def NormalDistribution_GGX (sqrt : K → K) (M_PI : K) (n h : Vector3 K) (roughness : K) : K :=
  let alpha := roughness * roughness
  let nDOTh := Vector3.Dot (Vector3.Normalized sqrt n) (Vector3.Normalized sqrt h)
  let nDOTh := max nDOTh (1 / 10000)
  let toBeSquared := Square nDOTh * (Square alpha - 1) + 1
  Square alpha / (M_PI * Square toBeSquared)

/-- `BRDF::GeometryFunction_SchlickGGX(n, v, roughness)` (BRDFs.h:95-110). -/
def GeometryFunction_SchlickGGX (sqrt : K → K) (n v : Vector3 K) (roughness : K) : K :=
  let nDOTv := Vector3.Dot (Vector3.Normalized sqrt n) (Vector3.Normalized sqrt v)
  let nDOTv := max nDOTv (1 / 10000)
  let alpha := roughness * roughness
  let k := Square (alpha + 1) / 8
  let denom := nDOTv * (1 - k) + k
  let G := nDOTv / denom
  G

/-- `BRDF::GeometryFunction_Smith(n, v, l, roughness)` (BRDFs.h:120-123). -/
def GeometryFunction_Smith (sqrt : K → K) (n v l : Vector3 K) (roughness : K) : K :=
  GeometryFunction_SchlickGGX sqrt n v roughness * GeometryFunction_SchlickGGX sqrt n l roughness

end BRDF

/-! ## Materials (Material.h) -/

namespace Material_CookTorrence

variable {K : Type} [LinearOrderedField K]

/-- The local `f0` of `Material_CookTorrence::Shade` (Material.h:110-114). -/
def f0 (m_Albedo : ColorRGB K) (m_Metalness : K) : ColorRGB K :=
  if m_Metalness = 1 then m_Albedo else ⟨4 / 100, 4 / 100, 4 / 100⟩

/-- The local `F` of `Material_CookTorrence::Shade` (Material.h:117-120). -/
def fresnel (sqrt : K → K) (pow : K → K → K) (m_Albedo : ColorRGB K) (m_Metalness : K)
    (l v : Vector3 K) : ColorRGB K :=
  let h := Vector3.Normalized sqrt (v + l)
  BRDF.FresnelFunction_Schlick sqrt pow h v (f0 m_Albedo m_Metalness)

/-- The local `specular` of `Material_CookTorrence::Shade` (Material.h:117-138). -/
def specular (sqrt : K → K) (pow : K → K → K) (M_PI : K) (m_Albedo : ColorRGB K)
    (m_Metalness m_Roughness : K) (hitRecord : HitRecord K) (l v : Vector3 K) : ColorRGB K :=
  let h := Vector3.Normalized sqrt (v + l)
  let F := fresnel sqrt pow m_Albedo m_Metalness l v
  let n := Vector3.Normalized sqrt hitRecord.normal
  let D := BRDF.NormalDistribution_GGX sqrt M_PI n h m_Roughness
  let G := BRDF.GeometryFunction_Smith sqrt n v l m_Roughness
  let vDOTn := Vector3.Dot (Vector3.Normalized sqrt v) (Vector3.Normalized sqrt n)
  let vDOTn := max vDOTn (1 / 10000)
  let lDOTn := Vector3.Dot (Vector3.Normalized sqrt l) (Vector3.Normalized sqrt n)
  let lDOTn := max lDOTn (1 / 10000)
  let nom : ColorRGB K := D * F * G
  let denom := 4 * vDOTn * lDOTn
  nom / denom

/-- The local `diffuse` of `Material_CookTorrence::Shade` (Material.h:140-148). -/
def diffuse (sqrt : K → K) (pow : K → K → K) (M_PI : K) (m_Albedo : ColorRGB K)
    (m_Metalness : K) (l v : Vector3 K) : ColorRGB K :=
  let F := fresnel sqrt pow m_Albedo m_Metalness l v
  let kd : ColorRGB K := if m_Metalness = 0 then (⟨1, 1, 1⟩ : ColorRGB K) - F else ⟨0, 0, 0⟩
  if m_Metalness = 0 then BRDF.LambertRGB M_PI kd m_Albedo else ⟨0, 0, 0⟩

/-- `Material_CookTorrence::Shade(hitRecord, l, v)` (Material.h:107-156). -/
def Shade (sqrt : K → K) (pow : K → K → K) (M_PI : K) (m_Albedo : ColorRGB K)
    (m_Metalness m_Roughness : K) (hitRecord : HitRecord K) (l v : Vector3 K) : ColorRGB K :=
  let finalColor : ColorRGB K :=
    diffuse sqrt pow M_PI m_Albedo m_Metalness l v
      + specular sqrt pow M_PI m_Albedo m_Metalness m_Roughness hitRecord l v
  ColorRGB.MaxToOne finalColor

end Material_CookTorrence

namespace Material

variable {K : Type} [LinearOrderedField K]

/-- The virtual `Material::Shade(hitRecord, l, v)` (Material.h:27), dispatched on the class
of the material: `Material_SolidColor` (Material.h:41-44), `Material_Lambert`
(Material.h:60-63), `Material_LambertPhong` (Material.h:83-87) and `Material_CookTorrence`
(Material.h:107-156). -/
def Shade (sqrt : K → K) (pow : K → K → K) (M_PI : K) (material : Material K)
    (hitRecord : HitRecord K) (l v : Vector3 K) : ColorRGB K :=
  match material with
  | SolidColor m_Color => m_Color
  | Lambert m_DiffuseColor m_DiffuseReflectance =>
    BRDF.Lambert M_PI m_DiffuseReflectance m_DiffuseColor
  | LambertPhong m_DiffuseColor m_DiffuseReflectance m_SpecularReflectance m_PhongExponent =>
    BRDF.Lambert M_PI m_DiffuseReflectance m_DiffuseColor
      + BRDF.Phong sqrt pow m_SpecularReflectance m_PhongExponent l (-v) hitRecord.normal
  | CookTorrence m_Albedo m_Metalness m_Roughness =>
    Material_CookTorrence.Shade sqrt pow M_PI m_Albedo m_Metalness m_Roughness hitRecord l v

end Material

/-! ## `LightUtils` (Utils.h) -/

namespace LightUtils

variable {K : Type} [LinearOrderedField K]

/-- `LightUtils::GetDirectionToLight(light, origin)` (Utils.h:118-132). -/
def GetDirectionToLight (sqrt : K → K) (light : Light K) (origin : Vector3 K) : Vector3 K :=
  match light.type with
  | LightType.Point => light.origin - origin
  | LightType.Directional =>
    let directionalLight := light.direction
    Vector3.Normalize sqrt directionalLight

/-- `LightUtils::GetRadiance(light, target)` (Utils.h:134-146). -/
def GetRadiance (sqrt : K → K) (light : Light K) (target : Vector3 K) : ColorRGB K :=
  if light.type = LightType.Point then
    let radiusVect := light.origin - target
    let radius := Vector3.Magnitude sqrt radiusVect
    light.color * (light.intensity / (radius * radius))
  else
    light.color * light.intensity

end LightUtils

/-! ## Building a scene (Scene.cpp) -/

namespace Scene

variable {K : Type} [LinearOrderedField K]

/-- `Scene::AddPointLight` (Scene.cpp:150-160): the scene after the call.  (The members the
function does not assign keep the value of a default-constructed `Light`, taken as zero.) -/
def AddPointLight (scene : Scene K) (origin : Vector3 K) (intensity : K) (color : ColorRGB K) :
    Scene K :=
  { scene with m_Lights := scene.m_Lights ++
      [{ origin := origin, direction := ⟨0, 0, 0⟩, color := color, intensity := intensity,
         type := LightType.Point }] }

/-- `Scene::AddDirectionalLight` (Scene.cpp:162-172): the scene after the call. -/
def AddDirectionalLight (scene : Scene K) (direction : Vector3 K) (intensity : K)
    (color : ColorRGB K) : Scene K :=
  { scene with m_Lights := scene.m_Lights ++
      [{ origin := ⟨0, 0, 0⟩, direction := direction, color := color, intensity := intensity,
         type := LightType.Directional }] }

/-- `Scene::AddMaterial` (Scene.cpp:174-178): the scene after the call and the returned
`unsigned char`, the last index reduced modulo 256 by the cast. -/
def AddMaterial (scene : Scene K) (pMaterial : Material K) : Scene K × Nat :=
  let scene1 := { scene with m_Materials := scene.m_Materials ++ [pMaterial] }
  (scene1, (scene1.m_Materials.length - 1) % 256)

/-- One call of a scene-building member function, with its arguments. -/
inductive Call (K : Type) where
  | AddSphere (origin : Vector3 K) (radius : K) (materialIndex : Nat)
  | AddPlane (origin : Vector3 K) (normal : Vector3 K) (materialIndex : Nat)
  | AddTriangleMesh (cullMode : TriangleCullMode) (materialIndex : Nat)
  | AddPointLight (origin : Vector3 K) (intensity : K) (color : ColorRGB K)
  | AddDirectionalLight (direction : Vector3 K) (intensity : K) (color : ColorRGB K)
  | AddMaterial (pMaterial : Material K)

/-- The scene after one call. -/
def call (scene : Scene K) : Call K → Scene K
  | Call.AddSphere origin radius materialIndex => scene.AddSphere origin radius materialIndex
  | Call.AddPlane origin normal materialIndex => scene.AddPlane origin normal materialIndex
  | Call.AddTriangleMesh cullMode materialIndex => scene.AddTriangleMesh cullMode materialIndex
  | Call.AddPointLight origin intensity color => scene.AddPointLight origin intensity color
  | Call.AddDirectionalLight direction intensity color =>
    scene.AddDirectionalLight direction intensity color
  | Call.AddMaterial pMaterial => (scene.AddMaterial pMaterial).1

/-- The scene after a sequence of calls, made in order. -/
def run (scene : Scene K) (calls : List (Call K)) : Scene K :=
  calls.foldl call scene

/-- Every sphere's and every plane's `materialIndex` is an index into the material table. -/
def MaterialIndicesValid (scene : Scene K) : Prop :=
  (∀ s ∈ scene.m_SphereGeometries, s.materialIndex < scene.m_Materials.length)
  ∧ (∀ p ∈ scene.m_PlaneGeometries, p.materialIndex < scene.m_Materials.length)

/-- Every `AddSphere` and `AddPlane` call of the sequence is given an index that is, when the
call is made, an index into the material table. -/
def CallsGivenValidIndices : Scene K → List (Call K) → Prop
  | _, [] => True
  | scene, c :: rest =>
    (match c with
      | Call.AddSphere _ _ materialIndex => materialIndex < scene.m_Materials.length
      | Call.AddPlane _ _ materialIndex => materialIndex < scene.m_Materials.length
      | _ => True)
    ∧ CallsGivenValidIndices (scene.call c) rest

end Scene

/-! ## Matrices (Matrix.cpp) -/

/-- Modelled from the spec: `Vector4` (declared in `Vector4.h`, missing), an ordered "quad of
floating-point components". -/
structure Vector4 (K : Type) where
  x : K
  y : K
  z : K
  w : K
  deriving DecidableEq, Repr

namespace Vector4

variable {K : Type} [LinearOrderedField K]

/-- Modelled from the spec: `Vector4::operator[]` for reading, the component at an index
from 0 to 3. -/
def get (v : Vector4 K) (index : Nat) : K :=
  match index with
  | 0 => v.x
  | 1 => v.y
  | 2 => v.z
  | _ => v.w

/-- Modelled from the spec: an assignment through `Vector4::operator[]`, the vector with the
component at an index from 0 to 3 replaced. -/
def set (v : Vector4 K) (index : Nat) (a : K) : Vector4 K :=
  match index with
  | 0 => { v with x := a }
  | 1 => { v with y := a }
  | 2 => { v with z := a }
  | _ => { v with w := a }

end Vector4

/-- The data member `Vector4 data[4]` of `Matrix` (the class is declared in `Matrix.h`,
missing). -/
structure Matrix (K : Type) where
  data0 : Vector4 K
  data1 : Vector4 K
  data2 : Vector4 K
  data3 : Vector4 K
  deriving DecidableEq, Repr

namespace Matrix

variable {K : Type} [LinearOrderedField K]

/-- `Matrix::operator[](index) const` (Matrix.cpp:185-189), for an index from 0 to 3. -/
def get (m : Matrix K) (index : Nat) : Vector4 K :=
  match index with
  | 0 => m.data0
  | 1 => m.data1
  | 2 => m.data2
  | _ => m.data3

/-- An assignment `m[r][c] = a` through `Matrix::operator[](index)` (Matrix.cpp:179-183) and
`Vector4::operator[]`. -/
def setEntry (m : Matrix K) (r c : Nat) (a : K) : Matrix K :=
  match r with
  | 0 => { m with data0 := m.data0.set c a }
  | 1 => { m with data1 := m.data1.set c a }
  | 2 => { m with data2 := m.data2.set c a }
  | _ => { m with data3 := m.data3.set c a }

/-- Modelled from the spec: the default-constructed `Matrix{}` (`Matrix.h`, missing), taken
as the identity; `Transpose` overwrites all sixteen entries before any is read. -/
def default : Matrix K :=
  { data0 := ⟨1, 0, 0, 0⟩, data1 := ⟨0, 1, 0, 0⟩, data2 := ⟨0, 0, 1, 0⟩, data3 := ⟨0, 0, 0, 1⟩ }

/-- The copy constructor `Matrix::Matrix(const Matrix& m)` (Matrix.cpp:21-27). -/
def copy (m : Matrix K) : Matrix K :=
  { data0 := m.get 0, data1 := m.get 1, data2 := m.get 2, data3 := m.get 3 }

/-- The member `Matrix::Transpose()` (Matrix.cpp:57-74): the matrix it leaves in `*this`,
which is also the one it returns a reference to. -/
def Transpose (m : Matrix K) : Matrix K :=
  let result : Matrix K :=
    (List.range 4).foldl
      (fun result r =>
        (List.range 4).foldl (fun result c => result.setEntry r c ((m.get c).get r)) result)
      Matrix.default
  { data0 := result.get 0, data1 := result.get 1, data2 := result.get 2, data3 := result.get 3 }

/-- The static `Matrix::Transpose(const Matrix& m)` (Matrix.cpp:76-82): the returned matrix.
The argument is a const reference, so the caller's matrix is not written. -/
def TransposeOf (m : Matrix K) : Matrix K :=
  let out := copy m
  let out := out.Transpose
  out

/-- `Matrix::operator==` (Matrix.cpp:223-229), with `Vector4::operator==` (missing) taken as
equality of the four components. -/
def eq (a m : Matrix K) : Bool :=
  decide (a.data0 = m.data0) && decide (a.data1 = m.data1) && decide (a.data2 = m.data2)
    && decide (a.data3 = m.data3)

end Matrix

/-! ## Matrix transforms and products (Matrix.cpp), the camera (Camera.h) -/

namespace Vector3

variable {K : Type} [LinearOrderedField K]

instance : HMul (Vector3 K) K (Vector3 K) := ⟨fun a s => ⟨a.x * s, a.y * s, a.z * s⟩⟩

/-- Modelled from the spec: `Vector3::UnitX` (declared in `Vector3.h`, missing). -/
def UnitX : Vector3 K := ⟨1, 0, 0⟩

/-- Modelled from the spec: `Vector3::UnitY` (declared in `Vector3.h`, missing). -/
def UnitY : Vector3 K := ⟨0, 1, 0⟩

/-- Modelled from the spec: `Vector3::UnitZ` (declared in `Vector3.h`, missing). -/
def UnitZ : Vector3 K := ⟨0, 0, 1⟩

/-- Modelled from the spec: `Vector3::Cross`, the cross product. -/
def Cross (a b : Vector3 K) : Vector3 K :=
  ⟨a.y * b.z - a.z * b.y, a.z * b.x - a.x * b.z, a.x * b.y - a.y * b.x⟩

end Vector3

namespace Vector4

variable {K : Type} [LinearOrderedField K]

/-- Modelled from the spec: `Vector4::Dot`, the dot product of the four components. -/
def Dot (a b : Vector4 K) : K := a.x * b.x + a.y * b.y + a.z * b.z + a.w * b.w

/-- Modelled from the spec: the constructor `Vector4(const Vector3& v, float w)`. -/
def ofVector3 (v : Vector3 K) (w : K) : Vector4 K := ⟨v.x, v.y, v.z, w⟩

end Vector4

namespace Matrix

variable {K : Type} [LinearOrderedField K]

/-- The constructor `Matrix(xAxis, yAxis, zAxis, t)` from four `Vector4`
(Matrix.cpp:13-19). -/
def ofVector4 (xAxis yAxis zAxis t : Vector4 K) : Matrix K :=
  { data0 := xAxis, data1 := yAxis, data2 := zAxis, data3 := t }

/-- The constructor `Matrix(xAxis, yAxis, zAxis, t)` from four `Vector3` (Matrix.cpp:8-11). -/
def ofVector3 (xAxis yAxis zAxis t : Vector3 K) : Matrix K :=
  ofVector4 (Vector4.ofVector3 xAxis 0) (Vector4.ofVector3 yAxis 0) (Vector4.ofVector3 zAxis 0)
    (Vector4.ofVector3 t 1)

/-- `Matrix::TransformVector(float x, float y, float z)` (Matrix.cpp:34-41). -/
def TransformVectorXYZ (m : Matrix K) (x y z : K) : Vector3 K :=
  ⟨m.data0.x * x + m.data1.x * y + m.data2.x * z,
   m.data0.y * x + m.data1.y * y + m.data2.y * z,
   m.data0.z * x + m.data1.z * y + m.data2.z * z⟩

/-- `Matrix::TransformVector(const Vector3& v)` (Matrix.cpp:29-32). -/
def TransformVector (m : Matrix K) (v : Vector3 K) : Vector3 K :=
  m.TransformVectorXYZ v.x v.y v.z

/-- `Matrix::TransformPoint(float x, float y, float z)` (Matrix.cpp:48-55). -/
def TransformPointXYZ (m : Matrix K) (x y z : K) : Vector3 K :=
  ⟨m.data0.x * x + m.data1.x * y + m.data2.x * z + m.data3.x,
   m.data0.y * x + m.data1.y * y + m.data2.y * z + m.data3.y,
   m.data0.z * x + m.data1.z * y + m.data2.z * z + m.data3.z⟩

/-- `Matrix::TransformPoint(const Vector3& p)` (Matrix.cpp:43-46). -/
def TransformPoint (m : Matrix K) (p : Vector3 K) : Vector3 K :=
  m.TransformPointXYZ p.x p.y p.z

/-- `Matrix::CreateTranslation(float x, float y, float z)` (Matrix.cpp:104-112). -/
def CreateTranslationXYZ (x y z : K) : Matrix K :=
  ofVector4 ⟨1, 0, 0, x⟩ ⟨0, 1, 0, y⟩ ⟨0, 0, 1, z⟩ ⟨0, 0, 0, 1⟩

/-- `Matrix::CreateTranslation(const Vector3& t)` (Matrix.cpp:114-117). -/
def CreateTranslation (t : Vector3 K) : Matrix K :=
  ofVector3 Vector3.UnitX Vector3.UnitY Vector3.UnitZ t

/-- `Matrix::operator*(const Matrix& m) const` (Matrix.cpp:191-205). -/
def mul (a m : Matrix K) : Matrix K :=
  let m_transposed := TransposeOf m
  (List.range 4).foldl
    (fun result r =>
      (List.range 4).foldl
        (fun result c => result.setEntry r c (Vector4.Dot (a.get r) (m_transposed.get c)))
        result)
    Matrix.default

/-- `Matrix::operator*=(const Matrix& m)` (Matrix.cpp:207-221): the matrix it leaves in
`*this`. -/
def mulAssign (a m : Matrix K) : Matrix K :=
  let copy := Matrix.copy a
  let m_transposed := TransposeOf m
  (List.range 4).foldl
    (fun data r =>
      (List.range 4).foldl
        (fun data c => data.setEntry r c (Vector4.Dot (copy.get r) (m_transposed.get c)))
        data)
    a

end Matrix

/-- The data members of `Camera` (Camera.h:21-31). -/
structure Camera (K : Type) where
  origin : Vector3 K
  fovAngle : K
  forward : Vector3 K
  up : Vector3 K
  right : Vector3 K
  totalPitch : K
  totalYaw : K
  cameraToWorld : Matrix K
  deriving DecidableEq, Repr

namespace Camera

variable {K : Type} [LinearOrderedField K]

/-- `Camera::CalculateCameraToWorld()` (Camera.h:33-50): the camera after the call and the
returned matrix. -/
def CalculateCameraToWorld (sqrt : K → K) (camera : Camera K) : Camera K × Matrix K :=
  let worldUp : Vector3 K := Vector3.UnitY
  let right := Vector3.Normalize sqrt (Vector3.Cross worldUp camera.forward)
  let up := Vector3.Normalize sqrt (Vector3.Cross camera.forward right)
  let cameraToWorld : Matrix K :=
    Matrix.ofVector4 ⟨right.x, right.y, right.z, 0⟩ ⟨up.x, up.y, up.z, 0⟩
      ⟨camera.forward.x, camera.forward.y, camera.forward.z, 0⟩
      ⟨camera.origin.x, camera.origin.y, camera.origin.z, 0⟩
  ({ camera with right := right, up := up, cameraToWorld := cameraToWorld }, cameraToWorld)

end Camera

/-! ## The light loop of the renderer (Renderer.cpp) -/

namespace Renderer

variable {K : Type} [LinearOrderedField K]

/-- Modelled from the spec: `Renderer::LightingMode` (declared in `Renderer.h`, missing), the
four "mutually exclusive alternative debug views". -/
inductive LightingMode where
  | ObservedArea
  | Radiance
  | BRDF
  | Combined
  deriving DecidableEq, Repr

/-- The variables the light loop of `Renderer::Render` changes (Renderer.cpp:58-72). -/
structure LightLoopState (K : Type) where
  finalColor : ColorRGB K
  closestHit : HitRecord K
  lightRay : Ray K
  deriving DecidableEq, Repr

/-- Modelled from the spec: the default-constructed `Ray{}` (`DataTypes.h`, missing): zero
vectors and the default bounds `0.0001f` and `FLT_MAX`. -/
def defaultRay (FLT_MAX : K) : Ray K :=
  { origin := ⟨0, 0, 0⟩, direction := ⟨0, 0, 0⟩, min := 1 / 10000, max := FLT_MAX }

/-- The contribution one light adds to `finalColor` under the lighting mode
(Renderer.cpp:95-110); `none` when nothing is added. -/
def contribution (mode : LightingMode) (Ergb BRDFrgb : ColorRGB K) (lambertsCos : K) :
    Option (ColorRGB K) :=
  match mode with
  | LightingMode.ObservedArea =>
    if lambertsCos > 0 then some ⟨lambertsCos, lambertsCos, lambertsCos⟩ else none
  | LightingMode.Radiance => some Ergb
  | LightingMode.BRDF => some BRDFrgb
  | LightingMode.Combined => some (Ergb * BRDFrgb * lambertsCos)

/-- The body of the light loop of `Renderer::Render` (Renderer.cpp:77-119) for one light.
(`materials[closestHit.materialIndex]` is unchecked in C++; for an index outside the table,
which is undefined behaviour there, the model takes black.) -/
def lightStep (sqrt : K → K) (pow : K → K → K) (M_PI FLT_MAX : K) (scene : Scene K)
    (viewRay : Ray K) (m_CurrentLightingMode : LightingMode) (m_ShadowsEnabled : Bool)
    (st : LightLoopState K) (light : Light K) : LightLoopState K :=
  let origin := st.closestHit.origin + (st.closestHit.normal * (1 / 100 : K))
  let direction := LightUtils.GetDirectionToLight sqrt light origin
  let lightRay : Ray K :=
    { origin := origin, direction := Vector3.Normalize sqrt direction, min := 1 / 10000,
      max := Vector3.Magnitude sqrt direction }
  let Ergb := LightUtils.GetRadiance sqrt light st.closestHit.origin
  let closestHit : HitRecord K :=
    { st.closestHit with normal := Vector3.Normalize sqrt st.closestHit.normal }
  let lambertsCos := max (Vector3.Dot closestHit.normal lightRay.direction) (1 / 10000)
  let BRDFrgb : ColorRGB K :=
    match scene.m_Materials[closestHit.materialIndex]? with
    | some material =>
      Material.Shade sqrt pow M_PI material closestHit lightRay.direction viewRay.direction
    | none => ⟨0, 0, 0⟩
  let finalColor : ColorRGB K :=
    match contribution m_CurrentLightingMode Ergb BRDFrgb lambertsCos with
    | some c => st.finalColor + c
    | none => st.finalColor
  let finalColor : ColorRGB K :=
    if m_ShadowsEnabled then
      if Scene.DoesHit sqrt FLT_MAX scene lightRay then finalColor * (1 / 2 : K) else finalColor
    else finalColor
  { finalColor := finalColor, closestHit := closestHit, lightRay := lightRay }

/-- The colour `Renderer::Render` accumulates for one pixel before `MaxToOne`
(Renderer.cpp:57-123), for the pixel's view ray: black when the closest-hit query reports no
hit, and otherwise the result of the loop over the scene's lights, taken in order. -/
def accumulatedColor (sqrt : K → K) (pow : K → K → K) (M_PI FLT_MAX : K) (scene : Scene K)
    (viewRay : Ray K) (m_CurrentLightingMode : LightingMode) (m_ShadowsEnabled : Bool) :
    ColorRGB K :=
  let closestHit := Scene.GetClosestHit sqrt scene viewRay (HitRecord.default FLT_MAX)
  if closestHit.didHit then
    (scene.m_Lights.foldl
      (lightStep sqrt pow M_PI FLT_MAX scene viewRay m_CurrentLightingMode m_ShadowsEnabled)
      { finalColor := ⟨0, 0, 0⟩, closestHit := closestHit, lightRay := defaultRay FLT_MAX }).finalColor
  else
    ⟨0, 0, 0⟩

/-- The colour `Renderer::Render` writes for one pixel (Renderer.cpp:127), before the
conversion to 8-bit channels. -/
def pixelColor (sqrt : K → K) (pow : K → K → K) (M_PI FLT_MAX : K) (scene : Scene K)
    (viewRay : Ray K) (m_CurrentLightingMode : LightingMode) (m_ShadowsEnabled : Bool) :
    ColorRGB K :=
  ColorRGB.MaxToOne
    (accumulatedColor sqrt pow M_PI FLT_MAX scene viewRay m_CurrentLightingMode
      m_ShadowsEnabled)

end Renderer

/-! ## The geometry term on floats that may be non-finite (BRDFs.h)

`Normalized` divides by the magnitude, which is zero for the zero vector.  The definitions
of this section follow the quotient of `GeometryFunction_SchlickGGX` through the IEEE special
values; on vectors of non-zero magnitude they agree with the definitions over `K`. -/

namespace Flt

variable {K : Type} [LinearOrderedField K]

/-- IEEE product: NaN for a NaN operand and for `0 * ±∞`, otherwise the sign rule. -/
def mul : Flt K → Flt K → Flt K
  | fin a, fin b => fin (a * b)
  | fin a, pinf => if a = 0 then nan else if 0 < a then pinf else ninf
  | fin a, ninf => if a = 0 then nan else if 0 < a then ninf else pinf
  | pinf, fin b => if b = 0 then nan else if 0 < b then pinf else ninf
  | ninf, fin b => if b = 0 then nan else if 0 < b then ninf else pinf
  | pinf, pinf => pinf
  | pinf, ninf => ninf
  | ninf, pinf => ninf
  | ninf, ninf => pinf
  | nan, _ => nan
  | _, nan => nan

/-- IEEE sum: NaN for a NaN operand and for `+∞ + -∞`. -/
def add : Flt K → Flt K → Flt K
  | fin a, fin b => fin (a + b)
  | fin _, pinf => pinf
  | fin _, ninf => ninf
  | pinf, fin _ => pinf
  | ninf, fin _ => ninf
  | pinf, pinf => pinf
  | ninf, ninf => ninf
  | pinf, ninf => nan
  | ninf, pinf => nan
  | nan, _ => nan
  | _, nan => nan

/-- IEEE quotient: `fdiv` on finite operands, NaN for a NaN operand and for `±∞ / ±∞`, zero
for a finite value over an infinity (a zero divisor is read as `+0`, as in `fdiv`). -/
def div : Flt K → Flt K → Flt K
  | fin a, fin b => fdiv a b
  | fin _, pinf => fin 0
  | fin _, ninf => fin 0
  | pinf, fin b => if 0 ≤ b then pinf else ninf
  | ninf, fin b => if 0 ≤ b then ninf else pinf
  | pinf, pinf => nan
  | pinf, ninf => nan
  | ninf, pinf => nan
  | ninf, ninf => nan
  | nan, _ => nan
  | _, nan => nan

/-- `std::max(a, b)`: `(a < b) ? b : a`, so a NaN first argument is returned. -/
def max (a b : Flt K) : Flt K := if lt a b then b else a

end Flt

namespace Ieee

variable {K : Type} [LinearOrderedField K]

/-- Modelled from the spec: `Vector3::Normalized`, every component divided by the magnitude,
with float quotients. -/
def Normalized (sqrt : K → K) (v : Vector3 K) : Vector3 (Flt K) :=
  let m := Vector3.Magnitude sqrt v
  ⟨Flt.fdiv v.x m, Flt.fdiv v.y m, Flt.fdiv v.z m⟩

/-- Modelled from the spec: `Vector3::Dot`, the dot product, on components that may be
non-finite. -/
def Dot (a b : Vector3 (Flt K)) : Flt K :=
  Flt.add (Flt.add (Flt.mul a.x b.x) (Flt.mul a.y b.y)) (Flt.mul a.z b.z)

/-- `BRDF::GeometryFunction_SchlickGGX(n, v, roughness)` (BRDFs.h:95-110) with float
quotients. -/
def GeometryFunction_SchlickGGX (sqrt : K → K) (n v : Vector3 K) (roughness : K) : Flt K :=
  let nDOTv := Dot (Normalized sqrt n) (Normalized sqrt v)
  let nDOTv := Flt.max nDOTv (Flt.fin (1 / 10000))
  let alpha := roughness * roughness
  let k := Square (alpha + 1) / 8
  let denom := Flt.add (Flt.mul nDOTv (Flt.fin (1 - k))) (Flt.fin k)
  let G := Flt.div nDOTv denom
  G

/-- `BRDF::GeometryFunction_Smith(n, v, l, roughness)` (BRDFs.h:120-123) with float
quotients. -/
def GeometryFunction_Smith (sqrt : K → K) (n v l : Vector3 K) (roughness : K) : Flt K :=
  Flt.mul (GeometryFunction_SchlickGGX sqrt n v roughness)
    (GeometryFunction_SchlickGGX sqrt n l roughness)

end Ieee

/-! ## Shading and the plane test on floats that may be non-finite (Material.h, Utils.h)

`Material_CookTorrence::Shade` divides by a magnitude in every `Normalized` and by
`π·(…)²` in the normal distribution term; `HitTest_Plane` compares `t` with bounds that a
caller may set to an infinity.  The definitions of this section follow these values through
the IEEE special values: in the namespace `Ieee` vectors and colours have components of type
`Flt K`, and in the namespace `Unbounded` a ray has bounds of type `Flt K`.  On inputs for
which no divisor is zero and the bounds are finite they agree with the definitions over
`K`. -/

namespace Flt

variable {K : Type} [LinearOrderedField K]

/-- IEEE negation. -/
def neg : Flt K → Flt K
  | fin a => fin (-a)
  | pinf => ninf
  | ninf => pinf
  | nan => nan

/-- IEEE difference `a - b`, the sum of `a` and the negation of `b`. -/
def sub (a b : Flt K) : Flt K := add a (neg b)

/-- `sqrtf` on a float that may be non-finite: NaN for a negative or NaN argument. -/
def sqrtf (sqrt : K → K) : Flt K → Flt K
  | fin a => if a < 0 then nan else fin (sqrt a)
  | pinf => pinf
  | ninf => nan
  | nan => nan

/-- `std::pow(a, b)` for a base that may be non-finite and the exponent the code passes, the
odd positive integer `5.f`: NaN for NaN, and each infinity is kept. -/
def powf (pow : K → K → K) (a : Flt K) (b : K) : Flt K :=
  match a with
  | fin x => fin (pow x b)
  | pinf => pinf
  | ninf => ninf
  | nan => nan

end Flt

namespace Ieee

variable {K : Type} [LinearOrderedField K]

namespace Vec

/-- A vector of finite floats, as a vector of floats that may be non-finite. -/
def ofFinite (v : Vector3 K) : Vector3 (Flt K) := ⟨Flt.fin v.x, Flt.fin v.y, Flt.fin v.z⟩

/-- Modelled from the spec: `Vector3::Magnitude`, the square root of the sum of the squared
components, on components that may be non-finite. -/
def Magnitude (sqrt : K → K) (v : Vector3 (Flt K)) : Flt K :=
  Flt.sqrtf sqrt (Flt.add (Flt.add (Flt.mul v.x v.x) (Flt.mul v.y v.y)) (Flt.mul v.z v.z))

/-- Modelled from the spec: `Vector3::Normalized`, every component divided by the magnitude,
on components that may be non-finite. -/
def Normalized (sqrt : K → K) (v : Vector3 (Flt K)) : Vector3 (Flt K) :=
  let m := Magnitude sqrt v
  ⟨Flt.div v.x m, Flt.div v.y m, Flt.div v.z m⟩

end Vec

namespace Color

/-- A colour of finite floats, as a colour of floats that may be non-finite. -/
def ofFinite (c : ColorRGB K) : ColorRGB (Flt K) := ⟨Flt.fin c.r, Flt.fin c.g, Flt.fin c.b⟩

/-- Modelled from the spec: `ColorRGB + ColorRGB`, channel by channel. -/
def add (a c : ColorRGB (Flt K)) : ColorRGB (Flt K) :=
  ⟨Flt.add a.r c.r, Flt.add a.g c.g, Flt.add a.b c.b⟩

/-- Modelled from the spec: `ColorRGB - ColorRGB`, channel by channel. -/
def sub (a c : ColorRGB (Flt K)) : ColorRGB (Flt K) :=
  ⟨Flt.sub a.r c.r, Flt.sub a.g c.g, Flt.sub a.b c.b⟩

/-- Modelled from the spec: `ColorRGB * ColorRGB`, channel by channel. -/
def mul (a c : ColorRGB (Flt K)) : ColorRGB (Flt K) :=
  ⟨Flt.mul a.r c.r, Flt.mul a.g c.g, Flt.mul a.b c.b⟩

/-- Modelled from the spec: `ColorRGB * float` and `float * ColorRGB`, every channel times
the scalar. -/
def scale (c : ColorRGB (Flt K)) (s : Flt K) : ColorRGB (Flt K) :=
  ⟨Flt.mul c.r s, Flt.mul c.g s, Flt.mul c.b s⟩

/-- Modelled from the spec: `ColorRGB / float`, every channel divided by the scalar. -/
def div (c : ColorRGB (Flt K)) (s : Flt K) : ColorRGB (Flt K) :=
  ⟨Flt.div c.r s, Flt.div c.g s, Flt.div c.b s⟩

/-- Modelled from the spec: `ColorRGB::MaxToOne` (declared in `ColorRGB.h`, missing): when
the largest channel, `std::max(r, std::max(g, b))`, exceeds 1, every channel is divided by
it. -/
def MaxToOne (c : ColorRGB (Flt K)) : ColorRGB (Flt K) :=
  let maxValue := Flt.max c.r (Flt.max c.g c.b)
  if Flt.lt (Flt.fin 1) maxValue then div c maxValue else c

end Color

namespace Shading

/-- `BRDF::Lambert(const ColorRGB& kd, const ColorRGB& cd)` (BRDFs.h:20-24) with float
quotients. -/
def LambertRGB (M_PI : K) (kd cd : ColorRGB (Flt K)) : ColorRGB (Flt K) :=
  let rho := Color.mul cd kd
  Color.div rho (Flt.fin M_PI)

/-- `BRDF::FresnelFunction_Schlick(h, v, f0)` (BRDFs.h:56-66) on vectors that may be
non-finite. -/
def FresnelFunction_Schlick (sqrt : K → K) (pow : K → K → K) (h v : Vector3 (Flt K))
    (f0 : ColorRGB K) : ColorRGB (Flt K) :=
  let hDOTv := Dot (Vec.Normalized sqrt h) (Vec.Normalized sqrt v)
  let hDOTv := Flt.max hDOTv (Flt.fin (1 / 10000))
  let F := Color.add (Color.ofFinite f0)
    (Color.scale (Color.ofFinite (ColorRGB.White - f0))
      (Flt.powf pow (Flt.sub (Flt.fin 1) hDOTv) 5))
  Color.MaxToOne F

/-- `BRDF::NormalDistribution_GGX(n, h, roughness)` (BRDFs.h:75-85) with float quotients. -/
def NormalDistribution_GGX (sqrt : K → K) (M_PI : K) (n h : Vector3 (Flt K))
    (roughness : K) : Flt K :=
  let alpha := roughness * roughness
  let nDOTh := Dot (Vec.Normalized sqrt n) (Vec.Normalized sqrt h)
  let nDOTh := Flt.max nDOTh (Flt.fin (1 / 10000))
  let toBeSquared :=
    Flt.add (Flt.mul (Flt.mul nDOTh nDOTh) (Flt.fin (Square alpha - 1))) (Flt.fin 1)
  Flt.div (Flt.fin (Square alpha))
    (Flt.mul (Flt.fin M_PI) (Flt.mul toBeSquared toBeSquared))

/-- `BRDF::GeometryFunction_SchlickGGX(n, v, roughness)` (BRDFs.h:95-110) on vectors that may
be non-finite. -/
def GeometryFunction_SchlickGGX (sqrt : K → K) (n v : Vector3 (Flt K)) (roughness : K) :
    Flt K :=
  let nDOTv := Dot (Vec.Normalized sqrt n) (Vec.Normalized sqrt v)
  let nDOTv := Flt.max nDOTv (Flt.fin (1 / 10000))
  let alpha := roughness * roughness
  let k := Square (alpha + 1) / 8
  let denom := Flt.add (Flt.mul nDOTv (Flt.fin (1 - k))) (Flt.fin k)
  let G := Flt.div nDOTv denom
  G

/-- `BRDF::GeometryFunction_Smith(n, v, l, roughness)` (BRDFs.h:120-123) on vectors that may
be non-finite. -/
def GeometryFunction_Smith (sqrt : K → K) (n v l : Vector3 (Flt K)) (roughness : K) : Flt K :=
  Flt.mul (GeometryFunction_SchlickGGX sqrt n v roughness)
    (GeometryFunction_SchlickGGX sqrt n l roughness)

end Shading

namespace CookTorrence

/-- The local `F` of `Material_CookTorrence::Shade` (Material.h:117-120) with float
quotients. -/
def fresnel (sqrt : K → K) (pow : K → K → K) (m_Albedo : ColorRGB K) (m_Metalness : K)
    (l v : Vector3 K) : ColorRGB (Flt K) :=
  let h := Vec.Normalized sqrt (Vec.ofFinite (v + l))
  Shading.FresnelFunction_Schlick sqrt pow h (Vec.ofFinite v)
    (dae.Material_CookTorrence.f0 m_Albedo m_Metalness)

/-- The local `specular` of `Material_CookTorrence::Shade` (Material.h:117-138) with float
quotients. -/
def specular (sqrt : K → K) (pow : K → K → K) (M_PI : K) (m_Albedo : ColorRGB K)
    (m_Metalness m_Roughness : K) (hitRecord : HitRecord K) (l v : Vector3 K) :
    ColorRGB (Flt K) :=
  let h := Vec.Normalized sqrt (Vec.ofFinite (v + l))
  let F := fresnel sqrt pow m_Albedo m_Metalness l v
  let n := Vec.Normalized sqrt (Vec.ofFinite hitRecord.normal)
  let D := Shading.NormalDistribution_GGX sqrt M_PI n h m_Roughness
  let G := Shading.GeometryFunction_Smith sqrt n (Vec.ofFinite v) (Vec.ofFinite l) m_Roughness
  let vDOTn := Dot (Vec.Normalized sqrt (Vec.ofFinite v)) (Vec.Normalized sqrt n)
  let vDOTn := Flt.max vDOTn (Flt.fin (1 / 10000))
  let lDOTn := Dot (Vec.Normalized sqrt (Vec.ofFinite l)) (Vec.Normalized sqrt n)
  let lDOTn := Flt.max lDOTn (Flt.fin (1 / 10000))
  let nom := Color.scale (Color.scale F D) G
  let denom := Flt.mul (Flt.mul (Flt.fin 4) vDOTn) lDOTn
  Color.div nom denom

/-- The local `diffuse` of `Material_CookTorrence::Shade` (Material.h:140-148) with float
quotients. -/
def diffuse (sqrt : K → K) (pow : K → K → K) (M_PI : K) (m_Albedo : ColorRGB K)
    (m_Metalness : K) (l v : Vector3 K) : ColorRGB (Flt K) :=
  let F := fresnel sqrt pow m_Albedo m_Metalness l v
  let kd : ColorRGB (Flt K) :=
    if m_Metalness = 0 then Color.sub (Color.ofFinite ⟨1, 1, 1⟩) F
    else Color.ofFinite ⟨0, 0, 0⟩
  if m_Metalness = 0 then Shading.LambertRGB M_PI kd (Color.ofFinite m_Albedo)
  else Color.ofFinite ⟨0, 0, 0⟩

/-- `Material_CookTorrence::Shade(hitRecord, l, v)` (Material.h:107-156) with float
quotients. -/
def Shade (sqrt : K → K) (pow : K → K → K) (M_PI : K) (m_Albedo : ColorRGB K)
    (m_Metalness m_Roughness : K) (hitRecord : HitRecord K) (l v : Vector3 K) :
    ColorRGB (Flt K) :=
  let finalColor :=
    Color.add (diffuse sqrt pow M_PI m_Albedo m_Metalness l v)
      (specular sqrt pow M_PI m_Albedo m_Metalness m_Roughness hitRecord l v)
  Color.MaxToOne finalColor

end CookTorrence

end Ieee

namespace Unbounded

variable {K : Type} [LinearOrderedField K]

/-- Modelled from the spec: `Ray` (declared in `DataTypes.h`, missing) with bounds `min`,
`max` that may be infinite. -/
structure Ray (K : Type) where
  origin : Vector3 K
  direction : Vector3 K
  min : Flt K
  max : Flt K
  deriving DecidableEq, Repr

/-- Modelled from the spec: `HitRecord` (declared in `DataTypes.h`, missing) with a hit point
whose components may be non-finite. -/
structure HitRecord (K : Type) where
  origin : Vector3 (Flt K)
  normal : Vector3 K
  t : Flt K
  didHit : Bool
  materialIndex : Nat
  deriving DecidableEq, Repr

/-- A ray with finite bounds, as a ray whose bounds may be infinite. -/
def Ray.ofFinite (ray : dae.Ray K) : Ray K :=
  { origin := ray.origin, direction := ray.direction, min := Flt.fin ray.min,
    max := Flt.fin ray.max }

/-- A hit record with a finite hit point, as one whose hit point may be non-finite. -/
def HitRecord.ofFinite (r : dae.HitRecord K) : HitRecord K :=
  { origin := ⟨Flt.fin r.origin.x, Flt.fin r.origin.y, Flt.fin r.origin.z⟩,
    normal := r.normal, t := r.t, didHit := r.didHit, materialIndex := r.materialIndex }

/-- `HitTest_Plane(plane, ray, hitRecord, ignoreHitRecord)` (Utils.h:58-76) for a ray whose
bounds may be infinite; the hit point `ray.origin + t * ray.direction` is formed in float
arithmetic. -/
def HitTest_Plane (plane : Plane K) (ray : Ray K) (hitRecord : HitRecord K)
    (_ignoreHitRecord : Bool) : Bool × HitRecord K :=
  let t := Flt.fdiv (Vector3.Dot (plane.origin - ray.origin) plane.normal)
    (Vector3.Dot ray.direction plane.normal)
  let rec1 : HitRecord K :=
    { hitRecord with t := t, didHit := Flt.lt t ray.max && Flt.lt ray.min t }
  if Flt.le ray.min rec1.t && Flt.le rec1.t ray.max then
    (true, { rec1 with
      origin := ⟨Flt.add (Flt.fin ray.origin.x) (Flt.mul rec1.t (Flt.fin ray.direction.x)),
                 Flt.add (Flt.fin ray.origin.y) (Flt.mul rec1.t (Flt.fin ray.direction.y)),
                 Flt.add (Flt.fin ray.origin.z) (Flt.mul rec1.t (Flt.fin ray.direction.z))⟩,
      normal := plane.normal,
      materialIndex := plane.materialIndex,
      didHit := true })
  else
    (false, { rec1 with didHit := false })

end Unbounded

/-! ## Auxiliary definitions used to state the theorems -/

/-- What the theorems assume of `sqrtf` at one argument `x`: the result is non-negative and
its square is `x`. -/
def IsSqrtAt {K : Type} [LinearOrderedField K] (sqrt : K → K) (x : K) : Prop :=
  0 ≤ sqrt x ∧ sqrt x * sqrt x = x

namespace GeometryUtils

variable {K : Type} [LinearOrderedField K]

/-- The parameter `HitTest_Sphere` selects (Utils.h:31-35) once the divisor `2A` is known to
be non-zero: the root `(-B - √disc) / (2A)`, replaced by `(-B + √disc) / (2A)` when it is
below `ray.min`. -/
def sphereT (sqrt : K → K) (sphere : Sphere K) (ray : Ray K) : K :=
  if (-sphereB sphere ray - sqrt (discriminant sphere ray)) / (2 * sphereA ray) < ray.min then
    (-sphereB sphere ray + sqrt (discriminant sphere ray)) / (2 * sphereA ray)
  else
    (-sphereB sphere ray - sqrt (discriminant sphere ray)) / (2 * sphereA ray)

end GeometryUtils

namespace Scene

variable {K : Type} [LinearOrderedField K]

open GeometryUtils

/-- The invariant of the two loops of `GetClosestHit`, started on the default record, once
the spheres `ss` and the planes `ps` have been tested; each primitive is described by what
its own test leaves in a default record. -/
structure ScanInv (sqrt : K → K) (FLT_MAX : K) (ray : Ray K) (ss : List (Sphere K))
    (ps : List (Plane K)) (st : ClosestState K) : Prop where
  smallest_fin : ∃ x, st.smallestT = Flt.fin x
  none_max : st.closestIdx = -1 → st.smallestT = Flt.fin FLT_MAX
  stale : (Flt.lt st.closestHit.t st.smallestT && Flt.lt (Flt.fin 0) st.closestHit.t) = false
  sphere_idx : st.closestIdx ≠ -1 → st.planeCloser = false →
    ∃ s, ss[st.closestIdx.toNat]? = some s
      ∧ (HitTest_Sphere sqrt s ray (HitRecord.default FLT_MAX) false).1 = true
      ∧ st.smallestT = (HitTest_Sphere sqrt s ray (HitRecord.default FLT_MAX) false).2.t
  plane_idx : st.closestIdx ≠ -1 → st.planeCloser = true →
    ∃ p, ps[st.closestIdx.toNat]? = some p
      ∧ st.smallestT = (HitTest_Plane p ray (HitRecord.default FLT_MAX) false).2.t
  no_plane : ps = [] → st.planeCloser = false
  le_sphere : ∀ s ∈ ss,
    (HitTest_Sphere sqrt s ray (HitRecord.default FLT_MAX) false).1 = true →
    Flt.lt (Flt.fin 0) (HitTest_Sphere sqrt s ray (HitRecord.default FLT_MAX) false).2.t = true →
    Flt.le st.smallestT (HitTest_Sphere sqrt s ray (HitRecord.default FLT_MAX) false).2.t = true
  le_plane : ∀ p ∈ ps,
    Flt.lt (Flt.fin 0) (HitTest_Plane p ray (HitRecord.default FLT_MAX) false).2.t = true →
    Flt.le st.smallestT (HitTest_Plane p ray (HitRecord.default FLT_MAX) false).2.t = true
  hit_rec : st.closestHit.didHit = true →
    (∃ s ∈ ss, HitTest_Sphere sqrt s ray (HitRecord.default FLT_MAX) false
        = (true, st.closestHit))
    ∨ (∃ p ∈ ps, HitTest_Plane p ray (HitRecord.default FLT_MAX) false = (true, st.closestHit))

/-- During the loops of `GetClosestHit`: the smallest parameter so far is finite and above
`t`, and the `t` of the record is not a candidate that would be accepted again. -/
def ScanAbove (t : K) (st : ClosestState K) : Prop :=
  (∃ x, st.smallestT = Flt.fin x ∧ t < x)
  ∧ (Flt.lt st.closestHit.t st.smallestT && Flt.lt (Flt.fin 0) st.closestHit.t) = false

/-- During the loops of `GetClosestHit`: the smallest parameter so far is `t`, taken from the
primitive at index `i` (a plane when `b` is true), and the `t` of the record is not a
candidate that would be accepted again. -/
def ScanAt (t : K) (i : Int) (b : Bool) (st : ClosestState K) : Prop :=
  st.smallestT = Flt.fin t ∧ st.closestIdx = i ∧ st.planeCloser = b
  ∧ (Flt.lt st.closestHit.t st.smallestT && Flt.lt (Flt.fin 0) st.closestHit.t) = false

end Scene

/-! ## Concrete inputs used in witnesses and counterexamples -/

/-- The value of `FLT_MAX` (`2^128 - 2^104`), as a rational. -/
def fltMax : ℚ := 340282346638528859811704183484516925440

/-- The unit sphere at the origin, with material 0. -/
def unitSphere : Sphere ℚ := ⟨⟨0, 0, 0⟩, 1, 0⟩

/-- The ray from `(0,0,-5)` along `(0,0,1)` with the default bounds `0.0001` and `FLT_MAX`. -/
def rayTowardsSphere : Ray ℚ := ⟨⟨0, 0, -5⟩, ⟨0, 0, 1⟩, 1 / 10000, fltMax⟩

/-- The plane through the origin with normal `(0,1,0)`, with material 0. -/
def groundPlane : Plane ℚ := ⟨⟨0, 0, 0⟩, ⟨0, 1, 0⟩, 0⟩

/-- The ray from `(0,5,0)` along `(0,-1,0)` with bounds `min = 0`, `max = 100`. -/
def rayDown : Ray ℚ := ⟨⟨0, 5, 0⟩, ⟨0, -1, 0⟩, 0, 100⟩

/-- The ray from `(0,5,0)` along `(0,-1,0)` with bounds `min = 0`, `max = 5`: it meets the
plane `y = 0` exactly at `t = max`. -/
def rayDownToMax : Ray ℚ := ⟨⟨0, 5, 0⟩, ⟨0, -1, 0⟩, 0, 5⟩

/-- A plane through the origin whose normal `(0,2,0)` has length 2. -/
def scaledPlane : Plane ℚ := ⟨⟨0, 0, 0⟩, ⟨0, 2, 0⟩, 0⟩

/-- The scene built by `AddPlane({0,0,0}, {0,2,0}, 0)` on a fresh scene. -/
def sceneWithScaledPlane : Scene ℚ := Scene.AddPlane Scene.new ⟨0, 0, 0⟩ ⟨0, 2, 0⟩ 0

/-- The ray from `(0,0,5)` along `(0,0,1)` with the default bounds: it starts beyond the unit
sphere at the origin and points away from it. -/
def rayAwayFromSphere : Ray ℚ := ⟨⟨0, 0, 5⟩, ⟨0, 0, 1⟩, 1 / 10000, fltMax⟩

/-- The ray from `(0,0,0)` along `(0,0,1)` with the default bounds: it starts at the centre
of the unit sphere at the origin. -/
def rayFromInsideSphere : Ray ℚ := ⟨⟨0, 0, 0⟩, ⟨0, 0, 1⟩, 1 / 10000, fltMax⟩

/-- The scene built by `AddSphere({0,0,0}, 1, 0)` on a fresh scene. -/
def sceneWithUnitSphere : Scene ℚ := Scene.AddSphere Scene.new ⟨0, 0, 0⟩ 1 0

/-- The scene built by `AddSphere({0,0,0}, 1, 0)` and then `AddPlane({0,-2,0}, {0,1,0}, 0)`
on a fresh scene. -/
def sceneSphereAndPlane : Scene ℚ :=
  Scene.AddPlane (Scene.AddSphere Scene.new ⟨0, 0, 0⟩ 1 0) ⟨0, -2, 0⟩ ⟨0, 1, 0⟩ 0

/-- The value of `M_PI` to sixteen digits, as a rational. -/
def piQ : ℚ := 3141592653589793 / 1000000000000000

/-- A power function on the rationals for exponents that are non-negative integers. -/
def powQ (a b : ℚ) : ℚ := a ^ b.num.toNat

/-- The unit vector `(0,0,1)`. -/
def unitZ : Vector3 ℚ := ⟨0, 0, 1⟩

/-- A hit record at the origin with the normal `(0,0,1)` and material 0. -/
def hitFacingZ : HitRecord ℚ :=
  { origin := ⟨0, 0, 0⟩, normal := ⟨0, 0, 1⟩, t := Flt.fin 1, didHit := true,
    materialIndex := 0 }

/-- A 4x4 matrix with sixteen different entries. -/
def sampleMatrix : Matrix ℚ :=
  { data0 := ⟨1, 2, 3, 4⟩, data1 := ⟨5, 6, 7, 8⟩, data2 := ⟨9, 10, 11, 12⟩,
    data3 := ⟨13, 14, 15, 16⟩ }

/-- The white point light at `(0,5,0)` with intensity 50. -/
def pointLightAbove : Light ℚ :=
  { origin := ⟨0, 5, 0⟩, direction := ⟨0, 0, 0⟩, color := ⟨1, 1, 1⟩, intensity := 50,
    type := LightType.Point }

/-- A base reflectivity whose red channel exceeds 1. -/
def brightF0 : ColorRGB ℚ := ⟨2, 1, 1⟩

/-- The white albedo `(1,1,1)`. -/
def whiteAlbedo : ColorRGB ℚ := ⟨1, 1, 1⟩

/-- The unit vector `(0,0,-1)`. -/
def negUnitZ : Vector3 ℚ := ⟨0, 0, -1⟩

/-- A sequence of scene-building calls that adds a blue material and then a sphere and a
plane that use the materials 1 and 0. -/
def sampleCalls : List (Scene.Call ℚ) :=
  [Scene.Call.AddMaterial (Material.SolidColor ⟨0, 0, 1⟩),
   Scene.Call.AddSphere ⟨0, 0, 0⟩ 1 1,
   Scene.Call.AddPlane ⟨0, 0, 0⟩ ⟨0, 1, 0⟩ 0]

/-- A second 4x4 matrix with sixteen different entries. -/
def sampleMatrix2 : Matrix ℚ :=
  { data0 := ⟨2, 0, 1, 3⟩, data1 := ⟨1, 1, 0, 2⟩, data2 := ⟨0, 4, 1, 1⟩,
    data3 := ⟨5, 2, 3, 1⟩ }

/-- The camera of `Scene_W2` before its first frame: origin `(0,3,-9)`, field of view 45,
looking along `(0,0,1)` (Camera.h:21-31, Scene.cpp:209-210). -/
def sampleCamera : Camera ℚ :=
  { origin := ⟨0, 3, -9⟩, fovAngle := 45, forward := ⟨0, 0, 1⟩, up := ⟨0, 1, 0⟩,
    right := ⟨1, 0, 0⟩, totalPitch := 0, totalYaw := 0, cameraToWorld := Matrix.default }

/-- The ray from `(0,1,0)` along `(1,0,0)` with bounds `min = 0`, `max = 100`: it runs
parallel to the plane `y = 0`, one unit above it. -/
def rayAlongGround : Ray ℚ := ⟨⟨0, 1, 0⟩, ⟨1, 0, 0⟩, 0, 100⟩

/-- The scene after 255 calls `AddMaterial(solid blue)` on a freshly constructed scene: its
material table holds 256 materials. -/
def sceneWith256Materials : Scene ℚ :=
  Scene.run Scene.new
    (List.replicate 255 (Scene.Call.AddMaterial (Material.SolidColor ⟨0, 0, 1⟩)))

/-- A plane `1/16384` in front of the origin of `rayTowardsSphere`, facing it: the ray
reaches it at `t = 1/16384`, below the ray's `min = 0.0001`. -/
def nearPlane : Plane ℚ := ⟨⟨0, 0, -5 + 1 / 16384⟩, ⟨0, 0, -1⟩, 0⟩

/-- The scene built by `AddSphere({0,0,0}, 1, 0)` and then
`AddPlane({0,0,-5 + 1/16384}, {0,0,-1}, 0)` on a fresh scene. -/
def sceneSphereAndNearPlane : Scene ℚ :=
  Scene.AddPlane (Scene.AddSphere Scene.new ⟨0, 0, 0⟩ 1 0) ⟨0, 0, -5 + 1 / 16384⟩ ⟨0, 0, -1⟩ 0

/-- The plane `z = -1` with normal `(0,0,1)` and material 1: `rayTowardsSphere` reaches it at
`t = 4`, where it reaches the unit sphere too. -/
def tiePlane : Plane ℚ := ⟨⟨0, 0, -1⟩, ⟨0, 0, 1⟩, 1⟩

/-- The scene built by `AddMaterial(solid blue)`, `AddSphere({0,0,0}, 1, 0)` and
`AddPlane({0,0,-1}, {0,0,1}, 1)` on a fresh scene. -/
def sceneTie : Scene ℚ :=
  Scene.AddPlane
    (Scene.AddSphere (Scene.AddMaterial Scene.new (Material.SolidColor ⟨0, 0, 1⟩)).1
      ⟨0, 0, 0⟩ 1 0)
    ⟨0, 0, -1⟩ ⟨0, 0, 1⟩ 1

/-- The scene `sceneTie` after `AddPlane({0,0,-5 + 1/16384}, {0,0,-1}, 0)`. -/
def sceneTieAndNearPlane : Scene ℚ :=
  Scene.AddPlane sceneTie ⟨0, 0, -5 + 1 / 16384⟩ ⟨0, 0, -1⟩ 0

/-- The sphere of radius 1 centred at `(0,5,0)`, with material 0. -/
def highSphere : Sphere ℚ := ⟨⟨0, 5, 0⟩, 1, 0⟩

/-- The view ray from `(3,4,0)` along `(-3/5,-4/5,0)` with the default bounds: it passes the
sphere `highSphere` and reaches the plane `y = 0` at the origin, at `t = 5`. -/
def viewRayToGround : Ray ℚ := ⟨⟨3, 4, 0⟩, ⟨-3 / 5, -4 / 5, 0⟩, 1 / 10000, fltMax⟩

/-- A white point light of intensity 9 at `(0,3,0)`, below `highSphere`. -/
def lowLight : Light ℚ :=
  { origin := ⟨0, 3, 0⟩, direction := ⟨0, 0, 0⟩, color := ⟨1, 1, 1⟩, intensity := 9,
    type := LightType.Point }

/-- A white point light of intensity 100 at `(0,10,0)`, above `highSphere`. -/
def highLight : Light ℚ :=
  { origin := ⟨0, 10, 0⟩, direction := ⟨0, 0, 0⟩, color := ⟨1, 1, 1⟩, intensity := 100,
    type := LightType.Point }

/-- The scene built on a fresh scene by `AddPlane({0,0,0}, {0,1,0}, 0)`,
`AddSphere({0,5,0}, 1, 0)`, `AddPointLight({0,3,0}, 9, white)` and
`AddPointLight({0,10,0}, 100, white)`. -/
def sceneTwoLights : Scene ℚ :=
  Scene.AddPointLight
    (Scene.AddPointLight
      (Scene.AddSphere (Scene.AddPlane Scene.new ⟨0, 0, 0⟩ ⟨0, 1, 0⟩ 0) ⟨0, 5, 0⟩ 1 0)
      ⟨0, 3, 0⟩ 9 ⟨1, 1, 1⟩)
    ⟨0, 10, 0⟩ 100 ⟨1, 1, 1⟩

/-- The scene `sceneTwoLights` with the two lights added in the other order. -/
def sceneTwoLightsSwapped : Scene ℚ :=
  Scene.AddPointLight
    (Scene.AddPointLight
      (Scene.AddSphere (Scene.AddPlane Scene.new ⟨0, 0, 0⟩ ⟨0, 1, 0⟩ 0) ⟨0, 5, 0⟩ 1 0)
      ⟨0, 10, 0⟩ 100 ⟨1, 1, 1⟩)
    ⟨0, 3, 0⟩ 9 ⟨1, 1, 1⟩

/-- The record of the hit of `viewRayToGround` on the plane `y = 0`. -/
def groundHit : HitRecord ℚ :=
  { origin := ⟨0, 0, 0⟩, normal := ⟨0, 1, 0⟩, t := Flt.fin 5, didHit := true,
    materialIndex := 0 }

/-- The shadow ray from the hit point of `groundHit` towards `lowLight`. -/
def shadowRayLow : Ray ℚ := ⟨⟨0, 1 / 100, 0⟩, ⟨0, 1, 0⟩, 1 / 10000, 299 / 100⟩

/-- The shadow ray from the hit point of `groundHit` towards `highLight`. -/
def shadowRayHigh : Ray ℚ := ⟨⟨0, 1 / 100, 0⟩, ⟨0, 1, 0⟩, 1 / 10000, 999 / 100⟩

/-- A hit record at the origin whose normal is the zero vector. -/
def hitZeroNormal : HitRecord ℚ :=
  { origin := ⟨0, 0, 0⟩, normal := ⟨0, 0, 0⟩, t := Flt.fin 1, didHit := true,
    materialIndex := 0 }

/-- The ray from `(0,-1,0)` along `(1,0,0)` with bounds `min = 0.0001` and `max = +∞`: it
runs parallel to the plane `y = 0`, one unit below it. -/
def rayBelowGroundUnbounded : Unbounded.Ray ℚ :=
  { origin := ⟨0, -1, 0⟩, direction := ⟨1, 0, 0⟩, min := Flt.fin (1 / 10000), max := Flt.pinf }

/-! ## Basic facts about the embedding -/

namespace Flt

variable {K : Type} [LinearOrderedField K]

theorem fdiv_of_ne (a : K) {b : K} (h : b ≠ 0) : fdiv a b = fin (a / b) := by
  simp [fdiv, h]

theorem fdiv_zero_not_fin (a : K) : ∀ x : K, fdiv a 0 ≠ fin x := by
  intro x
  unfold fdiv
  simp only [if_true]
  split_ifs <;> simp

/-- A two-sided closed bound check against finite bounds passes only for a finite value. -/
theorem le_le_fin (lo hi : K) (t : Flt K) :
    (le (fin lo) t && le t (fin hi)) = true ↔ ∃ x, t = fin x ∧ lo ≤ x ∧ x ≤ hi := by
  cases t <;> simp [le]

/-- A two-sided open bound check against a finite upper bound and a finite lower bound
passes only for a finite value. -/
theorem lt_lt_fin (lo hi : K) (t : Flt K) :
    (lt t (fin hi) && lt (fin lo) t) = true ↔ ∃ x, t = fin x ∧ x < hi ∧ lo < x := by
  cases t <;> simp [lt]

end Flt

namespace Vector3

variable {K : Type} [LinearOrderedField K]

theorem add_def (a b : Vector3 K) : a + b = ⟨a.x + b.x, a.y + b.y, a.z + b.z⟩ := rfl

theorem sub_def (a b : Vector3 K) : a - b = ⟨a.x - b.x, a.y - b.y, a.z - b.z⟩ := rfl

theorem smul_def (s : K) (a : Vector3 K) : s * a = ⟨s * a.x, s * a.y, s * a.z⟩ := rfl

theorem scale_fin (x : K) (v : Vector3 K) : scale (Flt.fin x) v = x * v := rfl

theorem Dot_self_nonneg (a : Vector3 K) : 0 ≤ Dot a a := by
  unfold Dot
  nlinarith [mul_self_nonneg a.x, mul_self_nonneg a.y, mul_self_nonneg a.z]

theorem eq_zero_of_Dot_self (a : Vector3 K) (h : Dot a a = 0) : a = ⟨0, 0, 0⟩ := by
  unfold Dot at h
  have hx : a.x = 0 := by
    have := mul_self_nonneg a.x
    have := mul_self_nonneg a.y
    have := mul_self_nonneg a.z
    exact mul_self_eq_zero.mp (by linarith)
  have hy : a.y = 0 := by
    have := mul_self_nonneg a.x
    have := mul_self_nonneg a.y
    have := mul_self_nonneg a.z
    exact mul_self_eq_zero.mp (by linarith)
  have hz : a.z = 0 := by
    have := mul_self_nonneg a.x
    have := mul_self_nonneg a.y
    have := mul_self_nonneg a.z
    exact mul_self_eq_zero.mp (by linarith)
  cases a
  simp_all

/-- Normalizing a vector whose squared length `m2` is positive, with an exact square root at
`m2`: the magnitude is positive and the result is the vector divided by it, of unit length. -/
theorem Normalize_unit (sqrt : K → K) (v : Vector3 K) (m2 : K) (hv : Dot v v = m2)
    (hs : IsSqrtAt sqrt m2) (hpos : 0 < m2) :
    0 < Magnitude sqrt v
    ∧ Normalize sqrt v = (Magnitude sqrt v)⁻¹ * v
    ∧ Dot (Normalize sqrt v) (Normalize sqrt v) = 1 := by
  have hmag : Magnitude sqrt v = sqrt m2 := by
    unfold Magnitude
    unfold Dot at hv
    rw [hv]
  have hmpos : 0 < sqrt m2 := by
    rcases hs.1.lt_or_eq with h | h
    · exact h
    · have h2 := hs.2
      rw [← h] at h2
      simp at h2
      rw [← h2] at hpos
      exact absurd hpos (lt_irrefl 0)
  refine ⟨hmag ▸ hmpos, ?_, ?_⟩
  · simp only [Normalize, smul_def, div_eq_inv_mul]
  · simp only [Normalize, hmag]
    have h2 := hs.2
    have hm0 := hmpos.ne.symm
    unfold Dot at hv ⊢
    dsimp only
    field_simp
    rw [h2]
    linear_combination hv

end Vector3

namespace GeometryUtils

variable {K : Type} [LinearOrderedField K]

/-- A positive discriminant forces a non-zero direction (`A > 0`) and a non-zero radius:
`disc = 4 (A r² - |d × w|²)` with `w = ray.origin - sphere.origin`. -/
theorem pos_of_discriminant_pos (sphere : Sphere K) (ray : Ray K)
    (h : 0 < discriminant sphere ray) :
    0 < sphereA ray ∧ 0 < sphere.radius * sphere.radius := by
  have hA : 0 ≤ sphereA ray := Vector3.Dot_self_nonneg _
  have hr : 0 ≤ sphere.radius * sphere.radius := mul_self_nonneg _
  have key : discriminant sphere ray
      = 4 * (sphereA ray * (sphere.radius * sphere.radius)
        - ((ray.direction.y * (ray.origin.z - sphere.origin.z)
              - ray.direction.z * (ray.origin.y - sphere.origin.y))
            * (ray.direction.y * (ray.origin.z - sphere.origin.z)
              - ray.direction.z * (ray.origin.y - sphere.origin.y))
          + (ray.direction.z * (ray.origin.x - sphere.origin.x)
              - ray.direction.x * (ray.origin.z - sphere.origin.z))
            * (ray.direction.z * (ray.origin.x - sphere.origin.x)
              - ray.direction.x * (ray.origin.z - sphere.origin.z))
          + (ray.direction.x * (ray.origin.y - sphere.origin.y)
              - ray.direction.y * (ray.origin.x - sphere.origin.x))
            * (ray.direction.x * (ray.origin.y - sphere.origin.y)
              - ray.direction.y * (ray.origin.x - sphere.origin.x)))) := by
    simp only [discriminant, sphereA, sphereB, sphereC, Vector3.Dot, Vector3.sub_def,
      Vector3.smul_def]
    ring
  have hprod : 0 < sphereA ray * (sphere.radius * sphere.radius) := by
    have h1 := mul_self_nonneg (ray.direction.y * (ray.origin.z - sphere.origin.z)
              - ray.direction.z * (ray.origin.y - sphere.origin.y))
    have h2 := mul_self_nonneg (ray.direction.z * (ray.origin.x - sphere.origin.x)
              - ray.direction.x * (ray.origin.z - sphere.origin.z))
    have h3 := mul_self_nonneg (ray.direction.x * (ray.origin.y - sphere.origin.y)
              - ray.direction.y * (ray.origin.x - sphere.origin.x))
    rw [key] at h
    linarith
  constructor
  · rcases hA.lt_or_eq with h1 | h1
    · exact h1
    · rw [← h1] at hprod
      simp at hprod
  · rcases hr.lt_or_eq with h1 | h1
    · exact h1
    · rw [← h1] at hprod
      simp at hprod

/-- With a positive discriminant and an exact square root of it, both parameters
`(-B ± √disc) / (2A)` put the ray point on the sphere. -/
theorem root_on_sphere (sphere : Sphere K) (ray : Ray K) (s t : K)
    (hA : sphereA ray ≠ 0)
    (hs : s * s = discriminant sphere ray)
    (ht : t = (-sphereB sphere ray - s) / (2 * sphereA ray)
        ∨ t = (-sphereB sphere ray + s) / (2 * sphereA ray)) :
    Vector3.Dot (ray.origin + t * ray.direction - sphere.origin)
        (ray.origin + t * ray.direction - sphere.origin)
      = sphere.radius * sphere.radius := by
  have hquad : sphereA ray * t * t + sphereB sphere ray * t + sphereC sphere ray = 0 := by
    unfold discriminant at hs
    have h4 : 4 * sphereA ray ≠ 0 := mul_ne_zero (by norm_num) hA
    apply mul_left_cancel₀ h4
    rw [mul_zero]
    rcases ht with ht | ht
    · have h2 : 2 * sphereA ray * t = -sphereB sphere ray - s := by
        rw [ht]
        field_simp
      linear_combination (2 * sphereA ray * t + sphereB sphere ray - s) * h2 + hs
    · have h2 : 2 * sphereA ray * t = -sphereB sphere ray + s := by
        rw [ht]
        field_simp
      linear_combination (2 * sphereA ray * t + sphereB sphere ray + s) * h2 + hs
  have hexp : Vector3.Dot (ray.origin + t * ray.direction - sphere.origin)
        (ray.origin + t * ray.direction - sphere.origin)
      = sphereA ray * t * t + sphereB sphere ray * t + sphereC sphere ray
        + sphere.radius * sphere.radius := by
    simp only [sphereA, sphereB, sphereC, Vector3.Dot, Vector3.sub_def, Vector3.add_def,
      Vector3.smul_def]
    ring
  rw [hexp, hquad, zero_add]

end GeometryUtils

namespace GeometryUtils

variable {K : Type} [LinearOrderedField K]

/-- The detailed sphere test on a positive discriminant: every field is overwritten. -/
theorem HitTest_Sphere_of_pos (sqrt : K → K) (sphere : Sphere K) (ray : Ray K)
    (hitRecord : HitRecord K) (h : 0 < discriminant sphere ray) :
    HitTest_Sphere sqrt sphere ray hitRecord false
      = (true,
          { origin := ray.origin + sphereT sqrt sphere ray * ray.direction,
            normal := Vector3.Normalize sqrt
              (ray.origin + sphereT sqrt sphere ray * ray.direction - sphere.origin),
            t := Flt.fin (sphereT sqrt sphere ray),
            didHit := true,
            materialIndex := sphere.materialIndex }) := by
  have hA : 2 * sphereA ray ≠ 0 :=
    mul_ne_zero (by norm_num) (pos_of_discriminant_pos sphere ray h).1.ne.symm
  unfold HitTest_Sphere sphereT
  simp only [Flt.fdiv_of_ne _ hA, Flt.lt, gt_iff_lt, h, decide_True, Bool.not_false,
    Bool.and_self, if_true, decide_eq_true_eq]
  split_ifs <;> rfl

/-- The sphere test on a non-positive discriminant: only `didHit` is written. -/
theorem HitTest_Sphere_of_not_pos (sqrt : K → K) (sphere : Sphere K) (ray : Ray K)
    (hitRecord : HitRecord K) (ignoreHitRecord : Bool) (h : ¬ 0 < discriminant sphere ray) :
    HitTest_Sphere sqrt sphere ray hitRecord ignoreHitRecord
      = (false, { hitRecord with didHit := false }) := by
  unfold HitTest_Sphere
  simp [h]

/-- The sphere test with `ignoreHitRecord` set: only `didHit` is written. -/
theorem HitTest_Sphere_ignore (sqrt : K → K) (sphere : Sphere K) (ray : Ray K)
    (hitRecord : HitRecord K) :
    HitTest_Sphere sqrt sphere ray hitRecord true
      = (decide (0 < discriminant sphere ray),
          { hitRecord with didHit := decide (0 < discriminant sphere ray) }) := by
  unfold HitTest_Sphere
  simp

end GeometryUtils

/-! ## The sphere test (claims C4, C5, C6) -/

namespace GeometryUtils

variable {K : Type} [LinearOrderedField K]

/-- C6: both overloads of `HitTest_Sphere` return true if and only if the discriminant
`B² − 4AC`, with `A = dir·dir`, `B = 2·dir·(origin − center)` and
`C = |origin − center|² − r²`, is strictly positive; on a tangent ray (discriminant zero)
both return false. -/
theorem HitTest_Sphere_true_iff_discriminant_pos (sqrt : K → K) (FLT_MAX : K)
    (sphere : Sphere K) (ray : Ray K) (hitRecord : HitRecord K) (ignoreHitRecord : Bool) :
    ((HitTest_Sphere sqrt sphere ray hitRecord ignoreHitRecord).1 = true
        ↔ 0 < (2 * Vector3.Dot ray.direction (ray.origin - sphere.origin))
                * (2 * Vector3.Dot ray.direction (ray.origin - sphere.origin))
              - 4 * Vector3.Dot ray.direction ray.direction
                * (Vector3.Dot (ray.origin - sphere.origin) (ray.origin - sphere.origin)
                    - sphere.radius * sphere.radius))
    ∧ (HitTest_Sphere2 sqrt FLT_MAX sphere ray = true
        ↔ 0 < (2 * Vector3.Dot ray.direction (ray.origin - sphere.origin))
                * (2 * Vector3.Dot ray.direction (ray.origin - sphere.origin))
              - 4 * Vector3.Dot ray.direction ray.direction
                * (Vector3.Dot (ray.origin - sphere.origin) (ray.origin - sphere.origin)
                    - sphere.radius * sphere.radius))
    ∧ ((2 * Vector3.Dot ray.direction (ray.origin - sphere.origin))
                * (2 * Vector3.Dot ray.direction (ray.origin - sphere.origin))
              - 4 * Vector3.Dot ray.direction ray.direction
                * (Vector3.Dot (ray.origin - sphere.origin) (ray.origin - sphere.origin)
                    - sphere.radius * sphere.radius) = 0
        → (HitTest_Sphere sqrt sphere ray hitRecord ignoreHitRecord).1 = false
          ∧ HitTest_Sphere2 sqrt FLT_MAX sphere ray = false) := by
  have hd : (2 * Vector3.Dot ray.direction (ray.origin - sphere.origin))
                * (2 * Vector3.Dot ray.direction (ray.origin - sphere.origin))
              - 4 * Vector3.Dot ray.direction ray.direction
                * (Vector3.Dot (ray.origin - sphere.origin) (ray.origin - sphere.origin)
                    - sphere.radius * sphere.radius) = discriminant sphere ray := by
    simp only [discriminant, sphereA, sphereB, sphereC, Vector3.Dot, Vector3.sub_def,
      Vector3.smul_def]
    ring
  rw [hd]
  have h1 : (HitTest_Sphere sqrt sphere ray hitRecord ignoreHitRecord).1 = true
      ↔ 0 < discriminant sphere ray := by
    by_cases h : 0 < discriminant sphere ray
    · cases ignoreHitRecord
      · rw [HitTest_Sphere_of_pos sqrt sphere ray hitRecord h]
        simp [h]
      · rw [HitTest_Sphere_ignore]
        simp [h]
    · rw [HitTest_Sphere_of_not_pos sqrt sphere ray hitRecord ignoreHitRecord h]
      simp [h]
  have h2 : HitTest_Sphere2 sqrt FLT_MAX sphere ray = true ↔ 0 < discriminant sphere ray := by
    unfold HitTest_Sphere2
    rw [HitTest_Sphere_ignore]
    simp
  refine ⟨h1, h2, ?_⟩
  intro h0
  have hn : ¬ 0 < discriminant sphere ray := by rw [h0]; exact lt_irrefl 0
  constructor
  · exact Bool.eq_false_iff.mpr (fun h => hn (h1.mp h))
  · exact Bool.eq_false_iff.mpr (fun h => hn (h2.mp h))

/-- Witness for C6's tangent case: the unit sphere at the origin and the ray from `(1,0,-5)`
along `(0,0,1)` have discriminant zero, and both overloads report a miss. -/
theorem HitTest_Sphere_true_iff_discriminant_pos_witness :
    (HitTest_Sphere Rat.sqrt (⟨⟨0, 0, 0⟩, 1, 0⟩ : Sphere ℚ)
        ⟨⟨1, 0, -5⟩, ⟨0, 0, 1⟩, 1 / 10000, 1000000⟩ (HitRecord.default 1000000) false).1 = false
      ∧ HitTest_Sphere2 Rat.sqrt 1000000 (⟨⟨0, 0, 0⟩, 1, 0⟩ : Sphere ℚ)
          ⟨⟨1, 0, -5⟩, ⟨0, 0, 1⟩, 1 / 10000, 1000000⟩ = false :=
  (HitTest_Sphere_true_iff_discriminant_pos Rat.sqrt 1000000 (⟨⟨0, 0, 0⟩, 1, 0⟩ : Sphere ℚ)
    ⟨⟨1, 0, -5⟩, ⟨0, 0, 1⟩, 1 / 10000, 1000000⟩ (HitRecord.default 1000000) false).2.2
    (by norm_num [Vector3.Dot, Vector3.sub_def])

/-- C4: on a positive discriminant the detailed `HitTest_Sphere` returns true, its `t` is
finite (`A = dir·dir` is non-zero, so `2A` is), the hit point is
`ray.origin + t·ray.direction` and lies on the sphere, the hit point differs from the sphere
centre so the magnitude the normal is divided by is non-zero, and the normal is
`(origin − sphere.origin)` divided by that positive magnitude and has unit length. -/
theorem HitTest_Sphere_hit_on_sphere (sqrt : K → K) (sphere : Sphere K) (ray : Ray K)
    (hitRecord : HitRecord K)
    (hdisc : 0 < discriminant sphere ray)
    (hsqrt : IsSqrtAt sqrt (discriminant sphere ray))
    (hsqrtr : IsSqrtAt sqrt (sphere.radius * sphere.radius)) :
    (HitTest_Sphere sqrt sphere ray hitRecord false).1 = true
    ∧ Vector3.Dot ray.direction ray.direction ≠ 0
    ∧ ∃ t : K, (HitTest_Sphere sqrt sphere ray hitRecord false).2.t = Flt.fin t
      ∧ (HitTest_Sphere sqrt sphere ray hitRecord false).2.origin
          = ray.origin + t * ray.direction
      ∧ Vector3.Dot ((HitTest_Sphere sqrt sphere ray hitRecord false).2.origin - sphere.origin)
          ((HitTest_Sphere sqrt sphere ray hitRecord false).2.origin - sphere.origin)
          = sphere.radius * sphere.radius
      ∧ (HitTest_Sphere sqrt sphere ray hitRecord false).2.origin ≠ sphere.origin
      ∧ 0 < Vector3.Magnitude sqrt
          ((HitTest_Sphere sqrt sphere ray hitRecord false).2.origin - sphere.origin)
      ∧ (HitTest_Sphere sqrt sphere ray hitRecord false).2.normal
          = (Vector3.Magnitude sqrt
              ((HitTest_Sphere sqrt sphere ray hitRecord false).2.origin - sphere.origin))⁻¹
            * ((HitTest_Sphere sqrt sphere ray hitRecord false).2.origin - sphere.origin)
      ∧ Vector3.Dot (HitTest_Sphere sqrt sphere ray hitRecord false).2.normal
          (HitTest_Sphere sqrt sphere ray hitRecord false).2.normal = 1 := by
  obtain ⟨hA, hr⟩ := pos_of_discriminant_pos sphere ray hdisc
  rw [HitTest_Sphere_of_pos sqrt sphere ray hitRecord hdisc]
  refine ⟨rfl, hA.ne.symm, sphereT sqrt sphere ray, rfl, rfl, ?_⟩
  dsimp only
  have hon : Vector3.Dot (ray.origin + sphereT sqrt sphere ray * ray.direction - sphere.origin)
      (ray.origin + sphereT sqrt sphere ray * ray.direction - sphere.origin)
      = sphere.radius * sphere.radius := by
    apply root_on_sphere sphere ray (sqrt (discriminant sphere ray)) _ hA.ne.symm hsqrt.2
    unfold sphereT
    split_ifs
    · exact Or.inr rfl
    · exact Or.inl rfl
  obtain ⟨h1, h2, h3⟩ := Vector3.Normalize_unit sqrt _ _ hon hsqrtr hr
  refine ⟨hon, ?_, h1, h2, h3⟩
  intro heq
  rw [heq] at hon
  simp only [Vector3.Dot, Vector3.sub_def, sub_self, mul_zero, add_zero] at hon
  rw [← hon] at hr
  exact lt_irrefl 0 hr

end GeometryUtils

namespace GeometryUtils

variable {K : Type} [LinearOrderedField K]

/-- On the rationals `Rat.sqrt` is an exact square root at every square. -/
theorem isSqrtAt_rat_sqrt (q : ℚ) : IsSqrtAt Rat.sqrt (q * q) := by
  unfold IsSqrtAt
  rw [Rat.sqrt_eq]
  exact ⟨abs_nonneg q, abs_mul_abs_self q⟩

theorem discriminant_rayTowardsSphere : discriminant unitSphere rayTowardsSphere = 2 * 2 := by
  norm_num [discriminant, sphereA, sphereB, sphereC, Vector3.Dot, Vector3.sub_def,
    Vector3.smul_def, unitSphere, rayTowardsSphere]

/-- Witness for C4: the unit sphere at the origin and the ray from `(0,0,-5)` along
`(0,0,1)`, with `Rat.sqrt`. -/
theorem HitTest_Sphere_hit_on_sphere_witness :
    (HitTest_Sphere Rat.sqrt unitSphere rayTowardsSphere (HitRecord.default fltMax) false).1
        = true
      ∧ Vector3.Dot rayTowardsSphere.direction rayTowardsSphere.direction ≠ 0 :=
  have h := HitTest_Sphere_hit_on_sphere Rat.sqrt unitSphere rayTowardsSphere
    (HitRecord.default fltMax)
    (by rw [discriminant_rayTowardsSphere]; norm_num)
    (by rw [discriminant_rayTowardsSphere]; exact isSqrtAt_rat_sqrt 2)
    (isSqrtAt_rat_sqrt unitSphere.radius)
  ⟨h.1, h.2.1⟩

/-- The sphere test on the unit sphere at the origin and the ray from `(0,0,-5)` along
`(0,0,1)`, for any bounds with `min ≤ 4` and any `sqrt` with `sqrt 4 = 2`, `sqrt 1 = 1`. -/
theorem HitTest_Sphere_unit_scenario (sqrt : K → K) (h4 : sqrt 4 = 2) (h1 : sqrt 1 = 1)
    (min max : K) (materialIndex : Nat) (hitRecord : HitRecord K) (hmin : min ≤ 4) :
    HitTest_Sphere sqrt ⟨⟨0, 0, 0⟩, 1, materialIndex⟩ ⟨⟨0, 0, -5⟩, ⟨0, 0, 1⟩, min, max⟩
        hitRecord false
      = (true, { origin := ⟨0, 0, -1⟩, normal := ⟨0, 0, -1⟩, t := Flt.fin 4,
                 didHit := true, materialIndex := materialIndex }) := by
  have hd : discriminant (⟨⟨0, 0, 0⟩, 1, materialIndex⟩ : Sphere K)
      ⟨⟨0, 0, -5⟩, ⟨0, 0, 1⟩, min, max⟩ = 4 := by
    norm_num [discriminant, sphereA, sphereB, sphereC, Vector3.Dot, Vector3.sub_def,
      Vector3.smul_def]
  have hT : sphereT sqrt (⟨⟨0, 0, 0⟩, 1, materialIndex⟩ : Sphere K)
      ⟨⟨0, 0, -5⟩, ⟨0, 0, 1⟩, min, max⟩ = 4 := by
    unfold sphereT
    rw [hd, h4]
    have h5 : (-sphereB (⟨⟨0, 0, 0⟩, 1, materialIndex⟩ : Sphere K)
        ⟨⟨0, 0, -5⟩, ⟨0, 0, 1⟩, min, max⟩ - 2)
        / (2 * sphereA (⟨⟨0, 0, -5⟩, ⟨0, 0, 1⟩, min, max⟩ : Ray K)) = 4 := by
      norm_num [sphereA, sphereB, Vector3.Dot, Vector3.sub_def, Vector3.smul_def]
    rw [h5, if_neg (not_lt.mpr hmin)]
  rw [HitTest_Sphere_of_pos sqrt _ _ hitRecord (by rw [hd]; norm_num), hT]
  have ho : (⟨0, 0, -5⟩ : Vector3 K) + (4 : K) * (⟨0, 0, 1⟩ : Vector3 K) = ⟨0, 0, -1⟩ := by
    simp only [Vector3.add_def, Vector3.smul_def, Vector3.mk.injEq]
    norm_num
  dsimp only
  rw [ho]
  have hn : Vector3.Normalize sqrt ((⟨0, 0, -1⟩ : Vector3 K) - ⟨0, 0, 0⟩) = ⟨0, 0, -1⟩ := by
    simp only [Vector3.Normalize, Vector3.Magnitude, Vector3.sub_def, Vector3.mk.injEq]
    norm_num [h1]
  rw [hn]

/-- C5: on a positive discriminant the detailed `HitTest_Sphere` sets `t` to
`(−B − √disc)/(2A)` when that value is at least `ray.min` and to `(−B + √disc)/(2A)`
otherwise, the first being the smaller of the two when `√disc` is a non-negative number; and
for the unit sphere at the origin and the ray from `(0,0,−5)` along `(0,0,1)` (any bounds with
`min ≤ 4`, `√4 = 2`, `√1 = 1`) the record is `t = 4`, hit point `(0,0,−1)`, normal
`(0,0,−1)`. -/
theorem HitTest_Sphere_root_selection (sqrt : K → K) :
    (∀ (sphere : Sphere K) (ray : Ray K) (hitRecord : HitRecord K),
      0 < discriminant sphere ray →
        (HitTest_Sphere sqrt sphere ray hitRecord false).1 = true
        ∧ (HitTest_Sphere sqrt sphere ray hitRecord false).2.t
          = (if ray.min ≤ (-sphereB sphere ray - sqrt (discriminant sphere ray))
                / (2 * sphereA ray)
            then Flt.fin ((-sphereB sphere ray - sqrt (discriminant sphere ray))
                / (2 * sphereA ray))
            else Flt.fin ((-sphereB sphere ray + sqrt (discriminant sphere ray))
                / (2 * sphereA ray)))
        ∧ (0 ≤ sqrt (discriminant sphere ray) →
            (-sphereB sphere ray - sqrt (discriminant sphere ray)) / (2 * sphereA ray)
              ≤ (-sphereB sphere ray + sqrt (discriminant sphere ray)) / (2 * sphereA ray)))
    ∧ (sqrt 4 = 2 → sqrt 1 = 1 →
        ∀ (min max : K) (materialIndex : Nat) (hitRecord : HitRecord K), min ≤ 4 →
          HitTest_Sphere sqrt ⟨⟨0, 0, 0⟩, 1, materialIndex⟩ ⟨⟨0, 0, -5⟩, ⟨0, 0, 1⟩, min, max⟩
              hitRecord false
            = (true, { origin := ⟨0, 0, -1⟩, normal := ⟨0, 0, -1⟩, t := Flt.fin 4,
                       didHit := true, materialIndex := materialIndex })) := by
  constructor
  · intro sphere ray hitRecord hdisc
    rw [HitTest_Sphere_of_pos sqrt sphere ray hitRecord hdisc]
    refine ⟨rfl, ?_, ?_⟩
    · dsimp only
      unfold sphereT
      by_cases h : (-sphereB sphere ray - sqrt (discriminant sphere ray))
          / (2 * sphereA ray) < ray.min
      · rw [if_pos h, if_neg (not_le.mpr h)]
      · rw [if_neg h, if_pos (not_lt.mp h)]
    · intro hs
      have hA : 0 < 2 * sphereA ray :=
        mul_pos (by norm_num) (pos_of_discriminant_pos sphere ray hdisc).1
      apply div_le_div_of_nonneg_right _ hA.le
      linarith
  · intro h4 h1 min max materialIndex hitRecord hmin
    exact HitTest_Sphere_unit_scenario sqrt h4 h1 min max materialIndex hitRecord hmin

/-- Witness for C5: the scenario with `Rat.sqrt` and the default ray bounds. -/
theorem HitTest_Sphere_root_selection_witness :
    HitTest_Sphere Rat.sqrt unitSphere rayTowardsSphere (HitRecord.default fltMax) false
      = (true, { origin := ⟨0, 0, -1⟩, normal := ⟨0, 0, -1⟩, t := Flt.fin 4,
                 didHit := true, materialIndex := 0 }) :=
  (HitTest_Sphere_root_selection Rat.sqrt).2
    (by rw [show (4 : ℚ) = 2 * 2 by norm_num, Rat.sqrt_eq]; norm_num)
    (by rw [show (1 : ℚ) = 1 * 1 by norm_num, Rat.sqrt_eq]; norm_num)
    (1 / 10000) fltMax 0 (HitRecord.default fltMax) (by norm_num)

end GeometryUtils

/-! ## The plane test (claims C7, C8, C9) -/

namespace GeometryUtils

variable {K : Type} [LinearOrderedField K]

/-- The plane test always stores the quotient in `t`. -/
theorem HitTest_Plane_t (plane : Plane K) (ray : Ray K) (hitRecord : HitRecord K)
    (ignoreHitRecord : Bool) :
    (HitTest_Plane plane ray hitRecord ignoreHitRecord).2.t
      = Flt.fdiv (Vector3.Dot (plane.origin - ray.origin) plane.normal)
          (Vector3.Dot ray.direction plane.normal) := by
  unfold HitTest_Plane
  dsimp only
  split_ifs <;> rfl

/-- The plane test returns true exactly when the divisor is non-zero and the quotient lies
in the closed interval `[ray.min, ray.max]`. -/
theorem HitTest_Plane_true_iff (plane : Plane K) (ray : Ray K) (hitRecord : HitRecord K)
    (ignoreHitRecord : Bool) :
    (HitTest_Plane plane ray hitRecord ignoreHitRecord).1 = true
      ↔ Vector3.Dot ray.direction plane.normal ≠ 0
        ∧ ray.min ≤ Vector3.Dot (plane.origin - ray.origin) plane.normal
            / Vector3.Dot ray.direction plane.normal
        ∧ Vector3.Dot (plane.origin - ray.origin) plane.normal
            / Vector3.Dot ray.direction plane.normal ≤ ray.max := by
  unfold HitTest_Plane
  dsimp only
  by_cases hden : Vector3.Dot ray.direction plane.normal = 0
  · have hnf := Flt.fdiv_zero_not_fin (Vector3.Dot (plane.origin - ray.origin) plane.normal)
    rw [hden]
    have hno : ¬ ((Flt.le (Flt.fin ray.min)
          (Flt.fdiv (Vector3.Dot (plane.origin - ray.origin) plane.normal) 0)
        && Flt.le (Flt.fdiv (Vector3.Dot (plane.origin - ray.origin) plane.normal) 0)
          (Flt.fin ray.max)) = true) := by
      rw [Flt.le_le_fin]
      rintro ⟨x, hx, _⟩
      exact hnf x hx
    rw [if_neg hno]
    simp
  · rw [Flt.fdiv_of_ne _ hden]
    simp only [Flt.le, Bool.and_eq_true, decide_eq_true_eq]
    split_ifs with h
    · simp [hden, h.1, h.2]
    · simp only [Bool.false_eq_true, ne_eq, hden, not_false_eq_true, true_and, false_iff]
      exact h

/-- The record the plane test leaves on a hit: every field is overwritten. -/
theorem HitTest_Plane_of_true (plane : Plane K) (ray : Ray K) (hitRecord : HitRecord K)
    (ignoreHitRecord : Bool)
    (h : (HitTest_Plane plane ray hitRecord ignoreHitRecord).1 = true) :
    (HitTest_Plane plane ray hitRecord ignoreHitRecord).2
      = { origin := ray.origin
            + (Vector3.Dot (plane.origin - ray.origin) plane.normal
                / Vector3.Dot ray.direction plane.normal) * ray.direction,
          normal := plane.normal,
          t := Flt.fin (Vector3.Dot (plane.origin - ray.origin) plane.normal
                / Vector3.Dot ray.direction plane.normal),
          didHit := true,
          materialIndex := plane.materialIndex } := by
  obtain ⟨hden, h1, h2⟩ := (HitTest_Plane_true_iff plane ray hitRecord ignoreHitRecord).mp h
  unfold HitTest_Plane
  dsimp only
  rw [Flt.fdiv_of_ne _ hden]
  simp only [Flt.le, decide_eq_true_eq.mpr h1, decide_eq_true_eq.mpr h2, Bool.and_self,
    if_true, Vector3.scale_fin]

/-- The record the plane test leaves on a miss: `t` holds the quotient, `didHit` is false,
the other fields are untouched. -/
theorem HitTest_Plane_of_false (plane : Plane K) (ray : Ray K) (hitRecord : HitRecord K)
    (ignoreHitRecord : Bool)
    (h : (HitTest_Plane plane ray hitRecord ignoreHitRecord).1 = false) :
    (HitTest_Plane plane ray hitRecord ignoreHitRecord).2
      = { hitRecord with
          t := Flt.fdiv (Vector3.Dot (plane.origin - ray.origin) plane.normal)
            (Vector3.Dot ray.direction plane.normal),
          didHit := false } := by
  unfold HitTest_Plane at h ⊢
  dsimp only at h ⊢
  split_ifs at h ⊢ with hc
  rfl

/-- The record's `didHit` is the returned boolean. -/
theorem HitTest_Plane_didHit (plane : Plane K) (ray : Ray K) (hitRecord : HitRecord K)
    (ignoreHitRecord : Bool) :
    (HitTest_Plane plane ray hitRecord ignoreHitRecord).2.didHit
      = (HitTest_Plane plane ray hitRecord ignoreHitRecord).1 := by
  unfold HitTest_Plane
  dsimp only
  split_ifs <;> rfl

/-- C7 (the code at the failing input): for the plane through the origin with normal
`(0,1,0)` and the ray from `(0,5,0)` along `(0,−1,0)` with `min = 0`, `max = 5`, the
parameter is `t = 5 = ray.max`, so `t < ray.max` fails, and `HitTest_Plane` returns true
with `didHit = true`; with `max = 100` it returns true with `t = 5` as well. -/
theorem HitTest_Plane_hit_at_max_bound :
    Vector3.Dot rayDownToMax.direction groundPlane.normal ≠ 0
    ∧ Vector3.Dot (groundPlane.origin - rayDownToMax.origin) groundPlane.normal
        / Vector3.Dot rayDownToMax.direction groundPlane.normal = 5
    ∧ ¬ ((5 : ℚ) < rayDownToMax.max)
    ∧ HitTest_Plane groundPlane rayDownToMax (HitRecord.default fltMax) false
        = (true, { origin := ⟨0, 0, 0⟩, normal := ⟨0, 1, 0⟩, t := Flt.fin 5, didHit := true,
                   materialIndex := 0 })
    ∧ HitTest_Plane2 fltMax groundPlane rayDownToMax = true
    ∧ HitTest_Plane groundPlane rayDown (HitRecord.default fltMax) false
        = (true, { origin := ⟨0, 0, 0⟩, normal := ⟨0, 1, 0⟩, t := Flt.fin 5, didHit := true,
                   materialIndex := 0 }) := by
  have hden : Vector3.Dot rayDownToMax.direction groundPlane.normal ≠ 0 := by
    norm_num [Vector3.Dot, rayDownToMax, groundPlane]
  have hq : Vector3.Dot (groundPlane.origin - rayDownToMax.origin) groundPlane.normal
        / Vector3.Dot rayDownToMax.direction groundPlane.normal = 5 := by
    norm_num [Vector3.Dot, Vector3.sub_def, rayDownToMax, groundPlane]
  have hden2 : Vector3.Dot rayDown.direction groundPlane.normal ≠ 0 := by
    norm_num [Vector3.Dot, rayDown, groundPlane]
  have hq2 : Vector3.Dot (groundPlane.origin - rayDown.origin) groundPlane.normal
        / Vector3.Dot rayDown.direction groundPlane.normal = 5 := by
    norm_num [Vector3.Dot, Vector3.sub_def, rayDown, groundPlane]
  have ho : (⟨0, 5, 0⟩ : Vector3 ℚ) + (5 : ℚ) * (⟨0, -1, 0⟩ : Vector3 ℚ) = ⟨0, 0, 0⟩ := by
    simp only [Vector3.add_def, Vector3.smul_def, Vector3.mk.injEq]
    norm_num
  have h1 : (HitTest_Plane groundPlane rayDownToMax (HitRecord.default fltMax) false).1
      = true := by
    rw [HitTest_Plane_true_iff, hq]
    exact ⟨hden, by norm_num [rayDownToMax], by norm_num [rayDownToMax]⟩
  have h2 : (HitTest_Plane groundPlane rayDown (HitRecord.default fltMax) false).1
      = true := by
    rw [HitTest_Plane_true_iff, hq2]
    exact ⟨hden2, by norm_num [rayDown], by norm_num [rayDown]⟩
  have h3 : (HitTest_Plane groundPlane rayDownToMax (HitRecord.default fltMax) true).1
      = true := by
    rw [HitTest_Plane_true_iff, hq]
    exact ⟨hden, by norm_num [rayDownToMax], by norm_num [rayDownToMax]⟩
  refine ⟨hden, hq, by norm_num [rayDownToMax], ?_, h3, ?_⟩
  · refine Prod.ext h1 ?_
    have ho1 : rayDownToMax.origin + (5 : ℚ) * rayDownToMax.direction = ⟨0, 0, 0⟩ := ho
    rw [HitTest_Plane_of_true _ _ _ _ h1, hq, ho1]
    rfl
  · refine Prod.ext h2 ?_
    have ho2 : rayDown.origin + (5 : ℚ) * rayDown.direction = ⟨0, 0, 0⟩ := ho
    rw [HitTest_Plane_of_true _ _ _ _ h2, hq2, ho2]
    rfl

end GeometryUtils

namespace GeometryUtils

variable {K : Type} [LinearOrderedField K]

/-- C9 (counterexample): `AddPlane` accepts the normal `(0,2,0)` and stores it as given; the
ray from `(0,5,0)` along `(0,−1,0)` hits that plane, and the normal written into the hit
record is `(0,2,0)`, of squared length 4 and magnitude 2, not of unit length. -/
theorem HitTest_Plane_normal_not_unit :
    sceneWithScaledPlane.m_PlaneGeometries = [scaledPlane]
    ∧ (HitTest_Plane scaledPlane rayDown (HitRecord.default fltMax) false).1 = true
    ∧ (HitTest_Plane scaledPlane rayDown (HitRecord.default fltMax) false).2.normal = ⟨0, 2, 0⟩
    ∧ Vector3.Dot (HitTest_Plane scaledPlane rayDown (HitRecord.default fltMax) false).2.normal
        (HitTest_Plane scaledPlane rayDown (HitRecord.default fltMax) false).2.normal ≠ 1
    ∧ Vector3.Magnitude Rat.sqrt
        (HitTest_Plane scaledPlane rayDown (HitRecord.default fltMax) false).2.normal ≠ 1 := by
  have h : (HitTest_Plane scaledPlane rayDown (HitRecord.default fltMax) false).1 = true := by
    rw [HitTest_Plane_true_iff]
    norm_num [Vector3.Dot, Vector3.sub_def, rayDown, scaledPlane]
  refine ⟨rfl, h, ?_, ?_, ?_⟩
  · rw [HitTest_Plane_of_true _ _ _ _ h]
    rfl
  · rw [HitTest_Plane_of_true _ _ _ _ h]
    norm_num [Vector3.Dot, scaledPlane]
  · rw [HitTest_Plane_of_true _ _ _ _ h]
    have h4 : Rat.sqrt (0 * 0 + 2 * 2 + 0 * 0) = 2 := by
      rw [show (0 * 0 + 2 * 2 + 0 * 0 : ℚ) = 2 * 2 by norm_num, Rat.sqrt_eq]
      norm_num
    show Rat.sqrt (0 * 0 + 2 * 2 + 0 * 0) ≠ 1
    rw [h4]
    norm_num

/-- C9 (amended): `AddPlane` appends the plane with the normal exactly as given, and whenever
`HitTest_Plane` returns true the normal it writes into the hit record is `plane.normal`
unchanged; so that normal has unit length (`n·n = 1`) exactly when the plane's stored normal
has. -/
theorem HitTest_Plane_normal_eq_plane_normal (scene : Scene K) (origin normal : Vector3 K)
    (materialIndex : Nat) (plane : Plane K) (ray : Ray K) (hitRecord : HitRecord K)
    (ignoreHitRecord : Bool) :
    (Scene.AddPlane scene origin normal materialIndex).m_PlaneGeometries
        = scene.m_PlaneGeometries ++ [⟨origin, normal, materialIndex⟩]
    ∧ ((HitTest_Plane plane ray hitRecord ignoreHitRecord).1 = true →
        (HitTest_Plane plane ray hitRecord ignoreHitRecord).2.normal = plane.normal
        ∧ (Vector3.Dot (HitTest_Plane plane ray hitRecord ignoreHitRecord).2.normal
              (HitTest_Plane plane ray hitRecord ignoreHitRecord).2.normal = 1
            ↔ Vector3.Dot plane.normal plane.normal = 1)) := by
  refine ⟨rfl, ?_⟩
  intro h
  rw [HitTest_Plane_of_true plane ray hitRecord ignoreHitRecord h]
  exact ⟨rfl, Iff.rfl⟩

/-- Witness for the amended C9: the plane through the origin with the unit normal `(0,1,0)`
is hit by the ray from `(0,5,0)` along `(0,−1,0)`, and the normal written is that unit
normal. -/
theorem HitTest_Plane_normal_eq_plane_normal_witness :
    (HitTest_Plane groundPlane rayDown (HitRecord.default fltMax) false).1 = true
    ∧ (HitTest_Plane groundPlane rayDown (HitRecord.default fltMax) false).2.normal
        = groundPlane.normal :=
  have h : (HitTest_Plane groundPlane rayDown (HitRecord.default fltMax) false).1 = true := by
    rw [HitTest_Plane_true_iff]
    norm_num [Vector3.Dot, Vector3.sub_def, rayDown, groundPlane]
  ⟨h, ((HitTest_Plane_normal_eq_plane_normal Scene.new ⟨0, 0, 0⟩ ⟨0, 1, 0⟩ 0 groundPlane
    rayDown (HitRecord.default fltMax) false).2 h).1⟩

/-! ## The triangle tests (claim C10) -/

/-- C10: the four triangle and triangle-mesh tests end in the error "Not Implemented Yet" for
every input, so none returns a boolean; `GetClosestHit` and `DoesHit` are total functions
whose result does not depend on the triangle meshes the scene holds (they never reach the
triangle tests). -/
theorem HitTest_Triangle_not_implemented (sqrt : K → K) (FLT_MAX : K) (triangle : Triangle K)
    (mesh : TriangleMesh K) (ray : Ray K) (hitRecord : HitRecord K) (ignoreHitRecord : Bool)
    (scene : Scene K) (meshes : List (TriangleMesh K)) :
    HitTest_Triangle triangle ray hitRecord ignoreHitRecord = Except.error "Not Implemented Yet"
    ∧ HitTest_Triangle2 FLT_MAX triangle ray = Except.error "Not Implemented Yet"
    ∧ HitTest_TriangleMesh mesh ray hitRecord ignoreHitRecord
        = Except.error "Not Implemented Yet"
    ∧ HitTest_TriangleMesh2 FLT_MAX mesh ray = Except.error "Not Implemented Yet"
    ∧ (∀ b : Bool × HitRecord K,
        HitTest_Triangle triangle ray hitRecord ignoreHitRecord ≠ Except.ok b
        ∧ HitTest_TriangleMesh mesh ray hitRecord ignoreHitRecord ≠ Except.ok b)
    ∧ (∀ b : Bool,
        HitTest_Triangle2 FLT_MAX triangle ray ≠ Except.ok b
        ∧ HitTest_TriangleMesh2 FLT_MAX mesh ray ≠ Except.ok b)
    ∧ Scene.GetClosestHit sqrt { scene with m_TriangleMeshGeometries := meshes } ray hitRecord
        = Scene.GetClosestHit sqrt { scene with m_TriangleMeshGeometries := [] } ray hitRecord
    ∧ Scene.DoesHit sqrt FLT_MAX { scene with m_TriangleMeshGeometries := meshes } ray
        = Scene.DoesHit sqrt FLT_MAX { scene with m_TriangleMeshGeometries := [] } ray := by
  refine ⟨rfl, rfl, rfl, rfl, ?_, ?_, rfl, rfl⟩
  · intro b
    constructor <;> intro h <;> cases h
  · intro b
    constructor <;> intro h <;> cases h

end GeometryUtils

/-! ## The scene queries (claims C1, C2, C3) -/

namespace Scene

variable {K : Type} [LinearOrderedField K]

open GeometryUtils

theorem rat_sqrt_four : Rat.sqrt 4 = 2 := by
  rw [show (4 : ℚ) = 2 * 2 by norm_num, Rat.sqrt_eq]
  norm_num

theorem rat_sqrt_one : Rat.sqrt 1 = 1 := by
  rw [show (1 : ℚ) = 1 * 1 by norm_num, Rat.sqrt_eq]
  norm_num

/-- The sphere test for the unit sphere and the ray that starts beyond it and points away:
both roots are negative and the record holds the larger one, `t = -4`. -/
theorem HitTest_Sphere_rayAwayFromSphere (hitRecord : HitRecord ℚ) :
    HitTest_Sphere Rat.sqrt unitSphere rayAwayFromSphere hitRecord false
      = (true, { origin := ⟨0, 0, 1⟩, normal := ⟨0, 0, 1⟩, t := Flt.fin (-4), didHit := true,
                 materialIndex := 0 }) := by
  have hd : discriminant unitSphere rayAwayFromSphere = 4 := by
    norm_num [discriminant, sphereA, sphereB, sphereC, Vector3.Dot, Vector3.sub_def,
      Vector3.smul_def, unitSphere, rayAwayFromSphere]
  have hT : sphereT Rat.sqrt unitSphere rayAwayFromSphere = -4 := by
    unfold sphereT
    rw [hd, rat_sqrt_four]
    norm_num [sphereA, sphereB, Vector3.Dot, Vector3.sub_def, Vector3.smul_def, unitSphere,
      rayAwayFromSphere]
  rw [HitTest_Sphere_of_pos Rat.sqrt _ _ hitRecord (by rw [hd]; norm_num), hT]
  have ho : rayAwayFromSphere.origin + (-4 : ℚ) * rayAwayFromSphere.direction = ⟨0, 0, 1⟩ := by
    simp only [Vector3.add_def, Vector3.smul_def, Vector3.mk.injEq, rayAwayFromSphere]
    norm_num
  rw [ho]
  have hn : Vector3.Normalize Rat.sqrt ((⟨0, 0, 1⟩ : Vector3 ℚ) - unitSphere.origin)
      = ⟨0, 0, 1⟩ := by
    simp only [Vector3.Normalize, Vector3.Magnitude, Vector3.sub_def, Vector3.mk.injEq,
      unitSphere]
    norm_num [rat_sqrt_one]
  rw [hn]
  rfl

/-- The sphere test for the unit sphere and the ray that starts at its centre: the smaller
root `-1` is below `ray.min`, and the record holds the larger one, `t = 1`. -/
theorem HitTest_Sphere_rayFromInsideSphere (hitRecord : HitRecord ℚ) :
    HitTest_Sphere Rat.sqrt unitSphere rayFromInsideSphere hitRecord false
      = (true, { origin := ⟨0, 0, 1⟩, normal := ⟨0, 0, 1⟩, t := Flt.fin 1, didHit := true,
                 materialIndex := 0 }) := by
  have hd : discriminant unitSphere rayFromInsideSphere = 4 := by
    norm_num [discriminant, sphereA, sphereB, sphereC, Vector3.Dot, Vector3.sub_def,
      Vector3.smul_def, unitSphere, rayFromInsideSphere]
  have hT : sphereT Rat.sqrt unitSphere rayFromInsideSphere = 1 := by
    unfold sphereT
    rw [hd, rat_sqrt_four]
    norm_num [sphereA, sphereB, Vector3.Dot, Vector3.sub_def, Vector3.smul_def, unitSphere,
      rayFromInsideSphere]
  rw [HitTest_Sphere_of_pos Rat.sqrt _ _ hitRecord (by rw [hd]; norm_num), hT]
  have ho : rayFromInsideSphere.origin + (1 : ℚ) * rayFromInsideSphere.direction
      = ⟨0, 0, 1⟩ := by
    simp only [Vector3.add_def, Vector3.smul_def, Vector3.mk.injEq, rayFromInsideSphere]
    norm_num
  rw [ho]
  have hn : Vector3.Normalize Rat.sqrt ((⟨0, 0, 1⟩ : Vector3 ℚ) - unitSphere.origin)
      = ⟨0, 0, 1⟩ := by
    simp only [Vector3.Normalize, Vector3.Magnitude, Vector3.sub_def, Vector3.mk.injEq,
      unitSphere]
    norm_num [rat_sqrt_one]
  rw [hn]
  rfl

/-- C1 (the code at the failing input): for the scene holding the unit sphere at the origin
and the ray that starts at its centre along `(0,0,1)` with the default bounds,
`GetClosestHit` from a default record leaves `didHit = true` with `t = 1`, which lies
strictly between `ray.min` and `ray.max`, while `DoesHit` returns false. -/
theorem DoesHit_false_GetClosestHit_true :
    GetClosestHit Rat.sqrt sceneWithUnitSphere rayFromInsideSphere (HitRecord.default fltMax)
        = { origin := ⟨0, 0, 1⟩, normal := ⟨0, 0, 1⟩, t := Flt.fin 1, didHit := true,
            materialIndex := 0 }
    ∧ rayFromInsideSphere.min < 1 ∧ 1 < rayFromInsideSphere.max
    ∧ DoesHit Rat.sqrt fltMax sceneWithUnitSphere rayFromInsideSphere = false := by
  refine ⟨?_, by norm_num [rayFromInsideSphere], by norm_num [rayFromInsideSphere, fltMax],
    ?_⟩
  · have hs : sceneWithUnitSphere.m_SphereGeometries = [unitSphere] := rfl
    have hp : sceneWithUnitSphere.m_PlaneGeometries = [] := rfl
    unfold GetClosestHit closestScan
    rw [hs, hp]
    unfold sphereLoop sphereLoop planeLoop sphereStep
    simp only [HitTest_Sphere_rayFromInsideSphere]
    norm_num [Flt.lt, HitRecord.default, fltMax, HitTest_Sphere_rayFromInsideSphere]
  · have hs : sceneWithUnitSphere.m_SphereGeometries = [unitSphere] := rfl
    have hp : sceneWithUnitSphere.m_PlaneGeometries = [] := rfl
    simp only [DoesHit, hs, hp, doesHitSphere]
    norm_num [Flt.lt, Flt.fdiv, Vector3.Dot, Vector3.sub_def, Vector3.smul_def, unitSphere,
      rayFromInsideSphere, rat_sqrt_four]

/-- C2 (the code at the failing input): for the scene holding the unit sphere at the origin
and the ray from `(0,0,5)` along `(0,0,1)`, which points away from the sphere,
`GetClosestHit` from a default record leaves `didHit = true` with the negative parameter
`t = -4`. -/
theorem GetClosestHit_hit_behind_origin :
    GetClosestHit Rat.sqrt sceneWithUnitSphere rayAwayFromSphere (HitRecord.default fltMax)
        = { origin := ⟨0, 0, 1⟩, normal := ⟨0, 0, 1⟩, t := Flt.fin (-4), didHit := true,
            materialIndex := 0 }
    ∧ ¬ (rayAwayFromSphere.min < (-4 : ℚ)) := by
  refine ⟨?_, by norm_num [rayAwayFromSphere]⟩
  have hs : sceneWithUnitSphere.m_SphereGeometries = [unitSphere] := rfl
  have hp : sceneWithUnitSphere.m_PlaneGeometries = [] := rfl
  unfold GetClosestHit closestScan
  rw [hs, hp]
  unfold sphereLoop sphereLoop planeLoop sphereStep
  simp only [HitTest_Sphere_rayAwayFromSphere]
  norm_num [Flt.lt, HitRecord.default, fltMax]

end Scene

namespace Flt

variable {K : Type} [LinearOrderedField K]

theorem lt_self (t : Flt K) : lt t t = false := by
  cases t <;> simp [lt]

theorem fin_of_lt_lt {t : Flt K} {x : K} (h0 : lt (fin 0) t = true)
    (h1 : lt t (fin x) = true) : ∃ y, t = fin y := by
  cases t <;> simp_all [lt]

theorem le_of_not_lt {t : Flt K} {x : K} (h0 : lt (fin 0) t = true)
    (h1 : lt t (fin x) = false) : le (fin x) t = true := by
  cases t <;> simp_all [lt, le]

theorem le_of_lt_of_le {y x : K} {t : Flt K} (h : lt (fin y) (fin x) = true)
    (h2 : le (fin x) t = true) : le (fin y) t = true := by
  cases t <;> simp_all [lt, le]
  exact le_trans (le_of_lt h) h2

end Flt

namespace GeometryUtils

variable {K : Type} [LinearOrderedField K]

/-- A sphere test that hits leaves the same record whatever record it started from. -/
theorem HitTest_Sphere_eq_of_hit (sqrt : K → K) (s : Sphere K) (ray : Ray K)
    (r1 r2 : HitRecord K) (h : (HitTest_Sphere sqrt s ray r2 false).1 = true) :
    HitTest_Sphere sqrt s ray r1 false = HitTest_Sphere sqrt s ray r2 false := by
  by_cases hd : 0 < discriminant s ray
  · rw [HitTest_Sphere_of_pos sqrt s ray r1 hd, HitTest_Sphere_of_pos sqrt s ray r2 hd]
  · rw [HitTest_Sphere_of_not_pos sqrt s ray r2 false hd] at h
    simp at h

/-- A sphere test that misses only clears `didHit`; `t` keeps its previous value. -/
theorem HitTest_Sphere_eq_of_miss (sqrt : K → K) (s : Sphere K) (ray : Ray K)
    (r1 r2 : HitRecord K) (h : (HitTest_Sphere sqrt s ray r2 false).1 = false) :
    HitTest_Sphere sqrt s ray r1 false = (false, { r1 with didHit := false }) := by
  by_cases hd : 0 < discriminant s ray
  · rw [HitTest_Sphere_of_pos sqrt s ray r2 hd] at h
    simp at h
  · exact HitTest_Sphere_of_not_pos sqrt s ray r1 false hd

/-- A sphere test that hits leaves a finite `t`. -/
theorem HitTest_Sphere_t_fin (sqrt : K → K) (s : Sphere K) (ray : Ray K)
    (r : HitRecord K) (h : (HitTest_Sphere sqrt s ray r false).1 = true) :
    ∃ x, (HitTest_Sphere sqrt s ray r false).2.t = Flt.fin x := by
  by_cases hd : 0 < discriminant s ray
  · rw [HitTest_Sphere_of_pos sqrt s ray r hd]
    exact ⟨_, rfl⟩
  · rw [HitTest_Sphere_of_not_pos sqrt s ray r false hd] at h
    simp at h

/-- Whether the plane test hits does not depend on the record it starts from. -/
theorem HitTest_Plane_fst_indep (p : Plane K) (ray : Ray K) (r1 r2 : HitRecord K)
    (i1 i2 : Bool) :
    (HitTest_Plane p ray r1 i1).1 = (HitTest_Plane p ray r2 i2).1 := by
  rw [Bool.eq_iff_iff, HitTest_Plane_true_iff, HitTest_Plane_true_iff]

/-- A plane test that hits leaves the same record whatever record it started from. -/
theorem HitTest_Plane_eq_of_hit (p : Plane K) (ray : Ray K) (r1 r2 : HitRecord K)
    (h : (HitTest_Plane p ray r2 false).1 = true) :
    HitTest_Plane p ray r1 false = HitTest_Plane p ray r2 false := by
  have h1 : (HitTest_Plane p ray r1 false).1 = true := by
    rw [HitTest_Plane_fst_indep p ray r1 r2 false false]
    exact h
  refine Prod.ext (h1.trans h.symm) ?_
  rw [HitTest_Plane_of_true p ray r1 false h1, HitTest_Plane_of_true p ray r2 false h]

/-- The `t` the plane test stores does not depend on the record it starts from. -/
theorem HitTest_Plane_t_indep (p : Plane K) (ray : Ray K) (r1 r2 : HitRecord K)
    (i1 i2 : Bool) :
    (HitTest_Plane p ray r1 i1).2.t = (HitTest_Plane p ray r2 i2).2.t := by
  rw [HitTest_Plane_t, HitTest_Plane_t]

end GeometryUtils

namespace Scene

variable {K : Type} [LinearOrderedField K]

open GeometryUtils

/-- The invariant holds before the first test. -/
theorem scanInv_init (sqrt : K → K) (FLT_MAX : K) (ray : Ray K) :
    ScanInv sqrt FLT_MAX ray [] []
      { closestHit := HitRecord.default FLT_MAX, smallestT := (HitRecord.default FLT_MAX).t,
        closestIdx := -1, planeCloser := false } where
  smallest_fin := ⟨FLT_MAX, rfl⟩
  none_max := fun _ => rfl
  stale := by
    show (Flt.lt (Flt.fin FLT_MAX) (Flt.fin FLT_MAX)
      && Flt.lt (Flt.fin 0) (Flt.fin FLT_MAX)) = false
    rw [Flt.lt_self, Bool.false_and]
  sphere_idx := fun h => absurd rfl h
  plane_idx := fun h => absurd rfl h
  no_plane := fun _ => rfl
  le_sphere := fun s hs => absurd hs (List.not_mem_nil s)
  le_plane := fun p hp => absurd hp (List.not_mem_nil p)
  hit_rec := fun h => by simp [HitRecord.default] at h

/-- What one turn of the sphere loop does when the sphere's test hits and the candidate is
accepted. -/
theorem sphereStep_of_accept (sqrt : K → K) (ray : Ray K) (s : Sphere K) (i : Int)
    (st : ClosestState K) (r : HitRecord K)
    (hr : HitTest_Sphere sqrt s ray st.closestHit false = (true, r))
    (hc : (Flt.lt r.t st.smallestT && Flt.lt (Flt.fin 0) r.t) = true) :
    sphereStep sqrt ray s i st
      = { st with closestHit := r, smallestT := r.t, closestIdx := i } := by
  unfold sphereStep
  rw [hr]
  dsimp only
  rw [if_pos hc]

/-- What one turn of the sphere loop does when the candidate is not accepted. -/
theorem sphereStep_of_reject (sqrt : K → K) (ray : Ray K) (s : Sphere K) (i : Int)
    (st : ClosestState K) (b : Bool) (r : HitRecord K)
    (hr : HitTest_Sphere sqrt s ray st.closestHit false = (b, r))
    (hc : (Flt.lt r.t st.smallestT && Flt.lt (Flt.fin 0) r.t) = false) :
    sphereStep sqrt ray s i st = { st with closestHit := r } := by
  unfold sphereStep
  rw [hr]
  dsimp only
  rw [if_neg (by rw [hc]; exact Bool.false_ne_true)]

/-- One turn of the sphere loop keeps the invariant. -/
theorem sphereStep_inv (sqrt : K → K) (FLT_MAX : K) (ray : Ray K) (ss : List (Sphere K))
    (s : Sphere K) (st : ClosestState K) (h : ScanInv sqrt FLT_MAX ray ss [] st) :
    ScanInv sqrt FLT_MAX ray (ss ++ [s]) []
      (sphereStep sqrt ray s (ss.length : Int) st) := by
  obtain ⟨x, hx⟩ := h.smallest_fin
  have hpc : st.planeCloser = false := h.no_plane rfl
  have hidx : ∀ (i : Nat) (a : Sphere K), ss[i]? = some a → (ss ++ [s])[i]? = some a := by
    intro i a ha
    have hi : i < ss.length := (List.getElem?_eq_some_iff.mp ha).1
    rw [List.getElem?_append_left hi]
    exact ha
  cases hhit : (HitTest_Sphere sqrt s ray (HitRecord.default FLT_MAX) false).1
  · -- the sphere is missed: only `didHit` changes, the stale `t` is not accepted
    have e := HitTest_Sphere_eq_of_miss sqrt s ray st.closestHit _ hhit
    rw [sphereStep_of_reject sqrt ray s _ st false _ e h.stale]
    exact {
      smallest_fin := ⟨x, hx⟩
      none_max := h.none_max
      stale := h.stale
      sphere_idx := fun h1 h2 => by
        obtain ⟨a, ha, hb⟩ := h.sphere_idx h1 h2
        exact ⟨a, hidx _ a ha, hb⟩
      plane_idx := fun h1 h2 => by
        rw [hpc] at h2
        exact absurd h2 Bool.false_ne_true
      no_plane := fun _ => hpc
      le_sphere := fun a ha h1 h2 => by
        rcases List.mem_append.mp ha with ha | ha
        · exact h.le_sphere a ha h1 h2
        · rw [List.mem_singleton.mp ha, hhit] at h1
          exact absurd h1 Bool.false_ne_true
      le_plane := fun p hp => absurd hp (List.not_mem_nil p)
      hit_rec := fun hd => absurd hd Bool.false_ne_true }
  · -- the sphere is hit: the record is the sphere's own, with a finite `t`
    have e := HitTest_Sphere_eq_of_hit sqrt s ray st.closestHit _ hhit
    obtain ⟨y, hy⟩ := HitTest_Sphere_t_fin sqrt s ray _ hhit
    have e2 : HitTest_Sphere sqrt s ray st.closestHit false
        = (true, (HitTest_Sphere sqrt s ray (HitRecord.default FLT_MAX) false).2) := by
      rw [e]
      exact Prod.ext hhit rfl
    have hself : HitTest_Sphere sqrt s ray (HitRecord.default FLT_MAX) false
        = (true, (HitTest_Sphere sqrt s ray (HitRecord.default FLT_MAX) false).2) :=
      Prod.ext hhit rfl
    cases hc : (Flt.lt (HitTest_Sphere sqrt s ray (HitRecord.default FLT_MAX) false).2.t
        st.smallestT
      && Flt.lt (Flt.fin 0) (HitTest_Sphere sqrt s ray (HitRecord.default FLT_MAX) false).2.t)
    · rw [sphereStep_of_reject sqrt ray s _ st true _ e2 hc]
      exact {
        smallest_fin := ⟨x, hx⟩
        none_max := h.none_max
        stale := hc
        sphere_idx := fun h1 h2 => by
          obtain ⟨a, ha, hb⟩ := h.sphere_idx h1 h2
          exact ⟨a, hidx _ a ha, hb⟩
        plane_idx := fun h1 h2 => by
          rw [hpc] at h2
          exact absurd h2 Bool.false_ne_true
        no_plane := fun _ => hpc
        le_sphere := fun a ha h1 h2 => by
          rcases List.mem_append.mp ha with ha | ha
          · exact h.le_sphere a ha h1 h2
          · rw [List.mem_singleton.mp ha] at h2 ⊢
            rw [h2, Bool.and_true] at hc
            show Flt.le st.smallestT _ = true
            rw [hx] at hc ⊢
            exact Flt.le_of_not_lt h2 hc
        le_plane := fun p hp => absurd hp (List.not_mem_nil p)
        hit_rec := fun _ => Or.inl ⟨s, List.mem_append.mpr (Or.inr (List.mem_singleton.mpr rfl)),
          hself⟩ }
    · rw [sphereStep_of_accept sqrt ray s _ st _ e2 hc]
      have hc1 := (Bool.and_eq_true _ _ ▸ hc : _ ∧ _).1
      have hc2 := (Bool.and_eq_true _ _ ▸ hc : _ ∧ _).2
      exact {
        smallest_fin := ⟨y, hy⟩
        none_max := fun h1 => by
          have h2 : ((ss.length : Int)) = -1 := h1
          omega
        stale := by
          show (Flt.lt _ _ && _) = false
          rw [Flt.lt_self, Bool.false_and]
        sphere_idx := fun _ _ => ⟨s, by
          show (ss ++ [s])[((ss.length : Int)).toNat]? = some s
          rw [Int.toNat_natCast]
          exact List.getElem?_concat_length ss s, hhit, rfl⟩
        plane_idx := fun h1 h2 => by
          have h3 : st.planeCloser = true := h2
          rw [hpc] at h3
          exact absurd h3 Bool.false_ne_true
        no_plane := fun _ => hpc
        le_sphere := fun a ha h1 h2 => by
          show Flt.le (HitTest_Sphere sqrt s ray (HitRecord.default FLT_MAX) false).2.t _ = true
          rcases List.mem_append.mp ha with ha | ha
          · have h3 := h.le_sphere a ha h1 h2
            rw [hx] at h3 hc1
            rw [hy] at hc1 ⊢
            exact Flt.le_of_lt_of_le hc1 h3
          · rw [List.mem_singleton.mp ha, hy]
            simp [Flt.le]
        le_plane := fun p hp => absurd hp (List.not_mem_nil p)
        hit_rec := fun _ => Or.inl ⟨s, List.mem_append.mpr (Or.inr (List.mem_singleton.mpr rfl)),
          hself⟩ }

end Scene

namespace Flt

variable {K : Type} [LinearOrderedField K]

theorem le_trans_fin {a b : Flt K} {m : K} (h1 : le a (fin m) = true)
    (h2 : le (fin m) b = true) : le a b = true := by
  cases a <;> cases b <;> simp_all [le]
  exact le_trans h1 h2

end Flt

namespace Scene

variable {K : Type} [LinearOrderedField K]

open GeometryUtils

/-- One turn of the plane loop keeps the invariant. -/
theorem planeStep_inv (sqrt : K → K) (FLT_MAX : K) (ray : Ray K) (ss : List (Sphere K))
    (ps : List (Plane K)) (p : Plane K) (st : ClosestState K)
    (h : ScanInv sqrt FLT_MAX ray ss ps st) :
    ScanInv sqrt FLT_MAX ray ss (ps ++ [p]) (planeStep ray p (ps.length : Int) st) := by
  obtain ⟨x, hx⟩ := h.smallest_fin
  have hidx : ∀ (i : Nat) (a : Plane K), ps[i]? = some a → (ps ++ [p])[i]? = some a := by
    intro i a ha
    have hi : i < ps.length := (List.getElem?_eq_some_iff.mp ha).1
    rw [List.getElem?_append_left hi]
    exact ha
  have ht : (HitTest_Plane p ray st.closestHit false).2.t
      = (HitTest_Plane p ray (HitRecord.default FLT_MAX) false).2.t :=
    HitTest_Plane_t_indep p ray _ _ false false
  have hne : ps ++ [p] ≠ [] := by simp
  have hrec : (HitTest_Plane p ray st.closestHit false).2.didHit = true →
      (∃ s ∈ ss, HitTest_Sphere sqrt s ray (HitRecord.default FLT_MAX) false
          = (true, (HitTest_Plane p ray st.closestHit false).2))
      ∨ (∃ q ∈ ps ++ [p], HitTest_Plane q ray (HitRecord.default FLT_MAX) false
          = (true, (HitTest_Plane p ray st.closestHit false).2)) := by
    intro hd
    rw [HitTest_Plane_didHit] at hd
    have hd2 : (HitTest_Plane p ray (HitRecord.default FLT_MAX) false).1 = true := by
      rw [← HitTest_Plane_fst_indep p ray st.closestHit _ false false]
      exact hd
    refine Or.inr ⟨p, List.mem_append.mpr (Or.inr (List.mem_singleton.mpr rfl)), ?_⟩
    rw [← HitTest_Plane_eq_of_hit p ray st.closestHit _ hd2]
    exact Prod.ext hd rfl
  unfold planeStep
  dsimp only
  cases hc : (Flt.lt (HitTest_Plane p ray st.closestHit false).2.t st.smallestT
      && Flt.lt (Flt.fin 0) (HitTest_Plane p ray st.closestHit false).2.t)
  · rw [if_neg Bool.false_ne_true]
    exact {
      smallest_fin := ⟨x, hx⟩
      none_max := h.none_max
      stale := hc
      sphere_idx := h.sphere_idx
      plane_idx := fun h1 h2 => by
        obtain ⟨a, ha, hb⟩ := h.plane_idx h1 h2
        exact ⟨a, hidx _ a ha, hb⟩
      no_plane := fun h1 => absurd h1 hne
      le_sphere := h.le_sphere
      le_plane := fun a ha h2 => by
        rcases List.mem_append.mp ha with ha | ha
        · exact h.le_plane a ha h2
        · rw [List.mem_singleton.mp ha] at h2 ⊢
          rw [ht, h2, Bool.and_true] at hc
          show Flt.le st.smallestT _ = true
          rw [hx] at hc ⊢
          exact Flt.le_of_not_lt h2 hc
      hit_rec := hrec }
  · rw [if_pos rfl]
    have hc1 := (Bool.and_eq_true _ _ ▸ hc : _ ∧ _).1
    have hc2 := (Bool.and_eq_true _ _ ▸ hc : _ ∧ _).2
    rw [hx] at hc1
    obtain ⟨y, hy⟩ := Flt.fin_of_lt_lt hc2 hc1
    exact {
      smallest_fin := ⟨y, hy⟩
      none_max := fun h1 => by
        have h2 : ((ps.length : Int)) = -1 := h1
        omega
      stale := by
        show (Flt.lt _ _ && _) = false
        rw [Flt.lt_self, Bool.false_and]
      sphere_idx := fun _ h2 => absurd h2 (by simp)
      plane_idx := fun _ _ => ⟨p, by
        show (ps ++ [p])[((ps.length : Int)).toNat]? = some p
        rw [Int.toNat_natCast]
        exact List.getElem?_concat_length ps p, ht⟩
      no_plane := fun h1 => absurd h1 hne
      le_sphere := fun a ha h1 h2 => by
        show Flt.le (HitTest_Plane p ray st.closestHit false).2.t _ = true
        have h3 := h.le_sphere a ha h1 h2
        rw [hx] at h3
        rw [hy] at hc1 ⊢
        exact Flt.le_of_lt_of_le hc1 h3
      le_plane := fun a ha h2 => by
        show Flt.le (HitTest_Plane p ray st.closestHit false).2.t _ = true
        rcases List.mem_append.mp ha with ha | ha
        · have h3 := h.le_plane a ha h2
          rw [hx] at h3
          rw [hy] at hc1 ⊢
          exact Flt.le_of_lt_of_le hc1 h3
        · rw [List.mem_singleton.mp ha, ← ht, hy]
          simp [Flt.le]
      hit_rec := hrec }

/-- The sphere loop keeps the invariant. -/
theorem sphereLoop_inv (sqrt : K → K) (FLT_MAX : K) (ray : Ray K) (rest : List (Sphere K)) :
    ∀ (ss : List (Sphere K)) (st : ClosestState K), ScanInv sqrt FLT_MAX ray ss [] st →
      ScanInv sqrt FLT_MAX ray (ss ++ rest) []
        (sphereLoop sqrt ray rest (ss.length : Int) st) := by
  induction rest with
  | nil =>
    intro ss st h
    rw [List.append_nil]
    exact h
  | cons s rest ih =>
    intro ss st h
    have h1 := ih (ss ++ [s]) _ (sphereStep_inv sqrt FLT_MAX ray ss s st h)
    rw [List.append_assoc, List.singleton_append, List.length_append, List.length_singleton,
      Nat.cast_add, Nat.cast_one] at h1
    exact h1

/-- The plane loop keeps the invariant. -/
theorem planeLoop_inv (sqrt : K → K) (FLT_MAX : K) (ray : Ray K) (ss : List (Sphere K))
    (rest : List (Plane K)) :
    ∀ (ps : List (Plane K)) (st : ClosestState K), ScanInv sqrt FLT_MAX ray ss ps st →
      ScanInv sqrt FLT_MAX ray ss (ps ++ rest) (planeLoop ray rest (ps.length : Int) st) := by
  induction rest with
  | nil =>
    intro ps st h
    rw [List.append_nil]
    exact h
  | cons p rest ih =>
    intro ps st h
    have h1 := ih (ps ++ [p]) _ (planeStep_inv sqrt FLT_MAX ray ss ps p st h)
    rw [List.append_assoc, List.singleton_append, List.length_append, List.length_singleton,
      Nat.cast_add, Nat.cast_one] at h1
    exact h1

/-- The invariant holds after both loops of `GetClosestHit` on a default record. -/
theorem closestScan_inv (sqrt : K → K) (FLT_MAX : K) (scene : Scene K) (ray : Ray K) :
    ScanInv sqrt FLT_MAX ray scene.m_SphereGeometries scene.m_PlaneGeometries
      (closestScan sqrt scene ray (HitRecord.default FLT_MAX)) := by
  have h1 := sphereLoop_inv sqrt FLT_MAX ray scene.m_SphereGeometries [] _
    (scanInv_init sqrt FLT_MAX ray)
  have h2 := planeLoop_inv sqrt FLT_MAX ray _ scene.m_PlaneGeometries [] _ h1
  exact h2

end Scene

namespace Scene

variable {K : Type} [LinearOrderedField K]

open GeometryUtils

theorem GetClosestHit_of_none (sqrt : K → K) (scene : Scene K) (ray : Ray K)
    (r : HitRecord K) (h : (closestScan sqrt scene ray r).closestIdx = -1) :
    GetClosestHit sqrt scene ray r = (closestScan sqrt scene ray r).closestHit := by
  unfold GetClosestHit
  simp [h]

theorem GetClosestHit_of_sphere (sqrt : K → K) (scene : Scene K) (ray : Ray K)
    (r : HitRecord K) (s : Sphere K) (h1 : (closestScan sqrt scene ray r).closestIdx ≠ -1)
    (h2 : (closestScan sqrt scene ray r).planeCloser = false)
    (h3 : scene.m_SphereGeometries[(closestScan sqrt scene ray r).closestIdx.toNat]? = some s) :
    GetClosestHit sqrt scene ray r
      = (HitTest_Sphere sqrt s ray (closestScan sqrt scene ray r).closestHit false).2 := by
  unfold GetClosestHit
  simp [h1, h2, h3]

theorem GetClosestHit_of_plane (sqrt : K → K) (scene : Scene K) (ray : Ray K)
    (r : HitRecord K) (p : Plane K) (h1 : (closestScan sqrt scene ray r).closestIdx ≠ -1)
    (h2 : (closestScan sqrt scene ray r).planeCloser = true)
    (h3 : scene.m_PlaneGeometries[(closestScan sqrt scene ray r).closestIdx.toNat]? = some p) :
    GetClosestHit sqrt scene ray r
      = (HitTest_Plane p ray (closestScan sqrt scene ray r).closestHit false).2 := by
  unfold GetClosestHit
  simp [h1, h2, h3]

/-- C3: started on a default hit record (with `ray.max` and every sphere's `t` within the
float range, at most `FLT_MAX`), if `GetClosestHit` leaves `didHit == true` then the record
is exactly the one the `HitTest` of a single sphere or plane of the scene produces for the
ray, and its `t` is at most the `t` of every sphere and of every plane whose own `HitTest`
reports a hit with `t > 0`. -/
theorem GetClosestHit_closest (sqrt : K → K) (FLT_MAX : K) (scene : Scene K) (ray : Ray K)
    (hmax : ray.max ≤ FLT_MAX)
    (hrange : ∀ s ∈ scene.m_SphereGeometries,
      Flt.le (HitTest_Sphere sqrt s ray (HitRecord.default FLT_MAX) false).2.t
        (Flt.fin FLT_MAX) = true)
    (hhit : (GetClosestHit sqrt scene ray (HitRecord.default FLT_MAX)).didHit = true) :
    ((∃ s ∈ scene.m_SphereGeometries,
        HitTest_Sphere sqrt s ray (HitRecord.default FLT_MAX) false
          = (true, GetClosestHit sqrt scene ray (HitRecord.default FLT_MAX)))
      ∨ (∃ p ∈ scene.m_PlaneGeometries,
        HitTest_Plane p ray (HitRecord.default FLT_MAX) false
          = (true, GetClosestHit sqrt scene ray (HitRecord.default FLT_MAX))))
    ∧ (∀ s ∈ scene.m_SphereGeometries,
        (HitTest_Sphere sqrt s ray (HitRecord.default FLT_MAX) false).1 = true →
        Flt.lt (Flt.fin 0) (HitTest_Sphere sqrt s ray (HitRecord.default FLT_MAX) false).2.t
          = true →
        Flt.le (GetClosestHit sqrt scene ray (HitRecord.default FLT_MAX)).t
          (HitTest_Sphere sqrt s ray (HitRecord.default FLT_MAX) false).2.t = true)
    ∧ (∀ p ∈ scene.m_PlaneGeometries,
        (HitTest_Plane p ray (HitRecord.default FLT_MAX) false).1 = true →
        Flt.lt (Flt.fin 0) (HitTest_Plane p ray (HitRecord.default FLT_MAX) false).2.t
          = true →
        Flt.le (GetClosestHit sqrt scene ray (HitRecord.default FLT_MAX)).t
          (HitTest_Plane p ray (HitRecord.default FLT_MAX) false).2.t = true) := by
  have inv := closestScan_inv sqrt FLT_MAX scene ray
  obtain ⟨x, hx⟩ := inv.smallest_fin
  by_cases hidx : (closestScan sqrt scene ray (HitRecord.default FLT_MAX)).closestIdx = -1
  · -- no candidate was accepted: the record is the one of the last test
    have hres := GetClosestHit_of_none sqrt scene ray (HitRecord.default FLT_MAX) hidx
    rw [hres] at hhit ⊢
    have hsm := inv.none_max hidx
    have hQ := inv.hit_rec hhit
    have hle : Flt.le (closestScan sqrt scene ray (HitRecord.default FLT_MAX)).closestHit.t
        (Flt.fin FLT_MAX) = true := by
      rcases hQ with ⟨s, hs, hs2⟩ | ⟨p, hp, hp2⟩
      · have h1 := hrange s hs
        rw [hs2] at h1
        exact h1
      · have h1 : (HitTest_Plane p ray (HitRecord.default FLT_MAX) false).1 = true := by
          rw [hp2]
        have h2 := HitTest_Plane_of_true p ray _ false h1
        obtain ⟨_, _, h3⟩ := (HitTest_Plane_true_iff p ray _ false).mp h1
        rw [hp2] at h2
        dsimp only at h2
        rw [h2]
        simp only [Flt.le, decide_eq_true_eq]
        exact le_trans h3 hmax
    refine ⟨hQ, ?_, ?_⟩
    · intro s hs h1 h2
      have h3 := inv.le_sphere s hs h1 h2
      rw [hsm] at h3
      exact Flt.le_trans_fin hle h3
    · intro p hp _ h2
      have h3 := inv.le_plane p hp h2
      rw [hsm] at h3
      exact Flt.le_trans_fin hle h3
  · cases hpc : (closestScan sqrt scene ray (HitRecord.default FLT_MAX)).planeCloser
    · -- the accepted candidate is a sphere: its test is run once more and hits again
      obtain ⟨s, hs, hsh, hst⟩ := inv.sphere_idx hidx hpc
      have hres := GetClosestHit_of_sphere sqrt scene ray (HitRecord.default FLT_MAX) s hidx
        hpc hs
      rw [HitTest_Sphere_eq_of_hit sqrt s ray _ (HitRecord.default FLT_MAX) hsh] at hres
      rw [hres]
      refine ⟨Or.inl ⟨s, List.getElem?_mem hs, Prod.ext hsh rfl⟩, ?_, ?_⟩
      · intro a ha h1 h2
        rw [← hst]
        exact inv.le_sphere a ha h1 h2
      · intro p hp _ h2
        rw [← hst]
        exact inv.le_plane p hp h2
    · -- the accepted candidate is a plane: its test is run once more
      obtain ⟨p, hp, hst⟩ := inv.plane_idx hidx hpc
      have hres := GetClosestHit_of_plane sqrt scene ray (HitRecord.default FLT_MAX) p hidx
        hpc hp
      rw [hres, HitTest_Plane_didHit,
        HitTest_Plane_fst_indep p ray _ (HitRecord.default FLT_MAX) false false] at hhit
      rw [HitTest_Plane_eq_of_hit p ray _ (HitRecord.default FLT_MAX) hhit] at hres
      rw [hres]
      refine ⟨Or.inr ⟨p, List.getElem?_mem hp, Prod.ext hhit rfl⟩, ?_, ?_⟩
      · intro a ha h1 h2
        rw [← hst]
        exact inv.le_sphere a ha h1 h2
      · intro a ha _ h2
        rw [← hst]
        exact inv.le_plane a ha h2

/-- The sphere test for the unit sphere and the ray from `(0,0,-5)` along `(0,0,1)`. -/
theorem HitTest_Sphere_rayTowardsSphere (hitRecord : HitRecord ℚ) :
    HitTest_Sphere Rat.sqrt unitSphere rayTowardsSphere hitRecord false
      = (true, { origin := ⟨0, 0, -1⟩, normal := ⟨0, 0, -1⟩, t := Flt.fin 4, didHit := true,
                 materialIndex := 0 }) :=
  HitTest_Sphere_unit_scenario Rat.sqrt rat_sqrt_four rat_sqrt_one (1 / 10000) fltMax 0
    hitRecord (by norm_num)

/-- `GetClosestHit` on the scene with the unit sphere and the plane `y = -2`, for the ray
from `(0,0,-5)` along `(0,0,1)`, which is parallel to the plane. -/
theorem GetClosestHit_sceneSphereAndPlane :
    GetClosestHit Rat.sqrt sceneSphereAndPlane rayTowardsSphere (HitRecord.default fltMax)
      = { origin := ⟨0, 0, -1⟩, normal := ⟨0, 0, -1⟩, t := Flt.fin 4, didHit := true,
          materialIndex := 0 } := by
  have hs : sceneSphereAndPlane.m_SphereGeometries = [unitSphere] := rfl
  have hp : sceneSphereAndPlane.m_PlaneGeometries = [⟨⟨0, -2, 0⟩, ⟨0, 1, 0⟩, 0⟩] := rfl
  unfold GetClosestHit closestScan
  rw [hs, hp]
  have hP : ∀ r : HitRecord ℚ,
      HitTest_Plane ⟨⟨0, -2, 0⟩, ⟨0, 1, 0⟩, 0⟩ rayTowardsSphere r false
        = (false, { r with t := Flt.ninf, didHit := false }) := by
    intro r
    norm_num [Flt.lt, Flt.le, Flt.fdiv, HitTest_Plane, Vector3.Dot, Vector3.sub_def,
      rayTowardsSphere]
  unfold sphereLoop sphereLoop planeLoop planeLoop sphereStep planeStep
  simp only [HitTest_Sphere_rayTowardsSphere, hP]
  norm_num [Flt.lt, HitRecord.default, fltMax]
  rw [HitTest_Sphere_rayTowardsSphere]

/-- Witness for C3: the scene with the unit sphere and the plane `y = -2`, and the ray from
`(0,0,-5)` along `(0,0,1)`. -/
theorem GetClosestHit_closest_witness :
    (GetClosestHit Rat.sqrt sceneSphereAndPlane rayTowardsSphere
        (HitRecord.default fltMax)).didHit = true
    ∧ ((∃ s ∈ sceneSphereAndPlane.m_SphereGeometries,
        HitTest_Sphere Rat.sqrt s rayTowardsSphere (HitRecord.default fltMax) false
          = (true, GetClosestHit Rat.sqrt sceneSphereAndPlane rayTowardsSphere
              (HitRecord.default fltMax)))
      ∨ (∃ p ∈ sceneSphereAndPlane.m_PlaneGeometries,
        HitTest_Plane p rayTowardsSphere (HitRecord.default fltMax) false
          = (true, GetClosestHit Rat.sqrt sceneSphereAndPlane rayTowardsSphere
              (HitRecord.default fltMax)))) :=
  have hhit : (GetClosestHit Rat.sqrt sceneSphereAndPlane rayTowardsSphere
      (HitRecord.default fltMax)).didHit = true := by
    rw [GetClosestHit_sceneSphereAndPlane]
  ⟨hhit, (GetClosestHit_closest Rat.sqrt fltMax sceneSphereAndPlane rayTowardsSphere
    (le_refl fltMax)
    (by
      intro s hs
      have h1 : s = unitSphere := List.mem_singleton.mp hs
      rw [h1, HitTest_Sphere_rayTowardsSphere]
      norm_num [Flt.le, fltMax])
    hhit).1⟩

end Scene

/-! ## Matrix transpose (claim C11) -/

namespace Matrix

variable {K : Type} [LinearOrderedField K]

/-- The member `Transpose` in closed form: entry `[r][c]` of the result is entry `[c][r]` of
the matrix. -/
theorem Transpose_eq (m : Matrix K) :
    m.Transpose
      = { data0 := ⟨m.data0.x, m.data1.x, m.data2.x, m.data3.x⟩,
          data1 := ⟨m.data0.y, m.data1.y, m.data2.y, m.data3.y⟩,
          data2 := ⟨m.data0.z, m.data1.z, m.data2.z, m.data3.z⟩,
          data3 := ⟨m.data0.w, m.data1.w, m.data2.w, m.data3.w⟩ } := by
  have h4 : List.range 4 = [0, 1, 2, 3] := by decide
  unfold Transpose
  rw [h4]
  simp only [List.foldl, setEntry, get, Vector4.set, Vector4.get, Matrix.default]

theorem copy_eq {F : Type} (m : Matrix F) : copy m = m := by
  cases m
  rfl

theorem TransposeOf_eq (m : Matrix K) : TransposeOf m = m.Transpose := by
  unfold TransposeOf
  rw [copy_eq]

/-- C11: for every 4x4 matrix `M`, `Matrix::Transpose(Matrix::Transpose(M)) == M` (the two
matrices are equal entry by entry, and `operator==` returns true), the member `Transpose()`
applied twice restores `M`, and the static `Transpose` returns the transpose of a copy: entry
`[r][c]` of its result is entry `[c][r]` of its argument, which it does not write. -/
theorem Transpose_Transpose (m : Matrix K) :
    TransposeOf (TransposeOf m) = m
    ∧ eq (TransposeOf (TransposeOf m)) m = true
    ∧ m.Transpose.Transpose = m
    ∧ TransposeOf m = m.Transpose
    ∧ (∀ r c : Nat, r < 4 → c < 4 → ((TransposeOf m).get r).get c = (m.get c).get r) := by
  have h1 : m.Transpose.Transpose = m := by
    rw [Transpose_eq, Transpose_eq]
  have h3 : TransposeOf (TransposeOf m) = m := by
    rw [TransposeOf_eq, TransposeOf_eq, h1]
  refine ⟨h3, ?_, h1, TransposeOf_eq m, ?_⟩
  · rw [h3]
    simp [eq]
  · intro r c hr hc
    rw [TransposeOf_eq, Transpose_eq]
    interval_cases r <;> interval_cases c <;> rfl

/-- Witness for C11: entry `[1][2]` of the transpose of a matrix with sixteen different
entries is its entry `[2][1]`. -/
theorem Transpose_Transpose_witness :
    ((TransposeOf sampleMatrix).get 1).get 2 = (sampleMatrix.get 2).get 1 :=
  (Transpose_Transpose sampleMatrix).2.2.2.2 1 2 (by decide) (by decide)

end Matrix

/-! ## Colours and BRDF functions (claims C12, C16, C17) -/

namespace ColorRGB

variable {K : Type} [LinearOrderedField K]

theorem color_add (a c : ColorRGB K) : a + c = ⟨a.r + c.r, a.g + c.g, a.b + c.b⟩ := rfl

theorem color_sub (a c : ColorRGB K) : a - c = ⟨a.r - c.r, a.g - c.g, a.b - c.b⟩ := rfl

theorem color_mul (a c : ColorRGB K) : a * c = ⟨a.r * c.r, a.g * c.g, a.b * c.b⟩ := rfl

theorem color_mul_scalar (c : ColorRGB K) (s : K) : c * s = ⟨c.r * s, c.g * s, c.b * s⟩ := rfl

theorem color_scalar_mul (s : K) (c : ColorRGB K) : s * c = ⟨c.r * s, c.g * s, c.b * s⟩ := rfl

theorem color_div (c : ColorRGB K) (s : K) : c / s = ⟨c.r / s, c.g / s, c.b / s⟩ := rfl

theorem MaxToOne_of_le (c : ColorRGB K) (h : max c.r (max c.g c.b) ≤ 1) : MaxToOne c = c := by
  unfold MaxToOne
  rw [if_neg (not_lt.mpr h)]

theorem MaxToOne_of_gt (c : ColorRGB K) (h : 1 < max c.r (max c.g c.b)) :
    MaxToOne c = c / max c.r (max c.g c.b) := by
  unfold MaxToOne
  rw [if_pos h]

/-- After `MaxToOne` no channel exceeds 1. -/
theorem MaxToOne_le_one (c : ColorRGB K) :
    (MaxToOne c).r ≤ 1 ∧ (MaxToOne c).g ≤ 1 ∧ (MaxToOne c).b ≤ 1 := by
  by_cases h : 1 < max c.r (max c.g c.b)
  · rw [MaxToOne_of_gt c h, color_div]
    have hpos : 0 < max c.r (max c.g c.b) := lt_trans zero_lt_one h
    refine ⟨?_, ?_, ?_⟩
    · exact (div_le_one hpos).mpr (le_max_left _ _)
    · exact (div_le_one hpos).mpr (le_trans (le_max_left _ _) (le_max_right _ _))
    · exact (div_le_one hpos).mpr (le_trans (le_max_right _ _) (le_max_right _ _))
  · have h1 : max c.r (max c.g c.b) ≤ 1 := not_lt.mp h
    rw [MaxToOne_of_le c h1]
    exact ⟨le_trans (le_max_left _ _) h1,
      le_trans (le_trans (le_max_left _ _) (le_max_right _ _)) h1,
      le_trans (le_trans (le_max_right _ _) (le_max_right _ _)) h1⟩

end ColorRGB

namespace BRDF

variable {K : Type} [LinearOrderedField K]

/-- C16: `BRDF::Lambert(kd, cd)` is `kd·cd/π` channel by channel, for the scalar and for the
per-channel `kd`; it is linear in `kd` (`Lambert(a·kd, cd) = a·Lambert(kd, cd)`); and
`Material_Lambert::Shade` returns `Lambert(m_DiffuseReflectance, m_DiffuseColor)` for every
hit record, light direction and view direction. -/
theorem Lambert_eq (sqrt : K → K) (pow : K → K → K) (M_PI kd a : K) (kdRGB cd : ColorRGB K)
    (hitRecord : HitRecord K) (l v : Vector3 K) :
    Lambert M_PI kd cd = ⟨kd * cd.r / M_PI, kd * cd.g / M_PI, kd * cd.b / M_PI⟩
    ∧ LambertRGB M_PI kdRGB cd
        = ⟨kdRGB.r * cd.r / M_PI, kdRGB.g * cd.g / M_PI, kdRGB.b * cd.b / M_PI⟩
    ∧ Lambert M_PI (a * kd) cd = a * Lambert M_PI kd cd
    ∧ LambertRGB M_PI (a * kdRGB) cd = a * LambertRGB M_PI kdRGB cd
    ∧ Material.Shade sqrt pow M_PI (Material.Lambert cd kd) hitRecord l v
        = Lambert M_PI kd cd := by
  refine ⟨?_, ?_, ?_, ?_, rfl⟩
  · simp only [Lambert, ColorRGB.color_mul_scalar, ColorRGB.color_div, ColorRGB.mk.injEq]
    refine ⟨?_, ?_, ?_⟩ <;> ring
  · simp only [LambertRGB, ColorRGB.color_mul, ColorRGB.color_div, ColorRGB.mk.injEq]
    refine ⟨?_, ?_, ?_⟩ <;> ring
  · simp only [Lambert, ColorRGB.color_mul_scalar, ColorRGB.color_scalar_mul, ColorRGB.color_div,
      ColorRGB.mk.injEq]
    refine ⟨?_, ?_, ?_⟩ <;> ring
  · simp only [LambertRGB, ColorRGB.color_mul, ColorRGB.color_scalar_mul, ColorRGB.color_div,
      ColorRGB.mk.injEq]
    refine ⟨?_, ?_, ?_⟩ <;> ring

/-- C17: `BRDF::NormalDistribution_GGX(n, h, roughness)` is
`α² / (π·(c²·(α² − 1) + 1)²)` with `α = roughness²` and `c = max(n̂·ĥ, 0.0001)`, where `n̂`
and `ĥ` are the normalized inputs. -/
theorem NormalDistribution_GGX_eq (sqrt : K → K) (M_PI : K) (n h : Vector3 K) (roughness : K) :
    NormalDistribution_GGX sqrt M_PI n h roughness
      = (roughness ^ 2) ^ 2
        / (M_PI
          * ((max (Vector3.Dot (Vector3.Normalized sqrt n) (Vector3.Normalized sqrt h))
                (1 / 10000)) ^ 2
              * ((roughness ^ 2) ^ 2 - 1) + 1) ^ 2) := by
  simp only [NormalDistribution_GGX, Square, pow_two]

end BRDF

namespace BRDF

variable {K : Type} [LinearOrderedField K]

theorem rat_sqrt_one_eq : Rat.sqrt 1 = 1 := by
  rw [show (1 : ℚ) = 1 * 1 by norm_num, Rat.sqrt_eq]
  norm_num

theorem rat_sqrt_four_eq : Rat.sqrt 4 = 2 := by
  rw [show (4 : ℚ) = 2 * 2 by norm_num, Rat.sqrt_eq]
  norm_num

theorem rat_sqrt_nine_eq : Rat.sqrt 9 = 3 := by
  rw [show (9 : ℚ) = 3 * 3 by norm_num, Rat.sqrt_eq]
  norm_num

theorem Normalized_unitZ : Vector3.Normalized Rat.sqrt unitZ = unitZ := by
  simp only [Vector3.Normalized, Vector3.Magnitude, unitZ]
  norm_num [rat_sqrt_one_eq]

theorem Dot_unitZ : Vector3.Dot unitZ unitZ = 1 := by
  norm_num [Vector3.Dot, unitZ]

theorem powQ_zero_five : powQ 0 5 = 0 := by
  norm_num [powQ]

/-- The Fresnel function when the clamped cosine is 1 and `pow(0, 5) = 0`: the base
reflectivity after `MaxToOne`. -/
theorem FresnelFunction_Schlick_of_dot_one (sqrt : K → K) (pow : K → K → K) (h v : Vector3 K)
    (f0 : ColorRGB K)
    (hdot : Vector3.Dot (Vector3.Normalized sqrt h) (Vector3.Normalized sqrt v) = 1)
    (hpow : pow 0 5 = 0) :
    FresnelFunction_Schlick sqrt pow h v f0 = ColorRGB.MaxToOne f0 := by
  have hmax : max (1 : K) (1 / 10000) = 1 := max_eq_left (by norm_num)
  unfold FresnelFunction_Schlick
  simp only [hdot, hmax, sub_self, hpow]
  congr 1
  simp only [ColorRGB.color_add, ColorRGB.color_sub, ColorRGB.color_mul_scalar, ColorRGB.White,
    mul_zero, add_zero]

/-- C12 (counterexample): with `h = v = (0,0,1)`, whose normalized dot product is 1, and the
base reflectivity `f0 = (2,1,1)`, `FresnelFunction_Schlick` returns `(1, 1/2, 1/2)`, not
`f0`. -/
theorem FresnelFunction_Schlick_not_f0 :
    Vector3.Dot (Vector3.Normalized Rat.sqrt unitZ) (Vector3.Normalized Rat.sqrt unitZ) = 1
    ∧ FresnelFunction_Schlick Rat.sqrt powQ unitZ unitZ brightF0 = ⟨1, 1 / 2, 1 / 2⟩
    ∧ FresnelFunction_Schlick Rat.sqrt powQ unitZ unitZ brightF0 ≠ brightF0 := by
  have hdot : Vector3.Dot (Vector3.Normalized Rat.sqrt unitZ)
      (Vector3.Normalized Rat.sqrt unitZ) = 1 := by
    rw [Normalized_unitZ, Dot_unitZ]
  have hval : FresnelFunction_Schlick Rat.sqrt powQ unitZ unitZ brightF0
      = ⟨1, 1 / 2, 1 / 2⟩ := by
    rw [FresnelFunction_Schlick_of_dot_one Rat.sqrt powQ unitZ unitZ brightF0 hdot
      powQ_zero_five]
    have hm : (1 : ℚ) < max brightF0.r (max brightF0.g brightF0.b) := by
      norm_num [brightF0]
    rw [ColorRGB.MaxToOne_of_gt _ hm, ColorRGB.color_div]
    norm_num [brightF0]
  refine ⟨hdot, hval, ?_⟩
  rw [hval]
  simp [brightF0]

/-- C12 (amended): for all vectors `h` and `v` whose normalized dot product is 1 (with
`pow(0, 5) = 0`), `FresnelFunction_Schlick(h, v, f0)` returns exactly `f0` when no channel of
`f0` exceeds 1, and `f0` divided by its largest channel otherwise. -/
theorem FresnelFunction_Schlick_normal_incidence (sqrt : K → K) (pow : K → K → K)
    (h v : Vector3 K) (f0 : ColorRGB K)
    (hdot : Vector3.Dot (Vector3.Normalized sqrt h) (Vector3.Normalized sqrt v) = 1)
    (hpow : pow 0 5 = 0) :
    (max f0.r (max f0.g f0.b) ≤ 1 → FresnelFunction_Schlick sqrt pow h v f0 = f0)
    ∧ (1 < max f0.r (max f0.g f0.b) →
        FresnelFunction_Schlick sqrt pow h v f0 = f0 / max f0.r (max f0.g f0.b)) := by
  rw [FresnelFunction_Schlick_of_dot_one sqrt pow h v f0 hdot hpow]
  exact ⟨ColorRGB.MaxToOne_of_le f0, ColorRGB.MaxToOne_of_gt f0⟩

/-- Witness for the amended C12: `h = v = (0,0,1)` and the dielectric base reflectivity
`(0.04, 0.04, 0.04)`. -/
theorem FresnelFunction_Schlick_normal_incidence_witness :
    FresnelFunction_Schlick Rat.sqrt powQ unitZ unitZ ⟨4 / 100, 4 / 100, 4 / 100⟩
      = ⟨4 / 100, 4 / 100, 4 / 100⟩ :=
  (FresnelFunction_Schlick_normal_incidence Rat.sqrt powQ unitZ unitZ
    ⟨4 / 100, 4 / 100, 4 / 100⟩
    (by rw [Normalized_unitZ, Dot_unitZ]) powQ_zero_five).1 (by norm_num)

end BRDF

/-! ## The Cook-Torrance material (claims C13, C14, C15) -/

namespace Material_CookTorrence

variable {K : Type} [LinearOrderedField K]

/-- C13: with `metalness = 1`, for every albedo, roughness, hit record, light direction and
view direction, the diffuse term of `Shade` is zero and the result is the max-to-one clamp of
the specular term `D·F·G / (4·(v·n)·(l·n))` alone, where `F` is computed from `F0 = albedo`
and the two cosines are clamped below at `0.0001`. -/
theorem Shade_metal (sqrt : K → K) (pow : K → K → K) (M_PI : K) (m_Albedo : ColorRGB K)
    (m_Roughness : K) (hitRecord : HitRecord K) (l v : Vector3 K) :
    diffuse sqrt pow M_PI m_Albedo 1 l v = ⟨0, 0, 0⟩
    ∧ Shade sqrt pow M_PI m_Albedo 1 m_Roughness hitRecord l v
      = ColorRGB.MaxToOne
          ((BRDF.NormalDistribution_GGX sqrt M_PI (Vector3.Normalized sqrt hitRecord.normal)
                (Vector3.Normalized sqrt (v + l)) m_Roughness
              * BRDF.FresnelFunction_Schlick sqrt pow (Vector3.Normalized sqrt (v + l)) v
                  m_Albedo
              * BRDF.GeometryFunction_Smith sqrt (Vector3.Normalized sqrt hitRecord.normal) v l
                  m_Roughness)
            / (4
              * max (Vector3.Dot (Vector3.Normalized sqrt v)
                  (Vector3.Normalized sqrt (Vector3.Normalized sqrt hitRecord.normal)))
                  (1 / 10000)
              * max (Vector3.Dot (Vector3.Normalized sqrt l)
                  (Vector3.Normalized sqrt (Vector3.Normalized sqrt hitRecord.normal)))
                  (1 / 10000)))
    ∧ Material.Shade sqrt pow M_PI (Material.CookTorrence m_Albedo 1 m_Roughness) hitRecord l v
      = Shade sqrt pow M_PI m_Albedo 1 m_Roughness hitRecord l v := by
  have hd : diffuse sqrt pow M_PI m_Albedo 1 l v = ⟨0, 0, 0⟩ := by
    unfold diffuse
    simp only [one_ne_zero, if_false]
  refine ⟨hd, ?_, rfl⟩
  unfold Shade
  rw [hd]
  simp only [specular, fresnel, f0, if_true, ColorRGB.color_add, zero_add]

/-- The Fresnel term of `Shade` for a metalness other than 1 is computed from the base
reflectivity `(0.04, 0.04, 0.04)`. -/
theorem fresnel_of_ne_one (sqrt : K → K) (pow : K → K → K) (m_Albedo : ColorRGB K)
    (m_Metalness : K) (l v : Vector3 K) (hm : m_Metalness ≠ 1) :
    fresnel sqrt pow m_Albedo m_Metalness l v
      = BRDF.FresnelFunction_Schlick sqrt pow (Vector3.Normalized sqrt (v + l)) v
          ⟨4 / 100, 4 / 100, 4 / 100⟩ := by
  unfold fresnel f0
  rw [if_neg hm]

/-- C14 (amended): for a metalness other than 1, `Shade` uses `F0 = (0.04, 0.04, 0.04)`; it
adds the diffuse term `Lambert(kd = 1 − F, albedo)` to the specular term before clamping
exactly when `metalness = 0`, and for every other metalness (the values strictly between 0
and 1 included) the diffuse term is zero and the result is the clamped specular term. -/
theorem Shade_non_metal (sqrt : K → K) (pow : K → K → K) (M_PI : K) (m_Albedo : ColorRGB K)
    (m_Metalness m_Roughness : K) (hitRecord : HitRecord K) (l v : Vector3 K)
    (hm : m_Metalness ≠ 1) :
    f0 m_Albedo m_Metalness = ⟨4 / 100, 4 / 100, 4 / 100⟩
    ∧ fresnel sqrt pow m_Albedo m_Metalness l v
        = BRDF.FresnelFunction_Schlick sqrt pow (Vector3.Normalized sqrt (v + l)) v
            ⟨4 / 100, 4 / 100, 4 / 100⟩
    ∧ (m_Metalness = 0 →
        Shade sqrt pow M_PI m_Albedo m_Metalness m_Roughness hitRecord l v
          = ColorRGB.MaxToOne
              (BRDF.LambertRGB M_PI
                  ((⟨1, 1, 1⟩ : ColorRGB K) - fresnel sqrt pow m_Albedo m_Metalness l v)
                  m_Albedo
                + specular sqrt pow M_PI m_Albedo m_Metalness m_Roughness hitRecord l v))
    ∧ (m_Metalness ≠ 0 →
        diffuse sqrt pow M_PI m_Albedo m_Metalness l v = ⟨0, 0, 0⟩
        ∧ Shade sqrt pow M_PI m_Albedo m_Metalness m_Roughness hitRecord l v
          = ColorRGB.MaxToOne
              (specular sqrt pow M_PI m_Albedo m_Metalness m_Roughness hitRecord l v)) := by
  refine ⟨?_, fresnel_of_ne_one sqrt pow m_Albedo m_Metalness l v hm, ?_, ?_⟩
  · unfold f0
    rw [if_neg hm]
  · intro h0
    unfold Shade diffuse
    simp only [h0, if_true]
  · intro h0
    have hd : diffuse sqrt pow M_PI m_Albedo m_Metalness l v = ⟨0, 0, 0⟩ := by
      unfold diffuse
      simp only [h0, if_false]
    refine ⟨hd, ?_⟩
    unfold Shade
    rw [hd]
    simp only [ColorRGB.color_add, zero_add]

end Material_CookTorrence

namespace Material_CookTorrence

open BRDF

theorem max_one_small : max (1 : ℚ) (1 / 10000) = 1 := max_eq_left (by norm_num)

theorem Normalized_two_unitZ : Vector3.Normalized Rat.sqrt (unitZ + unitZ) = unitZ := by
  simp only [Vector3.Normalized, Vector3.Magnitude, Vector3.add_def, unitZ]
  norm_num [rat_sqrt_four_eq]

theorem Normalized_normal_hitFacingZ :
    Vector3.Normalized Rat.sqrt hitFacingZ.normal = unitZ := Normalized_unitZ

/-- The Fresnel term at `l = v = (0,0,1)` for a metalness other than 1. -/
theorem fresnel_unitZ (m_Metalness : ℚ) (hm : m_Metalness ≠ 1) :
    fresnel Rat.sqrt powQ whiteAlbedo m_Metalness unitZ unitZ
      = ⟨4 / 100, 4 / 100, 4 / 100⟩ := by
  rw [fresnel_of_ne_one Rat.sqrt powQ whiteAlbedo m_Metalness unitZ unitZ hm,
    Normalized_two_unitZ,
    FresnelFunction_Schlick_of_dot_one Rat.sqrt powQ unitZ unitZ _
      (by rw [Normalized_unitZ, Dot_unitZ]) powQ_zero_five]
  exact ColorRGB.MaxToOne_of_le _ (by norm_num)

theorem NormalDistribution_GGX_unitZ :
    NormalDistribution_GGX Rat.sqrt piQ unitZ unitZ 1 = 1 / piQ := by
  unfold NormalDistribution_GGX
  simp only [Normalized_unitZ, Dot_unitZ, max_one_small, Square]
  norm_num

theorem GeometryFunction_Smith_unitZ :
    GeometryFunction_Smith Rat.sqrt unitZ unitZ unitZ 1 = 1 := by
  unfold GeometryFunction_Smith GeometryFunction_SchlickGGX
  simp only [Normalized_unitZ, Dot_unitZ, max_one_small, Square]
  norm_num

/-- The specular term at `l = v = n = (0,0,1)`, roughness 1, for a metalness other than 1:
`1 / (100 π)` on every channel. -/
theorem specular_unitZ (m_Metalness : ℚ) (hm : m_Metalness ≠ 1) :
    specular Rat.sqrt powQ piQ whiteAlbedo m_Metalness 1 hitFacingZ unitZ unitZ
      = ⟨1 / (100 * piQ), 1 / (100 * piQ), 1 / (100 * piQ)⟩ := by
  unfold specular
  simp only [fresnel_unitZ m_Metalness hm, Normalized_two_unitZ, Normalized_normal_hitFacingZ,
    Normalized_unitZ, Dot_unitZ, max_one_small, NormalDistribution_GGX_unitZ,
    GeometryFunction_Smith_unitZ, ColorRGB.color_scalar_mul, ColorRGB.color_mul_scalar,
    ColorRGB.color_div]
  norm_num [piQ]

/-- `Shade` at `l = v = n = (0,0,1)`, white albedo, metalness `1/2`, roughness 1: the
specular term alone. -/
theorem Shade_half_metal :
    Shade Rat.sqrt powQ piQ whiteAlbedo (1 / 2) 1 hitFacingZ unitZ unitZ
      = ⟨1 / (100 * piQ), 1 / (100 * piQ), 1 / (100 * piQ)⟩ := by
  have hm : (1 / 2 : ℚ) ≠ 1 := by norm_num
  have h0 : (1 / 2 : ℚ) ≠ 0 := by norm_num
  have hd : diffuse Rat.sqrt powQ piQ whiteAlbedo (1 / 2) unitZ unitZ = ⟨0, 0, 0⟩ := by
    unfold diffuse
    simp only [h0, if_false]
  unfold Shade
  rw [hd, specular_unitZ _ hm]
  have hsum : (⟨0, 0, 0⟩ : ColorRGB ℚ) + ⟨1 / (100 * piQ), 1 / (100 * piQ), 1 / (100 * piQ)⟩
      = ⟨1 / (100 * piQ), 1 / (100 * piQ), 1 / (100 * piQ)⟩ := by
    simp only [ColorRGB.color_add, zero_add]
  rw [hsum]
  exact ColorRGB.MaxToOne_of_le _ (by norm_num [piQ])

/-- C14 (counterexample): white albedo, metalness `1/2`, roughness 1, `l = v = n = (0,0,1)`.
The metalness is neither 0 nor 1; `Lambert(kd = 1 − F, albedo)` is `96 / (100 π)` on every
channel, not zero; `Shade` returns `1 / (100 π)` on every channel, the specular term alone,
and not the clamp of diffuse plus specular, `97 / (100 π)`. -/
theorem Shade_half_metal_no_diffuse :
    (1 / 2 : ℚ) ≠ 1
    ∧ LambertRGB piQ
        ((⟨1, 1, 1⟩ : ColorRGB ℚ) - fresnel Rat.sqrt powQ whiteAlbedo (1 / 2) unitZ unitZ)
        whiteAlbedo
      = ⟨96 / (100 * piQ), 96 / (100 * piQ), 96 / (100 * piQ)⟩
    ∧ diffuse Rat.sqrt powQ piQ whiteAlbedo (1 / 2) unitZ unitZ = ⟨0, 0, 0⟩
    ∧ Shade Rat.sqrt powQ piQ whiteAlbedo (1 / 2) 1 hitFacingZ unitZ unitZ
      = ⟨1 / (100 * piQ), 1 / (100 * piQ), 1 / (100 * piQ)⟩
    ∧ ColorRGB.MaxToOne
        (LambertRGB piQ
            ((⟨1, 1, 1⟩ : ColorRGB ℚ) - fresnel Rat.sqrt powQ whiteAlbedo (1 / 2) unitZ unitZ)
            whiteAlbedo
          + specular Rat.sqrt powQ piQ whiteAlbedo (1 / 2) 1 hitFacingZ unitZ unitZ)
      = ⟨97 / (100 * piQ), 97 / (100 * piQ), 97 / (100 * piQ)⟩
    ∧ Shade Rat.sqrt powQ piQ whiteAlbedo (1 / 2) 1 hitFacingZ unitZ unitZ
      ≠ ColorRGB.MaxToOne
        (LambertRGB piQ
            ((⟨1, 1, 1⟩ : ColorRGB ℚ) - fresnel Rat.sqrt powQ whiteAlbedo (1 / 2) unitZ unitZ)
            whiteAlbedo
          + specular Rat.sqrt powQ piQ whiteAlbedo (1 / 2) 1 hitFacingZ unitZ unitZ) := by
  have hm : (1 / 2 : ℚ) ≠ 1 := by norm_num
  have h0 : (1 / 2 : ℚ) ≠ 0 := by norm_num
  have hL : LambertRGB piQ
        ((⟨1, 1, 1⟩ : ColorRGB ℚ) - fresnel Rat.sqrt powQ whiteAlbedo (1 / 2) unitZ unitZ)
        whiteAlbedo
      = ⟨96 / (100 * piQ), 96 / (100 * piQ), 96 / (100 * piQ)⟩ := by
    rw [fresnel_unitZ _ hm]
    simp only [LambertRGB, ColorRGB.color_sub, ColorRGB.color_mul, ColorRGB.color_div, whiteAlbedo]
    norm_num [piQ]
  have hd : diffuse Rat.sqrt powQ piQ whiteAlbedo (1 / 2) unitZ unitZ = ⟨0, 0, 0⟩ := by
    unfold diffuse
    simp only [h0, if_false]
  have hC : ColorRGB.MaxToOne
        (LambertRGB piQ
            ((⟨1, 1, 1⟩ : ColorRGB ℚ) - fresnel Rat.sqrt powQ whiteAlbedo (1 / 2) unitZ unitZ)
            whiteAlbedo
          + specular Rat.sqrt powQ piQ whiteAlbedo (1 / 2) 1 hitFacingZ unitZ unitZ)
      = ⟨97 / (100 * piQ), 97 / (100 * piQ), 97 / (100 * piQ)⟩ := by
    rw [hL, specular_unitZ _ hm]
    have hsum : (⟨96 / (100 * piQ), 96 / (100 * piQ), 96 / (100 * piQ)⟩ : ColorRGB ℚ)
        + ⟨1 / (100 * piQ), 1 / (100 * piQ), 1 / (100 * piQ)⟩
        = ⟨97 / (100 * piQ), 97 / (100 * piQ), 97 / (100 * piQ)⟩ := by
      simp only [ColorRGB.color_add, ColorRGB.mk.injEq]
      norm_num [piQ]
    rw [hsum]
    exact ColorRGB.MaxToOne_of_le _ (by norm_num [piQ])
  refine ⟨hm, hL, hd, Shade_half_metal, hC, ?_⟩
  rw [Shade_half_metal, hC]
  simp only [ne_eq, ColorRGB.mk.injEq, not_and]
  norm_num [piQ]

/-- Witness for the amended C14: metalness `1/2`. -/
theorem Shade_non_metal_witness :
    Shade Rat.sqrt powQ piQ whiteAlbedo (1 / 2) 1 hitFacingZ unitZ unitZ
      = ColorRGB.MaxToOne
          (specular Rat.sqrt powQ piQ whiteAlbedo (1 / 2) 1 hitFacingZ unitZ unitZ) :=
  ((Shade_non_metal Rat.sqrt powQ piQ whiteAlbedo (1 / 2) 1 hitFacingZ unitZ unitZ
    (by norm_num)).2.2.2 (by norm_num)).2

end Material_CookTorrence

/-! ## Phong (claim C18) -/

namespace BRDF

variable {K : Type} [LinearOrderedField K]

/-- `Phong` in closed form: the same value on the three channels, computed from the vector
`l̂ − 2·(n̂·v̂)·n̂`, in which the cosine is taken with the view direction. -/
theorem Phong_eq (sqrt : K → K) (pow : K → K → K) (ks exp : K) (l v n : Vector3 K) :
    Phong sqrt pow ks exp l v n
      = ⟨ks * pow (Vector3.Dot
              (Vector3.Normalized sqrt (Vector3.Normalized sqrt l
                - (2 * Vector3.Dot (Vector3.Normalized sqrt n) (Vector3.Normalized sqrt v))
                  * Vector3.Normalized sqrt n))
              (Vector3.Normalized sqrt v)) exp,
          ks * pow (Vector3.Dot
              (Vector3.Normalized sqrt (Vector3.Normalized sqrt l
                - (2 * Vector3.Dot (Vector3.Normalized sqrt n) (Vector3.Normalized sqrt v))
                  * Vector3.Normalized sqrt n))
              (Vector3.Normalized sqrt v)) exp,
          ks * pow (Vector3.Dot
              (Vector3.Normalized sqrt (Vector3.Normalized sqrt l
                - (2 * Vector3.Dot (Vector3.Normalized sqrt n) (Vector3.Normalized sqrt v))
                  * Vector3.Normalized sqrt n))
              (Vector3.Normalized sqrt v)) exp⟩ := by
  simp only [Phong, ColorRGB.color_scalar_mul, one_mul]

theorem Normalized_negUnitZ : Vector3.Normalized Rat.sqrt negUnitZ = negUnitZ := by
  simp only [Vector3.Normalized, Vector3.Magnitude, negUnitZ]
  norm_num [rat_sqrt_one_eq]

/-- C18 (the code at the failing input): `ks = 1`, `exp = 1`, `l = n = (0,0,1)`,
`v = (0,0,-1)`.  The reflection of `l̂` about `n̂` is `l̂ − 2·(n̂·l̂)·n̂ = (0,0,-1)`, whose cosine
with `v̂` is 1, so the stated value is `ks·1^exp = 1` on every channel; `Phong` returns `-1` on
every channel, because it forms `l̂ − 2·(n̂·v̂)·n̂ = (0,0,3)` instead. -/
theorem Phong_wrong_reflection :
    Phong Rat.sqrt powQ 1 1 unitZ negUnitZ unitZ = ⟨-1, -1, -1⟩
    ∧ Vector3.Normalized Rat.sqrt unitZ
        - (2 * Vector3.Dot (Vector3.Normalized Rat.sqrt unitZ)
            (Vector3.Normalized Rat.sqrt unitZ)) * Vector3.Normalized Rat.sqrt unitZ
      = ⟨0, 0, -1⟩
    ∧ (1 : ℚ) * powQ (Vector3.Dot (Vector3.Normalized Rat.sqrt (⟨0, 0, -1⟩ : Vector3 ℚ))
        (Vector3.Normalized Rat.sqrt negUnitZ)) 1 = 1
    ∧ Vector3.Normalized Rat.sqrt unitZ
        - (2 * Vector3.Dot (Vector3.Normalized Rat.sqrt unitZ)
            (Vector3.Normalized Rat.sqrt negUnitZ)) * Vector3.Normalized Rat.sqrt unitZ
      = ⟨0, 0, 3⟩ := by
  have hnv : Vector3.Dot unitZ negUnitZ = -1 := by
    norm_num [Vector3.Dot, unitZ, negUnitZ]
  have hr : unitZ - (2 * (-1 : ℚ)) * unitZ = (⟨0, 0, 3⟩ : Vector3 ℚ) := by
    simp only [Vector3.sub_def, Vector3.smul_def, unitZ, Vector3.mk.injEq]
    norm_num
  have hr2 : unitZ - (2 * (1 : ℚ)) * unitZ = (⟨0, 0, -1⟩ : Vector3 ℚ) := by
    simp only [Vector3.sub_def, Vector3.smul_def, unitZ, Vector3.mk.injEq]
    norm_num
  have hn3 : Vector3.Normalized Rat.sqrt (⟨0, 0, 3⟩ : Vector3 ℚ) = unitZ := by
    simp only [Vector3.Normalized, Vector3.Magnitude, unitZ]
    norm_num [rat_sqrt_nine_eq]
  have hneg : Vector3.Normalized Rat.sqrt (⟨0, 0, -1⟩ : Vector3 ℚ) = negUnitZ :=
    Normalized_negUnitZ
  refine ⟨?_, ?_, ?_, ?_⟩
  · rw [Phong_eq]
    simp only [Normalized_unitZ, Normalized_negUnitZ, hnv, hr, hn3]
    norm_num [powQ]
  · rw [Normalized_unitZ, Dot_unitZ, hr2]
  · rw [hneg, Normalized_negUnitZ]
    norm_num [powQ, Vector3.Dot, negUnitZ]
  · rw [Normalized_unitZ, Normalized_negUnitZ, hnv, hr]

end BRDF

/-! ## Radiance of a light (claim C19) -/

namespace LightUtils

variable {K : Type} [LinearOrderedField K]

/-- C19: for a point light and a target different from the light's origin (with an exact
square root at the squared distance), `GetRadiance` returns
`color·intensity / |light.origin − target|²`, the divisor being non-zero; for a directional
light it returns `color·intensity` for every target; and for the point light at `(0,5,0)`
with intensity 50 and the target at the origin (with `√25 = 5`) the result is `2·color`. -/
theorem GetRadiance_eq (sqrt : K → K) (light : Light K) (target : Vector3 K) :
    (light.type = LightType.Point → target ≠ light.origin →
      IsSqrtAt sqrt (Vector3.Dot (light.origin - target) (light.origin - target)) →
        Vector3.Dot (light.origin - target) (light.origin - target) ≠ 0
        ∧ GetRadiance sqrt light target
          = (light.color * light.intensity)
              / Vector3.Dot (light.origin - target) (light.origin - target))
    ∧ (light.type = LightType.Directional →
        GetRadiance sqrt light target = light.color * light.intensity)
    ∧ (sqrt 25 = 5 → ∀ (direction : Vector3 K) (color : ColorRGB K),
        GetRadiance sqrt
            { origin := ⟨0, 5, 0⟩, direction := direction, color := color, intensity := 50,
              type := LightType.Point } ⟨0, 0, 0⟩
          = (2 : K) * color) := by
  refine ⟨?_, ?_, ?_⟩
  · intro ht hne hs
    have hd : Vector3.Dot (light.origin - target) (light.origin - target) ≠ 0 := by
      intro h0
      have hz := Vector3.eq_zero_of_Dot_self _ h0
      apply hne
      simp only [Vector3.sub_def, Vector3.mk.injEq] at hz
      obtain ⟨h1, h2, h3⟩ := hz
      cases target
      cases hlo : light.origin
      rw [hlo] at h1 h2 h3
      simp only [Vector3.mk.injEq]
      simp only at h1 h2 h3
      exact ⟨(sub_eq_zero.mp h1).symm, (sub_eq_zero.mp h2).symm, (sub_eq_zero.mp h3).symm⟩
    refine ⟨hd, ?_⟩
    unfold GetRadiance
    rw [if_pos ht]
    have hm : Vector3.Magnitude sqrt (light.origin - target)
        * Vector3.Magnitude sqrt (light.origin - target)
        = Vector3.Dot (light.origin - target) (light.origin - target) := hs.2
    simp only [hm, ColorRGB.color_mul_scalar, ColorRGB.color_div, ColorRGB.mk.injEq]
    refine ⟨?_, ?_, ?_⟩ <;> rw [mul_div_assoc]
  · intro ht
    unfold GetRadiance
    rw [if_neg (by rw [ht]; decide)]
  · intro h25 direction color
    unfold GetRadiance
    simp only [if_true, Vector3.Magnitude, Vector3.sub_def]
    have h : sqrt (((0 : K) - 0) * (0 - 0) + (5 - 0) * (5 - 0) + (0 - 0) * (0 - 0)) = 5 := by
      rw [show ((0 : K) - 0) * (0 - 0) + (5 - 0) * (5 - 0) + (0 - 0) * (0 - 0) = 25 by norm_num]
      exact h25
    rw [h]
    simp only [ColorRGB.color_mul_scalar, ColorRGB.color_scalar_mul, ColorRGB.mk.injEq]
    norm_num

/-- Witness for C19: the white point light at `(0,5,0)` with intensity 50 and the target at
the origin, with `Rat.sqrt`. -/
theorem GetRadiance_eq_witness :
    GetRadiance Rat.sqrt pointLightAbove ⟨0, 0, 0⟩ = (2 : ℚ) * (⟨1, 1, 1⟩ : ColorRGB ℚ) :=
  (GetRadiance_eq Rat.sqrt pointLightAbove ⟨0, 0, 0⟩).2.2
    (by rw [show (25 : ℚ) = 5 * 5 by norm_num, Rat.sqrt_eq]; norm_num) ⟨0, 0, 0⟩ ⟨1, 1, 1⟩

end LightUtils

/-! ## Material indices of a built scene (claim C20) -/

namespace Scene

variable {K : Type} [LinearOrderedField K]

/-- A freshly constructed scene has no primitive, so its material indices are valid. -/
theorem materialIndicesValid_new : MaterialIndicesValid (Scene.new : Scene K) := by
  constructor
  · intro s hs
    exact absurd hs (List.not_mem_nil s)
  · intro p hp
    exact absurd hp (List.not_mem_nil p)

/-- No call removes a material. -/
theorem materials_length_le_call (scene : Scene K) (c : Call K) :
    scene.m_Materials.length ≤ (scene.call c).m_Materials.length := by
  cases c <;>
    simp [call, AddSphere, AddPlane, AddTriangleMesh, AddPointLight, AddDirectionalLight,
      AddMaterial]

/-- One call that is given a valid index keeps the material indices valid. -/
theorem materialIndicesValid_call (scene : Scene K) (c : Call K) (rest : List (Call K))
    (h : MaterialIndicesValid scene) (hc : CallsGivenValidIndices scene (c :: rest)) :
    MaterialIndicesValid (scene.call c) := by
  obtain ⟨hs, hp⟩ := h
  cases c with
  | AddSphere origin radius materialIndex =>
    have hi : materialIndex < scene.m_Materials.length := hc.1
    constructor
    · intro s hmem
      have hmem2 : s ∈ scene.m_SphereGeometries ++ [⟨origin, radius, materialIndex⟩] := hmem
      rcases List.mem_append.mp hmem2 with h1 | h1
      · exact hs s h1
      · rw [List.mem_singleton.mp h1]
        exact hi
    · exact hp
  | AddPlane origin normal materialIndex =>
    have hi : materialIndex < scene.m_Materials.length := hc.1
    constructor
    · exact hs
    · intro p hmem
      have hmem2 : p ∈ scene.m_PlaneGeometries ++ [⟨origin, normal, materialIndex⟩] := hmem
      rcases List.mem_append.mp hmem2 with h1 | h1
      · exact hp p h1
      · rw [List.mem_singleton.mp h1]
        exact hi
  | AddTriangleMesh cullMode materialIndex => exact ⟨hs, hp⟩
  | AddPointLight origin intensity color => exact ⟨hs, hp⟩
  | AddDirectionalLight direction intensity color => exact ⟨hs, hp⟩
  | AddMaterial pMaterial =>
    have hlen : (scene.call (Call.AddMaterial pMaterial)).m_Materials.length
        = scene.m_Materials.length + 1 := by
      simp [call, AddMaterial]
    constructor
    · intro s hmem
      rw [hlen]
      exact Nat.lt_succ_of_lt (hs s hmem)
    · intro p hmem
      rw [hlen]
      exact Nat.lt_succ_of_lt (hp p hmem)

/-- A sequence of calls that are all given valid indices keeps the material indices valid. -/
theorem materialIndicesValid_run (calls : List (Call K)) :
    ∀ scene : Scene K, MaterialIndicesValid scene → CallsGivenValidIndices scene calls →
      MaterialIndicesValid (scene.run calls) := by
  induction calls with
  | nil =>
    intro scene h _
    exact h
  | cons c rest ih =>
    intro scene h hc
    exact ih (scene.call c) (materialIndicesValid_call scene c rest h hc) hc.2

/-- C20 (counterexample): `AddSphere({0,0,0}, 1, 5)` on a freshly constructed scene, whose
material table holds one material, leaves a sphere with `materialIndex = 5`, which is not an
index into the table. -/
theorem AddSphere_invalid_materialIndex :
    ((Scene.new : Scene ℚ).run [Call.AddSphere ⟨0, 0, 0⟩ 1 5]).m_SphereGeometries
        = [⟨⟨0, 0, 0⟩, 1, 5⟩]
    ∧ ((Scene.new : Scene ℚ).run [Call.AddSphere ⟨0, 0, 0⟩ 1 5]).m_Materials.length = 1
    ∧ ¬ MaterialIndicesValid ((Scene.new : Scene ℚ).run [Call.AddSphere ⟨0, 0, 0⟩ 1 5]) := by
  refine ⟨rfl, rfl, ?_⟩
  intro h
  have h1 := h.1 ⟨⟨0, 0, 0⟩, 1, 5⟩ (List.mem_singleton.mpr rfl)
  have h2 : ((Scene.new : Scene ℚ).run [Call.AddSphere ⟨0, 0, 0⟩ 1 5]).m_Materials.length
      = 1 := rfl
  rw [h2] at h1
  exact absurd h1 (by decide)

/-- C20 (amended): `AddSphere` and `AddPlane` store the `materialIndex` they are given
without checking it and leave the material table as it is; in every scene state reached from
a constructed scene by a sequence of `AddSphere`, `AddPlane`, `AddTriangleMesh`,
`AddPointLight`, `AddDirectionalLight` and `AddMaterial` calls in which every `AddSphere` and
`AddPlane` call is given an index below the number of materials present when it is made,
every sphere's and plane's `materialIndex` is a valid index into the material table. -/
theorem materialIndicesValid_of_valid_calls (calls : List (Call K)) :
    (∀ (scene : Scene K) (origin : Vector3 K) (radius : K) (materialIndex : Nat),
      (scene.AddSphere origin radius materialIndex).m_SphereGeometries
          = scene.m_SphereGeometries ++ [⟨origin, radius, materialIndex⟩]
        ∧ (scene.AddSphere origin radius materialIndex).m_Materials = scene.m_Materials)
    ∧ (∀ (scene : Scene K) (origin normal : Vector3 K) (materialIndex : Nat),
      (scene.AddPlane origin normal materialIndex).m_PlaneGeometries
          = scene.m_PlaneGeometries ++ [⟨origin, normal, materialIndex⟩]
        ∧ (scene.AddPlane origin normal materialIndex).m_Materials = scene.m_Materials)
    ∧ (CallsGivenValidIndices (Scene.new : Scene K) calls →
        MaterialIndicesValid ((Scene.new : Scene K).run calls)) := by
  refine ⟨fun _ _ _ _ => ⟨rfl, rfl⟩, fun _ _ _ _ => ⟨rfl, rfl⟩, ?_⟩
  intro hc
  exact materialIndicesValid_run calls Scene.new materialIndicesValid_new hc

/-- Witness for the amended C20: a material is added, then a sphere with material 1 and a
plane with material 0. -/
theorem materialIndicesValid_of_valid_calls_witness :
    MaterialIndicesValid ((Scene.new : Scene ℚ).run sampleCalls) :=
  (materialIndicesValid_of_valid_calls sampleCalls).2.2
    (by
      unfold sampleCalls
      simp [CallsGivenValidIndices, call, AddMaterial, AddSphere, AddPlane, Scene.new])

end Scene

/-! ## Matrix products and translations (claims C22, C24) -/

namespace Matrix

variable {K : Type} [LinearOrderedField K]

/-- `operator*` in closed form: the sixteen dot products of the stored vectors of `a` with
the stored vectors of the transpose of `m`. -/
theorem mul_eq (a m : Matrix K) :
    mul a m
      = { data0 := ⟨Vector4.Dot a.data0 (TransposeOf m).data0,
                    Vector4.Dot a.data0 (TransposeOf m).data1,
                    Vector4.Dot a.data0 (TransposeOf m).data2,
                    Vector4.Dot a.data0 (TransposeOf m).data3⟩,
          data1 := ⟨Vector4.Dot a.data1 (TransposeOf m).data0,
                    Vector4.Dot a.data1 (TransposeOf m).data1,
                    Vector4.Dot a.data1 (TransposeOf m).data2,
                    Vector4.Dot a.data1 (TransposeOf m).data3⟩,
          data2 := ⟨Vector4.Dot a.data2 (TransposeOf m).data0,
                    Vector4.Dot a.data2 (TransposeOf m).data1,
                    Vector4.Dot a.data2 (TransposeOf m).data2,
                    Vector4.Dot a.data2 (TransposeOf m).data3⟩,
          data3 := ⟨Vector4.Dot a.data3 (TransposeOf m).data0,
                    Vector4.Dot a.data3 (TransposeOf m).data1,
                    Vector4.Dot a.data3 (TransposeOf m).data2,
                    Vector4.Dot a.data3 (TransposeOf m).data3⟩ } := by
  have h4 : List.range 4 = [0, 1, 2, 3] := by decide
  unfold mul
  rw [h4]
  simp only [List.foldl, setEntry, get, Vector4.set, Matrix.default]

/-- `operator*=` leaves the product that `operator*` returns. -/
theorem mulAssign_eq_mul (a m : Matrix K) : mulAssign a m = mul a m := by
  have h4 : List.range 4 = [0, 1, 2, 3] := by decide
  rw [mul_eq]
  unfold mulAssign
  rw [h4, copy_eq]
  simp only [List.foldl, setEntry, get, Vector4.set]

/-- C24: entry `[r][c]` of `A * B` is the dot product of `A`'s `r`-th stored vector with the
`c`-th stored vector of `Transpose(B)`, that is `Σ_k A[r][k]·B[k][c]`, and `A *= B` leaves in
`A` that same product, computed from the original entries of `A`. -/
theorem mul_entry (a m : Matrix K) :
    (∀ r c : Nat, r < 4 → c < 4 →
      ((mul a m).get r).get c = Vector4.Dot (a.get r) ((TransposeOf m).get c)
      ∧ ((mul a m).get r).get c
          = (a.get r).get 0 * (m.get 0).get c + (a.get r).get 1 * (m.get 1).get c
            + (a.get r).get 2 * (m.get 2).get c + (a.get r).get 3 * (m.get 3).get c)
    ∧ mulAssign a m = mul a m := by
  refine ⟨?_, mulAssign_eq_mul a m⟩
  intro r c hr hc
  rw [mul_eq, TransposeOf_eq, Transpose_eq]
  interval_cases r <;> interval_cases c <;> exact ⟨rfl, rfl⟩

/-- Witness for C24: entry `[1][2]` of the product of two sample matrices. -/
theorem mul_entry_witness :
    ((mul sampleMatrix sampleMatrix2).get 1).get 2
      = (sampleMatrix.get 1).get 0 * (sampleMatrix2.get 0).get 2
        + (sampleMatrix.get 1).get 1 * (sampleMatrix2.get 1).get 2
        + (sampleMatrix.get 1).get 2 * (sampleMatrix2.get 2).get 2
        + (sampleMatrix.get 1).get 3 * (sampleMatrix2.get 3).get 2 :=
  ((mul_entry sampleMatrix sampleMatrix2).1 1 2 (by decide) (by decide)).2

/-- The translation matrix built from a `Vector3` moves points and leaves vectors. -/
theorem CreateTranslation_transform (t p : Vector3 K) :
    (CreateTranslation t).TransformPoint p = p + t
    ∧ (CreateTranslation t).TransformVector p = p := by
  cases p
  cases t
  simp only [CreateTranslation, ofVector3, ofVector4, Vector4.ofVector3, Vector3.UnitX,
    Vector3.UnitY, Vector3.UnitZ, TransformPoint, TransformPointXYZ, TransformVector,
    TransformVectorXYZ, Vector3.add_def, Vector3.mk.injEq]
  constructor <;> refine ⟨?_, ?_, ?_⟩ <;> ring

/-- C22 (the code at the failing input): `Matrix::CreateTranslation(1, 2, 3)` stores the
translation in the fourth components of its first three vectors and `(0,0,0,1)` as fourth
vector, so it differs from `Matrix::CreateTranslation(Vector3{1,2,3})`, whose fourth vector is
`(1,2,3,1)`; applied with `TransformPoint` to `(0,0,0)` it returns `(0,0,0)`, not `(1,2,3)`,
while the matrix of the `Vector3` overload returns `(1,2,3)`. -/
theorem CreateTranslation_overloads_differ :
    (CreateTranslationXYZ (1 : ℚ) 2 3)
        = { data0 := ⟨1, 0, 0, 1⟩, data1 := ⟨0, 1, 0, 2⟩, data2 := ⟨0, 0, 1, 3⟩,
            data3 := ⟨0, 0, 0, 1⟩ }
    ∧ (CreateTranslation (⟨1, 2, 3⟩ : Vector3 ℚ))
        = { data0 := ⟨1, 0, 0, 0⟩, data1 := ⟨0, 1, 0, 0⟩, data2 := ⟨0, 0, 1, 0⟩,
            data3 := ⟨1, 2, 3, 1⟩ }
    ∧ CreateTranslationXYZ (1 : ℚ) 2 3 ≠ CreateTranslation (⟨1, 2, 3⟩ : Vector3 ℚ)
    ∧ (CreateTranslationXYZ (1 : ℚ) 2 3).TransformPoint ⟨0, 0, 0⟩ = ⟨0, 0, 0⟩
    ∧ (CreateTranslationXYZ (1 : ℚ) 2 3).TransformPoint ⟨0, 0, 0⟩
        ≠ (⟨0, 0, 0⟩ : Vector3 ℚ) + ⟨1, 2, 3⟩
    ∧ (CreateTranslation (⟨1, 2, 3⟩ : Vector3 ℚ)).TransformPoint ⟨0, 0, 0⟩ = ⟨1, 2, 3⟩ := by
  refine ⟨rfl, rfl, by decide, ?_, ?_, ?_⟩
  · simp only [CreateTranslationXYZ, ofVector4, TransformPoint, TransformPointXYZ]
    norm_num
  · simp only [CreateTranslationXYZ, ofVector4, TransformPoint, TransformPointXYZ,
      Vector3.add_def]
    norm_num
  · simp only [CreateTranslation, ofVector3, ofVector4, Vector4.ofVector3, Vector3.UnitX,
      Vector3.UnitY, Vector3.UnitZ, TransformPoint, TransformPointXYZ]
    norm_num

end Matrix

/-! ## The camera basis (claim C23) -/

namespace Vector3

variable {K : Type} [LinearOrderedField K]

theorem Dot_Cross_left (a b : Vector3 K) : Dot (Cross a b) a = 0 := by
  simp only [Dot, Cross]
  ring

theorem Dot_Cross_right (a b : Vector3 K) : Dot (Cross a b) b = 0 := by
  simp only [Dot, Cross]
  ring

theorem Dot_smul_left (s : K) (a b : Vector3 K) : Dot (s * a) b = s * Dot a b := by
  simp only [Dot, smul_def]
  ring

theorem Dot_smul_right (s : K) (a b : Vector3 K) : Dot a (s * b) = s * Dot a b := by
  simp only [Dot, smul_def]
  ring

theorem Dot_comm (a b : Vector3 K) : Dot a b = Dot b a := by
  simp only [Dot]
  ring

theorem Cross_smul_right (s : K) (a b : Vector3 K) : Cross a (s * b) = s * Cross a b := by
  simp only [Cross, smul_def, Vector3.mk.injEq]
  refine ⟨?_, ?_, ?_⟩ <;> ring

/-- Lagrange's identity. -/
theorem Dot_Cross_self (a b : Vector3 K) :
    Dot (Cross a b) (Cross a b) = Dot a a * Dot b b - Dot a b * Dot a b := by
  simp only [Dot, Cross]
  ring

theorem Normalize_eq_Normalized (sqrt : K → K) (v : Vector3 K) :
    Normalize sqrt v = Normalized sqrt v := rfl

end Vector3

namespace Camera

variable {K : Type} [LinearOrderedField K]

/-- C23: for every camera origin and every unit forward vector not parallel to world up
`(0,1,0)` (with an exact square root at the squared length of `(0,1,0) × forward` and at 1),
`CalculateCameraToWorld` sets `right = normalize((0,1,0) × forward)` and
`up = normalize(forward × right)`; `right`, `up` and `forward` are mutually orthogonal unit
vectors; and the returned matrix, also stored in `cameraToWorld`, holds them as its first
three vectors and `origin` as its fourth, so that `TransformVector(0,0,1) = forward` and
`TransformPoint(0,0,0) = origin`. -/
theorem CalculateCameraToWorld_orthonormal (sqrt : K → K) (camera : Camera K)
    (hunit : Vector3.Dot camera.forward camera.forward = 1)
    (hnp : Vector3.Cross Vector3.UnitY camera.forward ≠ ⟨0, 0, 0⟩)
    (hs : IsSqrtAt sqrt (Vector3.Dot (Vector3.Cross Vector3.UnitY camera.forward)
      (Vector3.Cross Vector3.UnitY camera.forward)))
    (hs1 : IsSqrtAt sqrt 1) :
    (CalculateCameraToWorld sqrt camera).1.right
        = Vector3.Normalize sqrt (Vector3.Cross ⟨0, 1, 0⟩ camera.forward)
    ∧ (CalculateCameraToWorld sqrt camera).1.up
        = Vector3.Normalize sqrt
            (Vector3.Cross camera.forward (CalculateCameraToWorld sqrt camera).1.right)
    ∧ (CalculateCameraToWorld sqrt camera).1.forward = camera.forward
    ∧ Vector3.Dot (CalculateCameraToWorld sqrt camera).1.right
        (CalculateCameraToWorld sqrt camera).1.right = 1
    ∧ Vector3.Dot (CalculateCameraToWorld sqrt camera).1.up
        (CalculateCameraToWorld sqrt camera).1.up = 1
    ∧ Vector3.Dot (CalculateCameraToWorld sqrt camera).1.right
        (CalculateCameraToWorld sqrt camera).1.up = 0
    ∧ Vector3.Dot (CalculateCameraToWorld sqrt camera).1.right camera.forward = 0
    ∧ Vector3.Dot (CalculateCameraToWorld sqrt camera).1.up camera.forward = 0
    ∧ (CalculateCameraToWorld sqrt camera).2
        = Matrix.ofVector4
            (Vector4.ofVector3 (CalculateCameraToWorld sqrt camera).1.right 0)
            (Vector4.ofVector3 (CalculateCameraToWorld sqrt camera).1.up 0)
            (Vector4.ofVector3 camera.forward 0)
            (Vector4.ofVector3 camera.origin 0)
    ∧ (CalculateCameraToWorld sqrt camera).1.cameraToWorld
        = (CalculateCameraToWorld sqrt camera).2
    ∧ (CalculateCameraToWorld sqrt camera).2.TransformVector ⟨0, 0, 1⟩ = camera.forward
    ∧ (CalculateCameraToWorld sqrt camera).2.TransformPoint ⟨0, 0, 0⟩ = camera.origin := by
  have hcpos : 0 < Vector3.Dot (Vector3.Cross Vector3.UnitY camera.forward)
      (Vector3.Cross Vector3.UnitY camera.forward) := by
    rcases (Vector3.Dot_self_nonneg (Vector3.Cross Vector3.UnitY camera.forward)).lt_or_eq
      with h | h
    · exact h
    · exact absurd (Vector3.eq_zero_of_Dot_self _ h.symm) hnp
  obtain ⟨hm, hr, hrr⟩ := Vector3.Normalize_unit sqrt _ _ rfl hs hcpos
  have hmm : Vector3.Magnitude sqrt (Vector3.Cross Vector3.UnitY camera.forward)
      * Vector3.Magnitude sqrt (Vector3.Cross Vector3.UnitY camera.forward)
      = Vector3.Dot (Vector3.Cross Vector3.UnitY camera.forward)
          (Vector3.Cross Vector3.UnitY camera.forward) := hs.2
  -- `forward × right` already has unit length
  have hfc : Vector3.Dot camera.forward (Vector3.Cross Vector3.UnitY camera.forward) = 0 := by
    rw [Vector3.Dot_comm]
    exact Vector3.Dot_Cross_right _ _
  have hu1 : Vector3.Dot
      (Vector3.Cross camera.forward
        (Vector3.Normalize sqrt (Vector3.Cross Vector3.UnitY camera.forward)))
      (Vector3.Cross camera.forward
        (Vector3.Normalize sqrt (Vector3.Cross Vector3.UnitY camera.forward))) = 1 := by
    rw [Vector3.Dot_Cross_self, hrr, hunit, hr, Vector3.Dot_smul_right, hfc]
    ring
  obtain ⟨hm2, hu, huu⟩ := Vector3.Normalize_unit sqrt _ _ hu1 hs1 zero_lt_one
  have hright : (CalculateCameraToWorld sqrt camera).1.right
      = Vector3.Normalize sqrt (Vector3.Cross Vector3.UnitY camera.forward) := rfl
  have hup : (CalculateCameraToWorld sqrt camera).1.up
      = Vector3.Normalize sqrt (Vector3.Cross camera.forward
          (Vector3.Normalize sqrt (Vector3.Cross Vector3.UnitY camera.forward))) := rfl
  refine ⟨rfl, rfl, rfl, ?_, ?_, ?_, ?_, ?_, rfl, rfl, ?_, ?_⟩
  · rw [hright]
    exact hrr
  · rw [hup]
    exact huu
  · rw [hup, hright, hu, Vector3.Dot_smul_right, Vector3.Dot_comm, Vector3.Dot_Cross_right,
      mul_zero]
  · rw [hright, hr, Vector3.Dot_smul_left, Vector3.Dot_Cross_right, mul_zero]
  · rw [hup, hu, Vector3.Dot_smul_left, Vector3.Dot_Cross_left, mul_zero]
  · cases hf : camera.forward
    simp only [CalculateCameraToWorld, Matrix.ofVector4, Matrix.TransformVector,
      Matrix.TransformVectorXYZ, hf, Vector3.mk.injEq]
    refine ⟨?_, ?_, ?_⟩ <;> ring
  · cases ho : camera.origin
    simp only [CalculateCameraToWorld, Matrix.ofVector4, Matrix.TransformPoint,
      Matrix.TransformPointXYZ, ho, Vector3.mk.injEq]
    refine ⟨?_, ?_, ?_⟩ <;> ring

/-- Witness for C23: the camera at `(0,3,-9)` looking along `(0,0,1)`. -/
theorem CalculateCameraToWorld_orthonormal_witness :
    (CalculateCameraToWorld Rat.sqrt sampleCamera).2.TransformVector ⟨0, 0, 1⟩
        = sampleCamera.forward
    ∧ (CalculateCameraToWorld Rat.sqrt sampleCamera).2.TransformPoint ⟨0, 0, 0⟩
        = sampleCamera.origin :=
  have hc : Vector3.Dot (Vector3.Cross Vector3.UnitY sampleCamera.forward)
      (Vector3.Cross Vector3.UnitY sampleCamera.forward) = 1 * 1 := by
    norm_num [Vector3.Dot, Vector3.Cross, Vector3.UnitY, sampleCamera]
  have h := CalculateCameraToWorld_orthonormal Rat.sqrt sampleCamera
    (by norm_num [Vector3.Dot, sampleCamera])
    (by simp [Vector3.Cross, Vector3.UnitY, sampleCamera])
    (by rw [hc]; exact GeometryUtils.isSqrtAt_rat_sqrt 1)
    (by have h1 := GeometryUtils.isSqrtAt_rat_sqrt 1; rw [one_mul] at h1; exact h1)
  ⟨h.2.2.2.2.2.2.2.2.2.2.1, h.2.2.2.2.2.2.2.2.2.2.2⟩

end Camera

/-! ## Rays parallel to a plane, finite bounds -/

namespace GeometryUtils

variable {K : Type} [LinearOrderedField K]

/-- For every plane, every ray parallel to it (`ray.direction · plane.normal = 0`) with
finite bounds `min` and `max`, and every incoming record, `HitTest_Plane` returns false
and leaves `didHit = false`: the quotient it stores in `t` is not a finite value (an
infinity or NaN), which fails the bound check; the hit point, normal and material index of
the record are left as they were, and the overload without a record returns false too. -/
theorem HitTest_Plane_parallel_miss (FLT_MAX : K) (plane : Plane K) (ray : Ray K)
    (hitRecord : HitRecord K) (ignoreHitRecord : Bool)
    (hpar : Vector3.Dot ray.direction plane.normal = 0) :
    (HitTest_Plane plane ray hitRecord ignoreHitRecord).1 = false
    ∧ (HitTest_Plane plane ray hitRecord ignoreHitRecord).2.didHit = false
    ∧ (∀ x : K, (HitTest_Plane plane ray hitRecord ignoreHitRecord).2.t ≠ Flt.fin x)
    ∧ (HitTest_Plane plane ray hitRecord ignoreHitRecord).2.origin = hitRecord.origin
    ∧ (HitTest_Plane plane ray hitRecord ignoreHitRecord).2.normal = hitRecord.normal
    ∧ (HitTest_Plane plane ray hitRecord ignoreHitRecord).2.materialIndex
        = hitRecord.materialIndex
    ∧ HitTest_Plane2 FLT_MAX plane ray = false := by
  have hmiss : ∀ (r : HitRecord K) (b : Bool), (HitTest_Plane plane ray r b).1 = false := by
    intro r b
    cases hb : (HitTest_Plane plane ray r b).1
    · rfl
    · exact absurd hpar ((HitTest_Plane_true_iff plane ray r b).mp hb).1
  have hrec := HitTest_Plane_of_false plane ray hitRecord ignoreHitRecord
    (hmiss hitRecord ignoreHitRecord)
  refine ⟨hmiss _ _, ?_, ?_, ?_, ?_, ?_, hmiss _ _⟩
  · rw [HitTest_Plane_didHit]
    exact hmiss _ _
  · intro x
    rw [HitTest_Plane_t, hpar]
    exact Flt.fdiv_zero_not_fin _ x
  · rw [hrec]
  · rw [hrec]
  · rw [hrec]

/-- The ray from `(0,1,0)` along `(1,0,0)` with bounds 0 and 100 misses the plane `y = 0`. -/
theorem HitTest_Plane_parallel_miss_rayAlongGround :
    Vector3.Dot rayAlongGround.direction groundPlane.normal = 0
    ∧ (HitTest_Plane groundPlane rayAlongGround (HitRecord.default fltMax) false).1 = false
    ∧ (HitTest_Plane groundPlane rayAlongGround (HitRecord.default fltMax) false).2.didHit
        = false :=
  have h : Vector3.Dot rayAlongGround.direction groundPlane.normal = 0 := by
    norm_num [Vector3.Dot, rayAlongGround, groundPlane]
  have h2 := HitTest_Plane_parallel_miss fltMax groundPlane rayAlongGround
    (HitRecord.default fltMax) false h
  ⟨h, h2.1, h2.2.1⟩

end GeometryUtils

/-! ## The material table (claim C21) -/

namespace Scene

variable {K : Type} [LinearOrderedField K]

/-- Repeated `AddMaterial` calls append their materials in order. -/
theorem run_replicate_AddMaterial (m : Material K) (n : Nat) :
    ∀ scene : Scene K,
      (scene.run (List.replicate n (Call.AddMaterial m))).m_Materials
        = scene.m_Materials ++ List.replicate n m := by
  induction n with
  | zero =>
    intro scene
    simp [run]
  | succ n ih =>
    intro scene
    have h := ih (scene.call (Call.AddMaterial m))
    rw [List.replicate_succ]
    show ((scene.call (Call.AddMaterial m)).run _).m_Materials = _
    rw [h]
    simp only [call, AddMaterial, List.append_assoc, List.singleton_append,
      List.replicate_succ]

/-- The material table of `sceneWith256Materials`: solid red, then solid blue 255 times. -/
theorem sceneWith256Materials_materials :
    sceneWith256Materials.m_Materials
      = Material.SolidColor ⟨1, 0, 0⟩ :: List.replicate 255 (Material.SolidColor ⟨0, 0, 1⟩) := by
  unfold sceneWith256Materials
  rw [run_replicate_AddMaterial]
  rfl

/-- C21 (counterexample): on the scene whose table already holds 256 materials (a fresh
scene after 255 calls of `AddMaterial`), `AddMaterial(solid green)` stores the material at
index 256 but returns 0, the index cast to `unsigned char`; the entry at the returned index
is the solid-red default, not the material that was added. -/
theorem AddMaterial_returns_wrapped_index :
    sceneWith256Materials.m_Materials.length = 256
    ∧ (sceneWith256Materials.AddMaterial (Material.SolidColor ⟨0, 1, 0⟩)).2 = 0
    ∧ (sceneWith256Materials.AddMaterial (Material.SolidColor ⟨0, 1, 0⟩)).1.m_Materials[0]?
        = some (Material.SolidColor ⟨1, 0, 0⟩)
    ∧ (sceneWith256Materials.AddMaterial (Material.SolidColor ⟨0, 1, 0⟩)).1.m_Materials[256]?
        = some (Material.SolidColor ⟨0, 1, 0⟩)
    ∧ (sceneWith256Materials.AddMaterial (Material.SolidColor ⟨0, 1, 0⟩)).1.m_Materials[
          (sceneWith256Materials.AddMaterial (Material.SolidColor ⟨0, 1, 0⟩)).2]?
        ≠ some (Material.SolidColor ⟨0, 1, 0⟩) := by
  have hlen : sceneWith256Materials.m_Materials.length = 256 := by
    rw [sceneWith256Materials_materials, List.length_cons, List.length_replicate]
  have hret : (sceneWith256Materials.AddMaterial (Material.SolidColor ⟨0, 1, 0⟩)).2 = 0 := by
    simp only [AddMaterial, List.length_append, hlen, List.length_singleton]
  have h0 : (sceneWith256Materials.AddMaterial
      (Material.SolidColor ⟨0, 1, 0⟩)).1.m_Materials[0]?
        = some (Material.SolidColor ⟨1, 0, 0⟩) := by
    simp only [AddMaterial]
    rw [sceneWith256Materials_materials, List.cons_append, List.getElem?_cons_zero]
  refine ⟨hlen, hret, h0, ?_, ?_⟩
  · simp only [AddMaterial]
    rw [List.getElem?_append_right (by rw [hlen]), hlen]
    rfl
  · rw [hret, h0]
    intro h
    have h2 := Option.some.inj h
    injection h2 with h3
    injection h3 with h4 h5 h6
    exact absurd h4 (by norm_num)

/-- C21 (amended): on every scene whose table holds fewer than 256 materials,
`AddMaterial(m)` appends `m` to the material table, leaves all earlier entries, the geometry
and the lights unchanged, and returns the index at which `m` is now stored, the old length
of the table; a freshly constructed scene holds the solid-red material at index 0 and
nothing else, so its first `AddMaterial` returns 1. -/
theorem AddMaterial_index (scene : Scene K) (m : Material K)
    (hlen : scene.m_Materials.length < 256) :
    (scene.AddMaterial m).1.m_Materials = scene.m_Materials ++ [m]
    ∧ (∀ i : Nat, i < scene.m_Materials.length →
        (scene.AddMaterial m).1.m_Materials[i]? = scene.m_Materials[i]?)
    ∧ (scene.AddMaterial m).2 = scene.m_Materials.length
    ∧ (scene.AddMaterial m).1.m_Materials[(scene.AddMaterial m).2]? = some m
    ∧ (scene.AddMaterial m).1.m_SphereGeometries = scene.m_SphereGeometries
    ∧ (scene.AddMaterial m).1.m_PlaneGeometries = scene.m_PlaneGeometries
    ∧ (scene.AddMaterial m).1.m_TriangleMeshGeometries = scene.m_TriangleMeshGeometries
    ∧ (scene.AddMaterial m).1.m_Lights = scene.m_Lights
    ∧ (Scene.new : Scene K).m_Materials = [Material.SolidColor ⟨1, 0, 0⟩]
    ∧ ((Scene.new : Scene K).AddMaterial m).2 = 1 := by
  have hret : (scene.AddMaterial m).2 = scene.m_Materials.length := by
    simp only [AddMaterial, List.length_append, List.length_singleton, Nat.add_sub_cancel]
    exact Nat.mod_eq_of_lt hlen
  refine ⟨rfl, ?_, hret, ?_, rfl, rfl, rfl, rfl, rfl, rfl⟩
  · intro i hi
    simp only [AddMaterial]
    exact List.getElem?_append_left hi
  · rw [hret]
    simp only [AddMaterial]
    rw [List.getElem?_append_right (le_refl _)]
    simp

/-- Witness for C21: the first `AddMaterial` on a freshly constructed scene. -/
theorem AddMaterial_index_witness :
    ((Scene.new : Scene ℚ).AddMaterial (Material.SolidColor ⟨0, 0, 1⟩)).2 = 1
    ∧ ((Scene.new : Scene ℚ).AddMaterial (Material.SolidColor ⟨0, 0, 1⟩)).1.m_Materials
        = [Material.SolidColor ⟨1, 0, 0⟩, Material.SolidColor ⟨0, 0, 1⟩] :=
  have h := AddMaterial_index (Scene.new : Scene ℚ) (Material.SolidColor ⟨0, 0, 1⟩)
    (by simp [Scene.new])
  ⟨h.2.2.1, h.1⟩

end Scene

/-! ## The geometry term (claim C29) -/

namespace Flt

variable {K : Type} [LinearOrderedField K]

theorem nan_mul (b : Flt K) : mul nan b = nan := by
  cases b <;> rfl

theorem nan_add (b : Flt K) : add nan b = nan := by
  cases b <;> rfl

theorem nan_div (b : Flt K) : div nan b = nan := by
  cases b <;> rfl

theorem nan_max (b : Flt K) : max nan b = nan := by
  cases b <;> rfl

theorem mul_comm_flt (a b : Flt K) : mul a b = mul b a := by
  cases a <;> cases b <;> simp [mul, mul_comm]

theorem max_fin (a b : K) : max (fin a) (fin b) = fin (Max.max a b) := by
  unfold max lt
  by_cases h : a < b
  · simp [h, max_eq_right h.le]
  · simp [h, max_eq_left (not_lt.mp h)]

end Flt

namespace Vector3

variable {K : Type} [LinearOrderedField K]

/-- The dot product of two unit vectors is at most 1. -/
theorem Dot_le_one_of_unit (a b : Vector3 K) (ha : Dot a a = 1) (hb : Dot b b = 1) :
    Dot a b ≤ 1 := by
  have h := Dot_self_nonneg (a - b)
  simp only [Dot, sub_def] at h ha hb ⊢
  nlinarith

end Vector3

namespace BRDF

variable {K : Type} [LinearOrderedField K]

/-- The quotient `c / (c (1 - k) + k)` for a cosine `c` in `(0, 1]` and a positive `k`. -/
theorem schlick_quotient (c k : K) (hc0 : 0 < c) (hc1 : c ≤ 1) (hk : 0 < k) :
    0 < c * (1 - k) + k ∧ 0 < c / (c * (1 - k) + k) ∧ c / (c * (1 - k) + k) ≤ 1 := by
  have hd : 0 < c * (1 - k) + k := by nlinarith [mul_nonneg hk.le (sub_nonneg.mpr hc1)]
  refine ⟨hd, div_pos hc0 hd, ?_⟩
  rw [div_le_one hd]
  nlinarith [mul_nonneg hk.le (sub_nonneg.mpr hc1)]

/-- The remapped roughness `k = (roughness² + 1)² / 8` is at least `1/8`. -/
theorem schlick_k_ge (roughness : K) : 1 / 8 ≤ Square (roughness * roughness + 1) / 8 := by
  unfold Square
  have h := mul_self_nonneg roughness
  have h2 : 1 ≤ (roughness * roughness + 1) * (roughness * roughness + 1) := by nlinarith
  linarith

/-- The clamped cosine of two non-zero vectors lies in `[1/10000, 1]`. -/
theorem clamped_cos_range (sqrt : K → K) (n v : Vector3 K)
    (hn : 0 < Vector3.Dot n n) (hv : 0 < Vector3.Dot v v)
    (hsn : IsSqrtAt sqrt (Vector3.Dot n n)) (hsv : IsSqrtAt sqrt (Vector3.Dot v v)) :
    1 / 10000 ≤ max (Vector3.Dot (Vector3.Normalized sqrt n) (Vector3.Normalized sqrt v))
        (1 / 10000)
    ∧ max (Vector3.Dot (Vector3.Normalized sqrt n) (Vector3.Normalized sqrt v)) (1 / 10000)
        ≤ 1 := by
  have h1 := (Vector3.Normalize_unit sqrt n _ rfl hsn hn).2.2
  have h2 := (Vector3.Normalize_unit sqrt v _ rfl hsv hv).2.2
  refine ⟨le_max_right _ _, max_le ?_ (by norm_num)⟩
  exact Vector3.Dot_le_one_of_unit _ _ h1 h2

/-- Range of `GeometryFunction_SchlickGGX` on non-zero vectors. -/
theorem GeometryFunction_SchlickGGX_bounds (sqrt : K → K) (n v : Vector3 K) (roughness : K)
    (hn : 0 < Vector3.Dot n n) (hv : 0 < Vector3.Dot v v)
    (hsn : IsSqrtAt sqrt (Vector3.Dot n n)) (hsv : IsSqrtAt sqrt (Vector3.Dot v v)) :
    0 < GeometryFunction_SchlickGGX sqrt n v roughness
    ∧ GeometryFunction_SchlickGGX sqrt n v roughness ≤ 1 := by
  obtain ⟨hc0, hc1⟩ := clamped_cos_range sqrt n v hn hv hsn hsv
  have hk : (0 : K) < Square (roughness * roughness + 1) / 8 :=
    lt_of_lt_of_le (by norm_num) (schlick_k_ge roughness)
  exact (schlick_quotient _ _ (lt_of_lt_of_le (by norm_num) hc0) hc1 hk).2

end BRDF

namespace Ieee

variable {K : Type} [LinearOrderedField K]

/-- On a vector of non-zero magnitude the float quotients of `Normalized` are finite. -/
theorem Normalized_fin (sqrt : K → K) (v : Vector3 K) (hm : Vector3.Magnitude sqrt v ≠ 0) :
    Normalized sqrt v
      = ⟨Flt.fin (Vector3.Normalized sqrt v).x, Flt.fin (Vector3.Normalized sqrt v).y,
         Flt.fin (Vector3.Normalized sqrt v).z⟩ := by
  simp only [Normalized, Vector3.Normalized, Flt.fdiv_of_ne _ hm]

/-- On vectors of non-zero magnitude, with a non-zero denominator, the float quotient of
`GeometryFunction_SchlickGGX` is the finite value computed over `K`. -/
theorem GeometryFunction_SchlickGGX_fin (sqrt : K → K) (n v : Vector3 K) (roughness : K)
    (hn : Vector3.Magnitude sqrt n ≠ 0) (hv : Vector3.Magnitude sqrt v ≠ 0)
    (hd : max (Vector3.Dot (Vector3.Normalized sqrt n) (Vector3.Normalized sqrt v))
        (1 / 10000) * (1 - Square (roughness * roughness + 1) / 8)
      + Square (roughness * roughness + 1) / 8 ≠ 0) :
    GeometryFunction_SchlickGGX sqrt n v roughness
      = Flt.fin (BRDF.GeometryFunction_SchlickGGX sqrt n v roughness) := by
  unfold GeometryFunction_SchlickGGX BRDF.GeometryFunction_SchlickGGX
  rw [Normalized_fin sqrt n hn, Normalized_fin sqrt v hv]
  simp only [Dot, Flt.mul, Flt.add, Flt.max_fin, Flt.div]
  unfold Vector3.Dot at hd
  rw [Flt.fdiv_of_ne _ hd]
  rfl

end Ieee

namespace BRDF

variable {K : Type} [LinearOrderedField K]

/-- C29 (counterexample): for the zero vector `n = (0,0,0)`, `v = l = (0,0,1)` and
roughness 0 (so `k = 1/8 ≤ 1`) the magnitude that `n.Normalized()` divides by is 0, its
components are `0 / 0` = NaN, `std::max(NaN, 0.0001f)` returns its first argument, and
`GeometryFunction_SchlickGGX` and `GeometryFunction_Smith` return NaN, which is not a value
in `(0, 1]`. -/
theorem GeometryFunction_SchlickGGX_zero_normal :
    Vector3.Magnitude Rat.sqrt (⟨0, 0, 0⟩ : Vector3 ℚ) = 0
    ∧ Square ((0 : ℚ) * 0 + 1) / 8 ≤ 1
    ∧ Ieee.Normalized Rat.sqrt (⟨0, 0, 0⟩ : Vector3 ℚ) = ⟨Flt.nan, Flt.nan, Flt.nan⟩
    ∧ Ieee.GeometryFunction_SchlickGGX Rat.sqrt ⟨0, 0, 0⟩ unitZ 0 = Flt.nan
    ∧ Ieee.GeometryFunction_Smith Rat.sqrt ⟨0, 0, 0⟩ unitZ unitZ 0 = Flt.nan
    ∧ ∀ g : ℚ, Ieee.GeometryFunction_SchlickGGX Rat.sqrt ⟨0, 0, 0⟩ unitZ 0 ≠ Flt.fin g := by
  have hm : Vector3.Magnitude Rat.sqrt (⟨0, 0, 0⟩ : Vector3 ℚ) = 0 := by
    unfold Vector3.Magnitude
    rw [show ((0 : ℚ) * 0 + 0 * 0 + 0 * 0) = 0 * 0 by norm_num, Rat.sqrt_eq]
    norm_num
  have hnorm : Ieee.Normalized Rat.sqrt (⟨0, 0, 0⟩ : Vector3 ℚ)
      = ⟨Flt.nan, Flt.nan, Flt.nan⟩ := by
    unfold Ieee.Normalized
    rw [hm]
    rfl
  have hG : Ieee.GeometryFunction_SchlickGGX Rat.sqrt ⟨0, 0, 0⟩ unitZ 0 = Flt.nan := by
    unfold Ieee.GeometryFunction_SchlickGGX
    rw [hnorm]
    simp only [Ieee.Dot, Flt.nan_mul, Flt.nan_add, Flt.nan_max, Flt.nan_div]
  refine ⟨hm, by norm_num [Square], hnorm, hG, ?_, ?_⟩
  · unfold Ieee.GeometryFunction_Smith
    rw [hG]
    rfl
  · intro g
    rw [hG]
    exact fun h => Flt.noConfusion h

/-- C29 (amended): for every roughness and all non-zero vectors `n`, `v`, `l` (with an exact
square root at their squared lengths), the clamped cosine `nDOTv = max(n̂·v̂, 0.0001)` lies
in `[0.0001, 1]`, `k = (roughness² + 1)² / 8` is at least `1/8`, the denominator
`nDOTv·(1 − k) + k` of `GeometryFunction_SchlickGGX` is strictly positive, and the result
lies in `(0, 1]` for every `k`; `GeometryFunction_Smith(n, v, l, roughness)` lies in `(0, 1]`
and is symmetric in `v` and `l`; and the float quotients are these finite values. -/
theorem GeometryFunction_Smith_range (sqrt : K → K) (n v l : Vector3 K) (roughness : K)
    (hn : n ≠ ⟨0, 0, 0⟩) (hv : v ≠ ⟨0, 0, 0⟩) (hl : l ≠ ⟨0, 0, 0⟩)
    (hsn : IsSqrtAt sqrt (Vector3.Dot n n)) (hsv : IsSqrtAt sqrt (Vector3.Dot v v))
    (hsl : IsSqrtAt sqrt (Vector3.Dot l l)) :
    1 / 10000 ≤ max (Vector3.Dot (Vector3.Normalized sqrt n) (Vector3.Normalized sqrt v))
        (1 / 10000)
    ∧ max (Vector3.Dot (Vector3.Normalized sqrt n) (Vector3.Normalized sqrt v)) (1 / 10000)
        ≤ 1
    ∧ 1 / 8 ≤ Square (roughness * roughness + 1) / 8
    ∧ 0 < max (Vector3.Dot (Vector3.Normalized sqrt n) (Vector3.Normalized sqrt v))
          (1 / 10000) * (1 - Square (roughness * roughness + 1) / 8)
        + Square (roughness * roughness + 1) / 8
    ∧ GeometryFunction_SchlickGGX sqrt n v roughness
        = max (Vector3.Dot (Vector3.Normalized sqrt n) (Vector3.Normalized sqrt v))
            (1 / 10000)
          / (max (Vector3.Dot (Vector3.Normalized sqrt n) (Vector3.Normalized sqrt v))
              (1 / 10000) * (1 - Square (roughness * roughness + 1) / 8)
            + Square (roughness * roughness + 1) / 8)
    ∧ 0 < GeometryFunction_SchlickGGX sqrt n v roughness
    ∧ GeometryFunction_SchlickGGX sqrt n v roughness ≤ 1
    ∧ 0 < GeometryFunction_Smith sqrt n v l roughness
    ∧ GeometryFunction_Smith sqrt n v l roughness ≤ 1
    ∧ GeometryFunction_Smith sqrt n v l roughness
        = GeometryFunction_Smith sqrt n l v roughness
    ∧ Ieee.GeometryFunction_SchlickGGX sqrt n v roughness
        = Flt.fin (GeometryFunction_SchlickGGX sqrt n v roughness)
    ∧ Ieee.GeometryFunction_Smith sqrt n v l roughness
        = Flt.fin (GeometryFunction_Smith sqrt n v l roughness) := by
  have hpos : ∀ a : Vector3 K, a ≠ ⟨0, 0, 0⟩ → 0 < Vector3.Dot a a := by
    intro a ha
    rcases (Vector3.Dot_self_nonneg a).lt_or_eq with h | h
    · exact h
    · exact absurd (Vector3.eq_zero_of_Dot_self a h.symm) ha
  have hn2 := hpos n hn
  have hv2 := hpos v hv
  have hl2 := hpos l hl
  obtain ⟨hc0, hc1⟩ := clamped_cos_range sqrt n v hn2 hv2 hsn hsv
  obtain ⟨hc0l, hc1l⟩ := clamped_cos_range sqrt n l hn2 hl2 hsn hsl
  have hk := schlick_k_ge roughness
  have hk0 : (0 : K) < Square (roughness * roughness + 1) / 8 :=
    lt_of_lt_of_le (by norm_num) hk
  have hq := schlick_quotient _ _ (lt_of_lt_of_le (by norm_num) hc0) hc1 hk0
  have hql := schlick_quotient _ _ (lt_of_lt_of_le (by norm_num) hc0l) hc1l hk0
  obtain ⟨hv0, hv1⟩ := GeometryFunction_SchlickGGX_bounds sqrt n v roughness hn2 hv2 hsn hsv
  obtain ⟨hl0, hl1⟩ := GeometryFunction_SchlickGGX_bounds sqrt n l roughness hn2 hl2 hsn hsl
  have hmn := (Vector3.Normalize_unit sqrt n _ rfl hsn hn2).1.ne.symm
  have hmv := (Vector3.Normalize_unit sqrt v _ rfl hsv hv2).1.ne.symm
  have hml := (Vector3.Normalize_unit sqrt l _ rfl hsl hl2).1.ne.symm
  have hfv := Ieee.GeometryFunction_SchlickGGX_fin sqrt n v roughness hmn hmv hq.1.ne.symm
  have hfl := Ieee.GeometryFunction_SchlickGGX_fin sqrt n l roughness hmn hml hql.1.ne.symm
  refine ⟨hc0, hc1, hk, hq.1, rfl, hv0, hv1, ?_, ?_, ?_, hfv, ?_⟩
  · exact mul_pos hv0 hl0
  · exact mul_le_one₀ hv1 hl0.le hl1
  · unfold GeometryFunction_Smith
    exact mul_comm _ _
  · unfold Ieee.GeometryFunction_Smith GeometryFunction_Smith
    rw [hfv, hfl]
    rfl

/-- Witness for C29: `n = v = l = (0,0,1)` at roughness 1. -/
theorem GeometryFunction_Smith_range_witness :
    0 < GeometryFunction_Smith Rat.sqrt unitZ unitZ unitZ 1
    ∧ GeometryFunction_Smith Rat.sqrt unitZ unitZ unitZ 1 ≤ 1 :=
  have hne : unitZ ≠ (⟨0, 0, 0⟩ : Vector3 ℚ) := by decide
  have hd : Vector3.Dot unitZ unitZ = (1 : ℚ) * 1 := by
    norm_num [Vector3.Dot, unitZ]
  have hs : IsSqrtAt Rat.sqrt (Vector3.Dot unitZ unitZ) := by
    rw [hd]
    exact GeometryUtils.isSqrtAt_rat_sqrt 1
  have h := GeometryFunction_Smith_range Rat.sqrt unitZ unitZ unitZ 1 hne hne hne hs hs hs
  ⟨h.2.2.2.2.2.2.2.1, h.2.2.2.2.2.2.2.2.1⟩

end BRDF

/-! ## Candidates that mask a hit (claim C28) -/

namespace Scene

open GeometryUtils

/-- The plane test for `nearPlane` and the ray from `(0,0,-5)` along `(0,0,1)`: a miss that
stores `t = 1/16384`. -/
theorem HitTest_Plane_nearPlane (r : HitRecord ℚ) :
    HitTest_Plane nearPlane rayTowardsSphere r false
      = (false, { r with t := Flt.fin (1 / 16384), didHit := false }) := by
  norm_num [Flt.lt, Flt.le, Flt.fdiv, HitTest_Plane, Vector3.Dot, Vector3.sub_def,
    rayTowardsSphere, nearPlane]

/-- The plane test for `tiePlane` and the ray from `(0,0,-5)` along `(0,0,1)`: a hit at
`t = 4`. -/
theorem HitTest_Plane_tiePlane (r : HitRecord ℚ) :
    HitTest_Plane tiePlane rayTowardsSphere r false
      = (true, { origin := ⟨0, 0, -1⟩, normal := ⟨0, 0, 1⟩, t := Flt.fin 4, didHit := true,
                 materialIndex := 1 }) := by
  norm_num [Flt.lt, Flt.le, Flt.fdiv, HitTest_Plane, Vector3.Dot, Vector3.sub_def,
    Vector3.add_def, Vector3.smul_def, Vector3.scale, rayTowardsSphere, tiePlane, fltMax]

/-- C28 (the code at the failing input): in the scene with the unit sphere at the origin and
a plane `1/16384` in front of the ray's origin, for the ray from `(0,0,-5)` along `(0,0,1)`
with the default bounds, the sphere's own test reports a hit at `t = 4` with
`ray.min < 4 < ray.max` and the plane's own test misses (`t = 1/16384 < ray.min`), yet
`GetClosestHit` from a default record leaves `didHit = false`, with the sphere's hit point
and normal and the plane's `t`; `DoesHit` returns true for the same ray. -/
theorem GetClosestHit_masked_hit :
    HitTest_Sphere Rat.sqrt unitSphere rayTowardsSphere (HitRecord.default fltMax) false
        = (true, { origin := ⟨0, 0, -1⟩, normal := ⟨0, 0, -1⟩, t := Flt.fin 4, didHit := true,
                   materialIndex := 0 })
    ∧ rayTowardsSphere.min < (4 : ℚ) ∧ (4 : ℚ) < rayTowardsSphere.max
    ∧ unitSphere ∈ sceneSphereAndNearPlane.m_SphereGeometries
    ∧ sceneSphereAndNearPlane.m_PlaneGeometries = [nearPlane]
    ∧ (HitTest_Plane nearPlane rayTowardsSphere (HitRecord.default fltMax) false).1 = false
    ∧ GetClosestHit Rat.sqrt sceneSphereAndNearPlane rayTowardsSphere
          (HitRecord.default fltMax)
        = { origin := ⟨0, 0, -1⟩, normal := ⟨0, 0, -1⟩, t := Flt.fin (1 / 16384),
            didHit := false, materialIndex := 0 }
    ∧ (GetClosestHit Rat.sqrt sceneSphereAndNearPlane rayTowardsSphere
          (HitRecord.default fltMax)).didHit = false
    ∧ DoesHit Rat.sqrt fltMax sceneSphereAndNearPlane rayTowardsSphere = true := by
  have hs : sceneSphereAndNearPlane.m_SphereGeometries = [unitSphere] := rfl
  have hp : sceneSphereAndNearPlane.m_PlaneGeometries = [nearPlane] := rfl
  have hres : GetClosestHit Rat.sqrt sceneSphereAndNearPlane rayTowardsSphere
      (HitRecord.default fltMax)
        = { origin := ⟨0, 0, -1⟩, normal := ⟨0, 0, -1⟩, t := Flt.fin (1 / 16384),
            didHit := false, materialIndex := 0 } := by
    unfold GetClosestHit closestScan
    rw [hs, hp]
    unfold sphereLoop sphereLoop planeLoop planeLoop sphereStep planeStep
    simp only [HitTest_Sphere_rayTowardsSphere, HitTest_Plane_nearPlane]
    norm_num [Flt.lt, HitRecord.default, fltMax, HitTest_Plane_nearPlane]
  refine ⟨HitTest_Sphere_rayTowardsSphere _, by norm_num [rayTowardsSphere],
    by norm_num [rayTowardsSphere, fltMax], ?_, hp, ?_, hres, ?_, ?_⟩
  · rw [hs]
    exact List.mem_singleton.mpr rfl
  · rw [HitTest_Plane_nearPlane]
  · rw [hres]
  · simp only [DoesHit, hs, hp, doesHitSphere]
    norm_num [Flt.lt, Flt.fdiv, Vector3.Dot, Vector3.sub_def, Vector3.smul_def, unitSphere,
      rayTowardsSphere, rat_sqrt_four, fltMax]

end Scene

/-! ## Ties at the smallest `t` (claim C26) -/

namespace Flt

variable {K : Type} [LinearOrderedField K]

theorem not_lt_of_le {a b : Flt K} (h : le a b = true) : lt b a = false := by
  cases a <;> cases b <;> simp_all [lt, le]

theorem lt_of_lt_fin {t y : K} (h : lt (fin t) (fin y) = true) : t < y := by
  simpa [lt] using h

end Flt

namespace Scene

variable {K : Type} [LinearOrderedField K]

open GeometryUtils

/-- A sphere test leaves the sphere's own record on a hit and the incoming `t` on a miss. -/
theorem HitTest_Sphere_cases (sqrt : K → K) (FLT_MAX : K) (a : Sphere K) (ray : Ray K)
    (r0 : HitRecord K) :
    ((HitTest_Sphere sqrt a ray (HitRecord.default FLT_MAX) false).1 = true
      ∧ HitTest_Sphere sqrt a ray r0 false
          = HitTest_Sphere sqrt a ray (HitRecord.default FLT_MAX) false)
    ∨ ((HitTest_Sphere sqrt a ray (HitRecord.default FLT_MAX) false).1 = false
      ∧ (HitTest_Sphere sqrt a ray r0 false).2.t = r0.t) := by
  cases h : (HitTest_Sphere sqrt a ray (HitRecord.default FLT_MAX) false).1
  · right
    refine ⟨rfl, ?_⟩
    rw [HitTest_Sphere_eq_of_miss sqrt a ray r0 _ h]
  · left
    exact ⟨rfl, HitTest_Sphere_eq_of_hit sqrt a ray r0 _ h⟩

theorem planeStep_of_accept (ray : Ray K) (p : Plane K) (j : Int) (st : ClosestState K)
    (hc : (Flt.lt (HitTest_Plane p ray st.closestHit false).2.t st.smallestT
      && Flt.lt (Flt.fin 0) (HitTest_Plane p ray st.closestHit false).2.t) = true) :
    planeStep ray p j st
      = { closestHit := (HitTest_Plane p ray st.closestHit false).2,
          smallestT := (HitTest_Plane p ray st.closestHit false).2.t,
          closestIdx := j, planeCloser := true } := by
  unfold planeStep
  dsimp only
  rw [if_pos hc]

theorem planeStep_of_reject (ray : Ray K) (p : Plane K) (j : Int) (st : ClosestState K)
    (hc : (Flt.lt (HitTest_Plane p ray st.closestHit false).2.t st.smallestT
      && Flt.lt (Flt.fin 0) (HitTest_Plane p ray st.closestHit false).2.t) = false) :
    planeStep ray p j st
      = { st with closestHit := (HitTest_Plane p ray st.closestHit false).2 } := by
  unfold planeStep
  dsimp only
  rw [if_neg (by rw [hc]; exact Bool.false_ne_true)]

theorem sphereStep_planeCloser (sqrt : K → K) (ray : Ray K) (a : Sphere K) (j : Int)
    (st : ClosestState K) : (sphereStep sqrt ray a j st).planeCloser = st.planeCloser := by
  unfold sphereStep
  dsimp only
  split_ifs <;> rfl

theorem sphereLoop_planeCloser (sqrt : K → K) (ray : Ray K) (l : List (Sphere K)) :
    ∀ (j : Int) (st : ClosestState K),
      (sphereLoop sqrt ray l j st).planeCloser = st.planeCloser := by
  induction l with
  | nil =>
    intro j st
    rfl
  | cons a rest ih =>
    intro j st
    unfold sphereLoop
    rw [ih, sphereStep_planeCloser]

theorem sphereLoop_append (sqrt : K → K) (ray : Ray K) (l1 l2 : List (Sphere K)) :
    ∀ (j : Int) (st : ClosestState K),
      sphereLoop sqrt ray (l1 ++ l2) j st
        = sphereLoop sqrt ray l2 (j + l1.length) (sphereLoop sqrt ray l1 j st) := by
  induction l1 with
  | nil =>
    intro j st
    simp [sphereLoop]
  | cons a rest ih =>
    intro j st
    show sphereLoop sqrt ray (rest ++ l2) (j + 1) (sphereStep sqrt ray a j st)
      = sphereLoop sqrt ray l2 (j + ((a :: rest).length : Nat))
          (sphereLoop sqrt ray rest (j + 1) (sphereStep sqrt ray a j st))
    rw [ih, List.length_cons]
    congr 1
    push_cast
    ring

theorem planeLoop_append (ray : Ray K) (l1 l2 : List (Plane K)) :
    ∀ (j : Int) (st : ClosestState K),
      planeLoop ray (l1 ++ l2) j st
        = planeLoop ray l2 (j + l1.length) (planeLoop ray l1 j st) := by
  induction l1 with
  | nil =>
    intro j st
    simp [planeLoop]
  | cons a rest ih =>
    intro j st
    show planeLoop ray (rest ++ l2) (j + 1) (planeStep ray a j st)
      = planeLoop ray l2 (j + ((a :: rest).length : Nat))
          (planeLoop ray rest (j + 1) (planeStep ray a j st))
    rw [ih, List.length_cons]
    congr 1
    push_cast
    ring

/-- A sphere whose hit, if any, lies strictly beyond `t` keeps the smallest parameter above
`t`. -/
theorem sphereStep_above (sqrt : K → K) (FLT_MAX : K) (ray : Ray K) (a : Sphere K) (j : Int)
    (t : K) (st : ClosestState K) (h : ScanAbove t st)
    (ha : (HitTest_Sphere sqrt a ray (HitRecord.default FLT_MAX) false).1 = true →
      Flt.lt (Flt.fin 0) (HitTest_Sphere sqrt a ray (HitRecord.default FLT_MAX) false).2.t
        = true →
      Flt.lt (Flt.fin t) (HitTest_Sphere sqrt a ray (HitRecord.default FLT_MAX) false).2.t
        = true) :
    ScanAbove t (sphereStep sqrt ray a j st) := by
  obtain ⟨⟨x, hx, htx⟩, hstale⟩ := h
  cases hc : (Flt.lt (HitTest_Sphere sqrt a ray st.closestHit false).2.t st.smallestT
      && Flt.lt (Flt.fin 0) (HitTest_Sphere sqrt a ray st.closestHit false).2.t)
  · rw [sphereStep_of_reject sqrt ray a j st _ _ rfl hc]
    exact ⟨⟨x, hx, htx⟩, hc⟩
  · rcases HitTest_Sphere_cases sqrt FLT_MAX a ray st.closestHit with ⟨hh, he⟩ | ⟨hh, he⟩
    · have hhit : (HitTest_Sphere sqrt a ray st.closestHit false).1 = true := by
        rw [he]
        exact hh
      rw [sphereStep_of_accept sqrt ray a j st _ (Prod.ext hhit rfl) hc]
      rw [Bool.and_eq_true] at hc
      have h1 := ha hh (he ▸ hc.2)
      rw [hx] at hc
      obtain ⟨y, hy⟩ := Flt.fin_of_lt_lt hc.2 hc.1
      refine ⟨⟨y, hy, ?_⟩, ?_⟩
      · rw [← he, hy] at h1
        exact Flt.lt_of_lt_fin h1
      · show (Flt.lt _ _ && _) = false
        rw [Flt.lt_self, Bool.false_and]
    · rw [he, hstale] at hc
      cases hc

/-- A plane whose quotient, if positive, lies strictly beyond `t` keeps the smallest
parameter above `t`. -/
theorem planeStep_above (FLT_MAX : K) (ray : Ray K) (p : Plane K) (j : Int) (t : K)
    (st : ClosestState K) (h : ScanAbove t st)
    (hp : Flt.lt (Flt.fin 0) (HitTest_Plane p ray (HitRecord.default FLT_MAX) false).2.t
        = true →
      Flt.lt (Flt.fin t) (HitTest_Plane p ray (HitRecord.default FLT_MAX) false).2.t
        = true) :
    ScanAbove t (planeStep ray p j st) := by
  obtain ⟨⟨x, hx, htx⟩, hstale⟩ := h
  have ht : (HitTest_Plane p ray st.closestHit false).2.t
      = (HitTest_Plane p ray (HitRecord.default FLT_MAX) false).2.t :=
    HitTest_Plane_t_indep p ray _ _ false false
  cases hc : (Flt.lt (HitTest_Plane p ray st.closestHit false).2.t st.smallestT
      && Flt.lt (Flt.fin 0) (HitTest_Plane p ray st.closestHit false).2.t)
  · rw [planeStep_of_reject ray p j st hc]
    exact ⟨⟨x, hx, htx⟩, hc⟩
  · rw [planeStep_of_accept ray p j st hc]
    rw [Bool.and_eq_true] at hc
    have h1 := hp (ht ▸ hc.2)
    rw [hx] at hc
    obtain ⟨y, hy⟩ := Flt.fin_of_lt_lt hc.2 hc.1
    refine ⟨⟨y, hy, ?_⟩, ?_⟩
    · rw [← ht, hy] at h1
      exact Flt.lt_of_lt_fin h1
    · show (Flt.lt _ _ && _) = false
      rw [Flt.lt_self, Bool.false_and]

theorem sphereLoop_above (sqrt : K → K) (FLT_MAX : K) (ray : Ray K) (t : K)
    (l : List (Sphere K)) :
    ∀ (j : Int) (st : ClosestState K), ScanAbove t st →
      (∀ a ∈ l, (HitTest_Sphere sqrt a ray (HitRecord.default FLT_MAX) false).1 = true →
        Flt.lt (Flt.fin 0) (HitTest_Sphere sqrt a ray (HitRecord.default FLT_MAX) false).2.t
          = true →
        Flt.lt (Flt.fin t) (HitTest_Sphere sqrt a ray (HitRecord.default FLT_MAX) false).2.t
          = true) →
      ScanAbove t (sphereLoop sqrt ray l j st) := by
  induction l with
  | nil =>
    intro j st h _
    exact h
  | cons a rest ih =>
    intro j st h hl
    unfold sphereLoop
    exact ih _ _ (sphereStep_above sqrt FLT_MAX ray a j t st h
        (hl a (List.mem_cons_self a rest)))
      (fun b hb => hl b (List.mem_cons_of_mem a hb))

theorem planeLoop_above (FLT_MAX : K) (ray : Ray K) (t : K) (l : List (Plane K)) :
    ∀ (j : Int) (st : ClosestState K), ScanAbove t st →
      (∀ p ∈ l,
        Flt.lt (Flt.fin 0) (HitTest_Plane p ray (HitRecord.default FLT_MAX) false).2.t
          = true →
        Flt.lt (Flt.fin t) (HitTest_Plane p ray (HitRecord.default FLT_MAX) false).2.t
          = true) →
      ScanAbove t (planeLoop ray l j st) := by
  induction l with
  | nil =>
    intro j st h _
    exact h
  | cons a rest ih =>
    intro j st h hl
    unfold planeLoop
    exact ih _ _ (planeStep_above FLT_MAX ray a j t st h (hl a (List.mem_cons_self a rest)))
      (fun b hb => hl b (List.mem_cons_of_mem a hb))

/-- A sphere whose hit, if any, is not closer than `t` leaves the accepted candidate as it
is. -/
theorem sphereStep_at (sqrt : K → K) (FLT_MAX : K) (ray : Ray K) (a : Sphere K) (j : Int)
    (t : K) (i : Int) (b : Bool) (st : ClosestState K) (h : ScanAt t i b st)
    (ha : (HitTest_Sphere sqrt a ray (HitRecord.default FLT_MAX) false).1 = true →
      Flt.lt (Flt.fin 0) (HitTest_Sphere sqrt a ray (HitRecord.default FLT_MAX) false).2.t
        = true →
      Flt.le (Flt.fin t) (HitTest_Sphere sqrt a ray (HitRecord.default FLT_MAX) false).2.t
        = true) :
    ScanAt t i b (sphereStep sqrt ray a j st) := by
  obtain ⟨hsm, hi, hb, hstale⟩ := h
  have hrej : (Flt.lt (HitTest_Sphere sqrt a ray st.closestHit false).2.t st.smallestT
      && Flt.lt (Flt.fin 0) (HitTest_Sphere sqrt a ray st.closestHit false).2.t) = false := by
    rcases HitTest_Sphere_cases sqrt FLT_MAX a ray st.closestHit with ⟨hh, he⟩ | ⟨hh, he⟩
    · rw [he, hsm]
      cases hpos : Flt.lt (Flt.fin 0)
          (HitTest_Sphere sqrt a ray (HitRecord.default FLT_MAX) false).2.t
      · rw [Bool.and_false]
      · rw [Flt.not_lt_of_le (ha hh hpos), Bool.false_and]
    · rw [he]
      exact hstale
  rw [sphereStep_of_reject sqrt ray a j st _ _ rfl hrej]
  exact ⟨hsm, hi, hb, hrej⟩

/-- A plane whose quotient, if positive, is not below `t` leaves the accepted candidate as it
is. -/
theorem planeStep_at (FLT_MAX : K) (ray : Ray K) (p : Plane K) (j : Int) (t : K) (i : Int)
    (b : Bool) (st : ClosestState K) (h : ScanAt t i b st)
    (hp : Flt.lt (Flt.fin 0) (HitTest_Plane p ray (HitRecord.default FLT_MAX) false).2.t
        = true →
      Flt.le (Flt.fin t) (HitTest_Plane p ray (HitRecord.default FLT_MAX) false).2.t
        = true) :
    ScanAt t i b (planeStep ray p j st) := by
  obtain ⟨hsm, hi, hb, hstale⟩ := h
  have ht : (HitTest_Plane p ray st.closestHit false).2.t
      = (HitTest_Plane p ray (HitRecord.default FLT_MAX) false).2.t :=
    HitTest_Plane_t_indep p ray _ _ false false
  have hrej : (Flt.lt (HitTest_Plane p ray st.closestHit false).2.t st.smallestT
      && Flt.lt (Flt.fin 0) (HitTest_Plane p ray st.closestHit false).2.t) = false := by
    rw [ht, hsm]
    cases hpos : Flt.lt (Flt.fin 0)
        (HitTest_Plane p ray (HitRecord.default FLT_MAX) false).2.t
    · rw [Bool.and_false]
    · rw [Flt.not_lt_of_le (hp hpos), Bool.false_and]
  rw [planeStep_of_reject ray p j st hrej]
  exact ⟨hsm, hi, hb, hrej⟩

theorem sphereLoop_at (sqrt : K → K) (FLT_MAX : K) (ray : Ray K) (t : K) (i : Int) (b : Bool)
    (l : List (Sphere K)) :
    ∀ (j : Int) (st : ClosestState K), ScanAt t i b st →
      (∀ a ∈ l, (HitTest_Sphere sqrt a ray (HitRecord.default FLT_MAX) false).1 = true →
        Flt.lt (Flt.fin 0) (HitTest_Sphere sqrt a ray (HitRecord.default FLT_MAX) false).2.t
          = true →
        Flt.le (Flt.fin t) (HitTest_Sphere sqrt a ray (HitRecord.default FLT_MAX) false).2.t
          = true) →
      ScanAt t i b (sphereLoop sqrt ray l j st) := by
  induction l with
  | nil =>
    intro j st h _
    exact h
  | cons a rest ih =>
    intro j st h hl
    unfold sphereLoop
    exact ih _ _ (sphereStep_at sqrt FLT_MAX ray a j t i b st h
        (hl a (List.mem_cons_self a rest)))
      (fun c hc => hl c (List.mem_cons_of_mem a hc))

theorem planeLoop_at (FLT_MAX : K) (ray : Ray K) (t : K) (i : Int) (b : Bool)
    (l : List (Plane K)) :
    ∀ (j : Int) (st : ClosestState K), ScanAt t i b st →
      (∀ p ∈ l,
        Flt.lt (Flt.fin 0) (HitTest_Plane p ray (HitRecord.default FLT_MAX) false).2.t
          = true →
        Flt.le (Flt.fin t) (HitTest_Plane p ray (HitRecord.default FLT_MAX) false).2.t
          = true) →
      ScanAt t i b (planeLoop ray l j st) := by
  induction l with
  | nil =>
    intro j st h _
    exact h
  | cons a rest ih =>
    intro j st h hl
    unfold planeLoop
    exact ih _ _ (planeStep_at FLT_MAX ray a j t i b st h (hl a (List.mem_cons_self a rest)))
      (fun c hc => hl c (List.mem_cons_of_mem a hc))

/-- A sphere hit at `t`, below the smallest parameter so far, becomes the candidate. -/
theorem sphereStep_win (sqrt : K → K) (FLT_MAX : K) (ray : Ray K) (a : Sphere K) (j : Int)
    (t : K) (r : HitRecord K) (st : ClosestState K) (h : ScanAbove t st)
    (hr : HitTest_Sphere sqrt a ray (HitRecord.default FLT_MAX) false = (true, r))
    (hrt : r.t = Flt.fin t) (ht0 : 0 < t) :
    ScanAt t j st.planeCloser (sphereStep sqrt ray a j st) := by
  obtain ⟨⟨x, hx, htx⟩, _⟩ := h
  have hr2 : HitTest_Sphere sqrt a ray st.closestHit false = (true, r) := by
    rw [HitTest_Sphere_eq_of_hit sqrt a ray st.closestHit (HitRecord.default FLT_MAX)
      (by rw [hr])]
    exact hr
  have hc : (Flt.lt r.t st.smallestT && Flt.lt (Flt.fin 0) r.t) = true := by
    rw [hrt, hx]
    simp [Flt.lt, htx, ht0]
  rw [sphereStep_of_accept sqrt ray a j st r hr2 hc]
  refine ⟨hrt, rfl, rfl, ?_⟩
  show (Flt.lt r.t r.t && _) = false
  rw [Flt.lt_self, Bool.false_and]

/-- A plane hit at `t`, below the smallest parameter so far, becomes the candidate. -/
theorem planeStep_win (FLT_MAX : K) (ray : Ray K) (p : Plane K) (j : Int) (t : K)
    (r : HitRecord K) (st : ClosestState K) (h : ScanAbove t st)
    (hr : HitTest_Plane p ray (HitRecord.default FLT_MAX) false = (true, r))
    (hrt : r.t = Flt.fin t) (ht0 : 0 < t) :
    ScanAt t j true (planeStep ray p j st) := by
  obtain ⟨⟨x, hx, htx⟩, _⟩ := h
  have hr2 : HitTest_Plane p ray st.closestHit false = (true, r) := by
    rw [HitTest_Plane_eq_of_hit p ray st.closestHit (HitRecord.default FLT_MAX) (by rw [hr])]
    exact hr
  have hc : (Flt.lt (HitTest_Plane p ray st.closestHit false).2.t st.smallestT
      && Flt.lt (Flt.fin 0) (HitTest_Plane p ray st.closestHit false).2.t) = true := by
    rw [hr2, hrt, hx]
    simp [Flt.lt, htx, ht0]
  rw [planeStep_of_accept ray p j st hc, hr2]
  refine ⟨hrt, rfl, rfl, ?_⟩
  show (Flt.lt r.t r.t && _) = false
  rw [Flt.lt_self, Bool.false_and]

/-- Before the first test the smallest parameter is `FLT_MAX`. -/
theorem scanAbove_init (FLT_MAX : K) (t : K) (ht : t < FLT_MAX) :
    ScanAbove t
      { closestHit := HitRecord.default FLT_MAX, smallestT := (HitRecord.default FLT_MAX).t,
        closestIdx := -1, planeCloser := false } := by
  refine ⟨⟨FLT_MAX, rfl, ht⟩, ?_⟩
  show (Flt.lt (Flt.fin FLT_MAX) (Flt.fin FLT_MAX) && _) = false
  rw [Flt.lt_self, Bool.false_and]

end Scene

namespace Scene

variable {K : Type} [LinearOrderedField K]

open GeometryUtils

/-- The state after both loops when the first sphere to reach the smallest `t` is the one
at index `pre.length`. -/
theorem closestScan_sphere_first (sqrt : K → K) (FLT_MAX : K) (scene : Scene K) (ray : Ray K)
    (t : K) (r : HitRecord K) (ht0 : 0 < t) (htmax : t < FLT_MAX) (hrt : r.t = Flt.fin t)
    (pre : List (Sphere K)) (s : Sphere K) (post : List (Sphere K))
    (hss : scene.m_SphereGeometries = pre ++ s :: post)
    (hr : HitTest_Sphere sqrt s ray (HitRecord.default FLT_MAX) false = (true, r))
    (hpre : ∀ a ∈ pre, (HitTest_Sphere sqrt a ray (HitRecord.default FLT_MAX) false).1 = true →
      Flt.lt (Flt.fin 0) (HitTest_Sphere sqrt a ray (HitRecord.default FLT_MAX) false).2.t
        = true →
      Flt.lt (Flt.fin t) (HitTest_Sphere sqrt a ray (HitRecord.default FLT_MAX) false).2.t
        = true)
    (hpost : ∀ a ∈ post,
      (HitTest_Sphere sqrt a ray (HitRecord.default FLT_MAX) false).1 = true →
      Flt.lt (Flt.fin 0) (HitTest_Sphere sqrt a ray (HitRecord.default FLT_MAX) false).2.t
        = true →
      Flt.le (Flt.fin t) (HitTest_Sphere sqrt a ray (HitRecord.default FLT_MAX) false).2.t
        = true)
    (hplanes : ∀ p ∈ scene.m_PlaneGeometries,
      Flt.lt (Flt.fin 0) (HitTest_Plane p ray (HitRecord.default FLT_MAX) false).2.t = true →
      Flt.le (Flt.fin t) (HitTest_Plane p ray (HitRecord.default FLT_MAX) false).2.t = true) :
    ScanAt t (pre.length : Int) false
      (closestScan sqrt scene ray (HitRecord.default FLT_MAX)) := by
  unfold closestScan
  rw [hss, sphereLoop_append, zero_add]
  have h1 := sphereLoop_above sqrt FLT_MAX ray t pre 0 _ (scanAbove_init FLT_MAX t htmax) hpre
  have hpc := sphereLoop_planeCloser sqrt ray pre 0
    { closestHit := HitRecord.default FLT_MAX, smallestT := (HitRecord.default FLT_MAX).t,
      closestIdx := -1, planeCloser := false }
  have h2 := sphereStep_win sqrt FLT_MAX ray s (pre.length : Int) t r _ h1 hr hrt ht0
  rw [hpc] at h2
  have h3 := sphereLoop_at sqrt FLT_MAX ray t (pre.length : Int) false post
    ((pre.length : Int) + 1) _ h2 hpost
  exact planeLoop_at FLT_MAX ray t (pre.length : Int) false scene.m_PlaneGeometries 0 _ h3
    hplanes

/-- The state after both loops when no sphere reaches `t` or less and the first plane to
reach the smallest `t` is the one at index `pre.length`. -/
theorem closestScan_plane_first (sqrt : K → K) (FLT_MAX : K) (scene : Scene K) (ray : Ray K)
    (t : K) (r : HitRecord K) (ht0 : 0 < t) (htmax : t < FLT_MAX) (hrt : r.t = Flt.fin t)
    (pre : List (Plane K)) (p : Plane K) (post : List (Plane K))
    (hps : scene.m_PlaneGeometries = pre ++ p :: post)
    (hr : HitTest_Plane p ray (HitRecord.default FLT_MAX) false = (true, r))
    (hspheres : ∀ a ∈ scene.m_SphereGeometries,
      (HitTest_Sphere sqrt a ray (HitRecord.default FLT_MAX) false).1 = true →
      Flt.lt (Flt.fin 0) (HitTest_Sphere sqrt a ray (HitRecord.default FLT_MAX) false).2.t
        = true →
      Flt.lt (Flt.fin t) (HitTest_Sphere sqrt a ray (HitRecord.default FLT_MAX) false).2.t
        = true)
    (hpre : ∀ q ∈ pre,
      Flt.lt (Flt.fin 0) (HitTest_Plane q ray (HitRecord.default FLT_MAX) false).2.t = true →
      Flt.lt (Flt.fin t) (HitTest_Plane q ray (HitRecord.default FLT_MAX) false).2.t = true)
    (hpost : ∀ q ∈ post,
      Flt.lt (Flt.fin 0) (HitTest_Plane q ray (HitRecord.default FLT_MAX) false).2.t = true →
      Flt.le (Flt.fin t) (HitTest_Plane q ray (HitRecord.default FLT_MAX) false).2.t = true) :
    ScanAt t (pre.length : Int) true
      (closestScan sqrt scene ray (HitRecord.default FLT_MAX)) := by
  unfold closestScan
  rw [hps, planeLoop_append, zero_add]
  have h1 := sphereLoop_above sqrt FLT_MAX ray t scene.m_SphereGeometries 0 _
    (scanAbove_init FLT_MAX t htmax) hspheres
  have h2 := planeLoop_above FLT_MAX ray t pre 0 _ h1 hpre
  have h3 := planeStep_win FLT_MAX ray p (pre.length : Int) t r _ h2 hr hrt ht0
  exact planeLoop_at FLT_MAX ray t (pre.length : Int) true post ((pre.length : Int) + 1) _ h3
    hpost

theorem getElem?_append_cons_length {α : Type} (pre : List α) (x : α) (post : List α) :
    (pre ++ x :: post)[((pre.length : Int)).toNat]? = some x := by
  rw [Int.toNat_ofNat, List.getElem?_append_right (le_refl _), Nat.sub_self,
    List.getElem?_cons_zero]

/-- Tie-breaking when no candidate masks the hit: started on a default record, let a sphere
or plane of the scene be hit at a parameter `t` with `0 < t < FLT_MAX`.  If it is a sphere, every sphere before it that is
hit at a positive parameter is hit strictly beyond `t`, every sphere after it that is hit at
a positive parameter is hit at `t` or beyond, and the quotient `t` that `HitTest_Plane`
stores for each plane (whether it hits or misses) is not positive or is `t` or more, then
`GetClosestHit` leaves exactly that sphere's record (hit point, normal, materialIndex): a
sphere wins over a plane and over a later sphere hit at the same `t`.  If it is a plane,
every sphere hit at a positive parameter is hit strictly beyond `t`, the stored quotient of
every plane before it is not positive or strictly beyond `t`, and that of every plane after
it is not positive or `t` or more, then `GetClosestHit` leaves exactly that plane's record:
the plane wins over a later plane hit at the same `t`. -/
theorem GetClosestHit_first_wins (sqrt : K → K) (FLT_MAX : K) (scene : Scene K) (ray : Ray K)
    (t : K) (r : HitRecord K) (ht0 : 0 < t) (htmax : t < FLT_MAX) (hrt : r.t = Flt.fin t) :
    (∀ (pre : List (Sphere K)) (s : Sphere K) (post : List (Sphere K)),
      scene.m_SphereGeometries = pre ++ s :: post →
      HitTest_Sphere sqrt s ray (HitRecord.default FLT_MAX) false = (true, r) →
      (∀ a ∈ pre, (HitTest_Sphere sqrt a ray (HitRecord.default FLT_MAX) false).1 = true →
        Flt.lt (Flt.fin 0) (HitTest_Sphere sqrt a ray (HitRecord.default FLT_MAX) false).2.t
          = true →
        Flt.lt (Flt.fin t) (HitTest_Sphere sqrt a ray (HitRecord.default FLT_MAX) false).2.t
          = true) →
      (∀ a ∈ post, (HitTest_Sphere sqrt a ray (HitRecord.default FLT_MAX) false).1 = true →
        Flt.lt (Flt.fin 0) (HitTest_Sphere sqrt a ray (HitRecord.default FLT_MAX) false).2.t
          = true →
        Flt.le (Flt.fin t) (HitTest_Sphere sqrt a ray (HitRecord.default FLT_MAX) false).2.t
          = true) →
      (∀ p ∈ scene.m_PlaneGeometries,
        Flt.lt (Flt.fin 0) (HitTest_Plane p ray (HitRecord.default FLT_MAX) false).2.t
          = true →
        Flt.le (Flt.fin t) (HitTest_Plane p ray (HitRecord.default FLT_MAX) false).2.t
          = true) →
      GetClosestHit sqrt scene ray (HitRecord.default FLT_MAX) = r)
    ∧ (∀ (pre : List (Plane K)) (p : Plane K) (post : List (Plane K)),
      scene.m_PlaneGeometries = pre ++ p :: post →
      HitTest_Plane p ray (HitRecord.default FLT_MAX) false = (true, r) →
      (∀ a ∈ scene.m_SphereGeometries,
        (HitTest_Sphere sqrt a ray (HitRecord.default FLT_MAX) false).1 = true →
        Flt.lt (Flt.fin 0) (HitTest_Sphere sqrt a ray (HitRecord.default FLT_MAX) false).2.t
          = true →
        Flt.lt (Flt.fin t) (HitTest_Sphere sqrt a ray (HitRecord.default FLT_MAX) false).2.t
          = true) →
      (∀ q ∈ pre,
        Flt.lt (Flt.fin 0) (HitTest_Plane q ray (HitRecord.default FLT_MAX) false).2.t
          = true →
        Flt.lt (Flt.fin t) (HitTest_Plane q ray (HitRecord.default FLT_MAX) false).2.t
          = true) →
      (∀ q ∈ post,
        Flt.lt (Flt.fin 0) (HitTest_Plane q ray (HitRecord.default FLT_MAX) false).2.t
          = true →
        Flt.le (Flt.fin t) (HitTest_Plane q ray (HitRecord.default FLT_MAX) false).2.t
          = true) →
      GetClosestHit sqrt scene ray (HitRecord.default FLT_MAX) = r) := by
  have hne : ∀ n : Nat, (n : Int) ≠ -1 := by
    intro n
    omega
  constructor
  · intro pre s post hss hr hpre hpost hplanes
    obtain ⟨_, hi, hb, _⟩ := closestScan_sphere_first sqrt FLT_MAX scene ray t r ht0 htmax hrt
      pre s post hss hr hpre hpost hplanes
    have hget : scene.m_SphereGeometries[
        (closestScan sqrt scene ray (HitRecord.default FLT_MAX)).closestIdx.toNat]?
          = some s := by
      rw [hi, hss]
      exact getElem?_append_cons_length pre s post
    rw [GetClosestHit_of_sphere sqrt scene ray _ s (by rw [hi]; exact hne _) hb hget,
      HitTest_Sphere_eq_of_hit sqrt s ray _ (HitRecord.default FLT_MAX) (by rw [hr]), hr]
  · intro pre p post hps hr hspheres hpre hpost
    obtain ⟨_, hi, hb, _⟩ := closestScan_plane_first sqrt FLT_MAX scene ray t r ht0 htmax hrt
      pre p post hps hr hspheres hpre hpost
    have hget : scene.m_PlaneGeometries[
        (closestScan sqrt scene ray (HitRecord.default FLT_MAX)).closestIdx.toNat]?
          = some p := by
      rw [hi, hps]
      exact getElem?_append_cons_length pre p post
    rw [GetClosestHit_of_plane sqrt scene ray _ p (by rw [hi]; exact hne _) hb hget,
      HitTest_Plane_eq_of_hit p ray _ (HitRecord.default FLT_MAX) (by rw [hr]), hr]

/-- The unit sphere and the plane `z = -1` are both hit at `t = 4` by the ray from `(0,0,-5)`
along `(0,0,1)`; on the scene that holds only these two the sphere's record is returned. -/
theorem GetClosestHit_sceneTie :
    GetClosestHit Rat.sqrt sceneTie rayTowardsSphere (HitRecord.default fltMax)
      = { origin := ⟨0, 0, -1⟩, normal := ⟨0, 0, -1⟩, t := Flt.fin 4, didHit := true,
          materialIndex := 0 } :=
  (GetClosestHit_first_wins Rat.sqrt fltMax sceneTie rayTowardsSphere 4
    { origin := ⟨0, 0, -1⟩, normal := ⟨0, 0, -1⟩, t := Flt.fin 4, didHit := true,
      materialIndex := 0 }
    (by norm_num) (by norm_num [fltMax]) rfl).1 [] unitSphere [] rfl
    (HitTest_Sphere_rayTowardsSphere _)
    (fun a ha => absurd ha (List.not_mem_nil a))
    (fun a ha => absurd ha (List.not_mem_nil a))
    (by
      intro p hp _
      have h1 : p = tiePlane := List.mem_singleton.mp hp
      rw [h1, HitTest_Plane_tiePlane]
      simp [Flt.le])

/-- C26 (the code at the failing input): in the scene with the unit sphere (index 0,
material 0), the plane `z = -1` with normal `(0,0,1)` and material 1, and a plane `1/16384`
in front of the ray's origin, the ray from `(0,0,-5)` along `(0,0,1)` hits the sphere and the
first plane at the same smallest `t = 4` and misses the second plane, whose test stores
`t = 1/16384`; the plane loop accepts that `t` as the closest candidate, and `GetClosestHit`
leaves the first plane's normal `(0,0,1)` and material 1 with `didHit = false`, not the
record of the sphere, which was tested first.  `DoesHit` returns true for the same ray, and
on the scene without the second plane `GetClosestHit` returns the sphere's record. -/
theorem GetClosestHit_tie_not_first :
    sceneTieAndNearPlane.m_SphereGeometries = [unitSphere]
    ∧ sceneTieAndNearPlane.m_PlaneGeometries = [tiePlane, nearPlane]
    ∧ HitTest_Sphere Rat.sqrt unitSphere rayTowardsSphere (HitRecord.default fltMax) false
        = (true, { origin := ⟨0, 0, -1⟩, normal := ⟨0, 0, -1⟩, t := Flt.fin 4, didHit := true,
                   materialIndex := 0 })
    ∧ HitTest_Plane tiePlane rayTowardsSphere (HitRecord.default fltMax) false
        = (true, { origin := ⟨0, 0, -1⟩, normal := ⟨0, 0, 1⟩, t := Flt.fin 4, didHit := true,
                   materialIndex := 1 })
    ∧ HitTest_Plane nearPlane rayTowardsSphere (HitRecord.default fltMax) false
        = (false, { HitRecord.default fltMax with t := Flt.fin (1 / 16384), didHit := false })
    ∧ GetClosestHit Rat.sqrt sceneTieAndNearPlane rayTowardsSphere (HitRecord.default fltMax)
        = { origin := ⟨0, 0, -1⟩, normal := ⟨0, 0, 1⟩, t := Flt.fin (1 / 16384),
            didHit := false, materialIndex := 1 }
    ∧ GetClosestHit Rat.sqrt sceneTieAndNearPlane rayTowardsSphere (HitRecord.default fltMax)
        ≠ (HitTest_Sphere Rat.sqrt unitSphere rayTowardsSphere (HitRecord.default fltMax)
            false).2
    ∧ DoesHit Rat.sqrt fltMax sceneTieAndNearPlane rayTowardsSphere = true
    ∧ sceneTie.m_SphereGeometries = [unitSphere]
    ∧ sceneTie.m_PlaneGeometries = [tiePlane]
    ∧ GetClosestHit Rat.sqrt sceneTie rayTowardsSphere (HitRecord.default fltMax)
        = (HitTest_Sphere Rat.sqrt unitSphere rayTowardsSphere (HitRecord.default fltMax)
            false).2 := by
  have hs : sceneTieAndNearPlane.m_SphereGeometries = [unitSphere] := rfl
  have hp : sceneTieAndNearPlane.m_PlaneGeometries = [tiePlane, nearPlane] := rfl
  have hres : GetClosestHit Rat.sqrt sceneTieAndNearPlane rayTowardsSphere
      (HitRecord.default fltMax)
        = { origin := ⟨0, 0, -1⟩, normal := ⟨0, 0, 1⟩, t := Flt.fin (1 / 16384),
            didHit := false, materialIndex := 1 } := by
    unfold GetClosestHit closestScan
    rw [hs, hp]
    unfold sphereLoop sphereLoop planeLoop planeLoop planeLoop sphereStep planeStep
    simp only [HitTest_Sphere_rayTowardsSphere, HitTest_Plane_nearPlane,
      HitTest_Plane_tiePlane]
    norm_num [Flt.lt, HitRecord.default, fltMax, HitTest_Plane_nearPlane]
  refine ⟨hs, hp, HitTest_Sphere_rayTowardsSphere _, HitTest_Plane_tiePlane _,
    HitTest_Plane_nearPlane _, hres, ?_, ?_, rfl, rfl, ?_⟩
  · rw [hres, HitTest_Sphere_rayTowardsSphere]
    intro h
    have h2 := congrArg HitRecord.didHit h
    exact absurd h2 (by decide)
  · simp only [DoesHit, hs, hp, doesHitSphere]
    norm_num [Flt.lt, Flt.fdiv, Vector3.Dot, Vector3.sub_def, Vector3.smul_def, unitSphere,
      rayTowardsSphere, rat_sqrt_four, fltMax]
  · rw [GetClosestHit_sceneTie, HitTest_Sphere_rayTowardsSphere]

end Scene

/-! ## The light loop of the renderer (claim C25) -/

namespace Renderer

open GeometryUtils

theorem Magnitude_along_y (a : ℚ) (ha : 0 ≤ a) :
    Vector3.Magnitude Rat.sqrt ⟨0, a, 0⟩ = a := by
  unfold Vector3.Magnitude
  rw [show (0 : ℚ) * 0 + a * a + 0 * 0 = a * a by ring, Rat.sqrt_eq, abs_of_nonneg ha]

theorem Normalize_along_y (a : ℚ) (ha : 0 < a) :
    Vector3.Normalize Rat.sqrt ⟨0, a, 0⟩ = ⟨0, 1, 0⟩ := by
  simp only [Vector3.Normalize, Magnitude_along_y a ha.le, zero_div, div_self ha.ne.symm]

theorem HitTest_Sphere_viewRayToGround (r : HitRecord ℚ) :
    HitTest_Sphere Rat.sqrt highSphere viewRayToGround r false
      = (false, { r with didHit := false }) := by
  apply HitTest_Sphere_of_not_pos
  norm_num [discriminant, sphereA, sphereB, sphereC, Vector3.Dot, Vector3.sub_def,
    Vector3.smul_def, highSphere, viewRayToGround]

theorem HitTest_Plane_viewRayToGround (r : HitRecord ℚ) :
    HitTest_Plane groundPlane viewRayToGround r false = (true, groundHit) := by
  norm_num [Flt.lt, Flt.le, Flt.fdiv, HitTest_Plane, Vector3.Dot, Vector3.sub_def,
    Vector3.add_def, Vector3.smul_def, Vector3.scale, viewRayToGround, groundPlane, groundHit,
    fltMax]

theorem GetClosestHit_viewRayToGround (scene : Scene ℚ)
    (hs : scene.m_SphereGeometries = [highSphere])
    (hp : scene.m_PlaneGeometries = [groundPlane]) :
    Scene.GetClosestHit Rat.sqrt scene viewRayToGround (HitRecord.default fltMax)
      = groundHit := by
  unfold Scene.GetClosestHit Scene.closestScan
  rw [hs, hp]
  unfold Scene.sphereLoop Scene.sphereLoop Scene.planeLoop Scene.planeLoop Scene.sphereStep
    Scene.planeStep
  simp only [HitTest_Sphere_viewRayToGround, HitTest_Plane_viewRayToGround]
  norm_num [Flt.lt, HitRecord.default, fltMax, groundHit, HitTest_Plane_viewRayToGround]

theorem DoesHit_shadowRayLow (scene : Scene ℚ)
    (hs : scene.m_SphereGeometries = [highSphere])
    (hp : scene.m_PlaneGeometries = [groundPlane]) :
    Scene.DoesHit Rat.sqrt fltMax scene shadowRayLow = false := by
  simp only [Scene.DoesHit, hs, hp, Scene.doesHitSphere, HitTest_Plane2]
  norm_num [Flt.lt, Flt.le, Flt.fdiv, HitTest_Plane, Vector3.Dot, Vector3.sub_def,
    Vector3.smul_def, highSphere, groundPlane, shadowRayLow, Scene.rat_sqrt_four]

theorem DoesHit_shadowRayHigh (scene : Scene ℚ)
    (hs : scene.m_SphereGeometries = [highSphere]) :
    Scene.DoesHit Rat.sqrt fltMax scene shadowRayHigh = true := by
  simp only [Scene.DoesHit, hs, Scene.doesHitSphere]
  norm_num [Flt.lt, Flt.fdiv, Vector3.Dot, Vector3.sub_def,
    Vector3.smul_def, highSphere, shadowRayHigh, Scene.rat_sqrt_four]

theorem GetRadiance_lowLight :
    LightUtils.GetRadiance Rat.sqrt lowLight groundHit.origin = ⟨1, 1, 1⟩ := by
  have h : lowLight.origin - groundHit.origin = ⟨0, 3, 0⟩ := by
    norm_num [lowLight, groundHit, Vector3.sub_def]
  unfold LightUtils.GetRadiance
  rw [if_pos (show lowLight.type = LightType.Point from rfl)]
  simp only [h, Magnitude_along_y 3 (by norm_num)]
  norm_num [lowLight, ColorRGB.color_mul_scalar]

theorem GetRadiance_highLight :
    LightUtils.GetRadiance Rat.sqrt highLight groundHit.origin = ⟨1, 1, 1⟩ := by
  have h : highLight.origin - groundHit.origin = ⟨0, 10, 0⟩ := by
    norm_num [highLight, groundHit, Vector3.sub_def]
  unfold LightUtils.GetRadiance
  rw [if_pos (show highLight.type = LightType.Point from rfl)]
  simp only [h, Magnitude_along_y 10 (by norm_num)]
  norm_num [highLight, ColorRGB.color_mul_scalar]

theorem mul_scalar_def {K : Type} [LinearOrderedField K] (a : Vector3 K) (s : K) :
    a * s = ⟨a.x * s, a.y * s, a.z * s⟩ := rfl

theorem shadow_origin :
    groundHit.origin + groundHit.normal * (1 / 100 : ℚ) = ⟨0, 1 / 100, 0⟩ := by
  norm_num [groundHit, mul_scalar_def, Vector3.add_def]

theorem normal_groundHit : Vector3.Normalize Rat.sqrt groundHit.normal = ⟨0, 1, 0⟩ :=
  Normalize_along_y 1 (by norm_num)

/-- One turn of the light loop for `lowLight`: the light is not occluded. -/
theorem lightStep_lowLight (scene : Scene ℚ)
    (hs : scene.m_SphereGeometries = [highSphere])
    (hp : scene.m_PlaneGeometries = [groundPlane]) (c : ColorRGB ℚ) (lr : Ray ℚ) :
    lightStep Rat.sqrt powQ piQ fltMax scene viewRayToGround LightingMode.Radiance true
        ⟨c, groundHit, lr⟩ lowLight
      = ⟨c + ⟨1, 1, 1⟩, groundHit, shadowRayLow⟩ := by
  have hdir : LightUtils.GetDirectionToLight Rat.sqrt lowLight ⟨0, 1 / 100, 0⟩
      = ⟨0, 299 / 100, 0⟩ := by
    norm_num [LightUtils.GetDirectionToLight, lowLight, Vector3.sub_def]
  unfold lightStep
  simp only [shadow_origin, hdir, Magnitude_along_y (299 / 100) (by norm_num),
    Normalize_along_y (299 / 100) (by norm_num), GetRadiance_lowLight, normal_groundHit,
    contribution]
  rw [show Scene.DoesHit Rat.sqrt fltMax scene ⟨⟨0, 1 / 100, 0⟩, ⟨0, 1, 0⟩, 1 / 10000, 299 / 100⟩
    = false from DoesHit_shadowRayLow scene hs hp]
  rfl

/-- One turn of the light loop for `highLight`: the light is occluded by `highSphere`. -/
theorem lightStep_highLight (scene : Scene ℚ)
    (hs : scene.m_SphereGeometries = [highSphere]) (c : ColorRGB ℚ) (lr : Ray ℚ) :
    lightStep Rat.sqrt powQ piQ fltMax scene viewRayToGround LightingMode.Radiance true
        ⟨c, groundHit, lr⟩ highLight
      = ⟨(c + ⟨1, 1, 1⟩) * (1 / 2 : ℚ), groundHit, shadowRayHigh⟩ := by
  have hdir : LightUtils.GetDirectionToLight Rat.sqrt highLight ⟨0, 1 / 100, 0⟩
      = ⟨0, 999 / 100, 0⟩ := by
    norm_num [LightUtils.GetDirectionToLight, highLight, Vector3.sub_def]
  unfold lightStep
  simp only [shadow_origin, hdir, Magnitude_along_y (999 / 100) (by norm_num),
    Normalize_along_y (999 / 100) (by norm_num), GetRadiance_highLight, normal_groundHit,
    contribution]
  rw [show Scene.DoesHit Rat.sqrt fltMax scene ⟨⟨0, 1 / 100, 0⟩, ⟨0, 1, 0⟩, 1 / 10000, 999 / 100⟩
    = true from DoesHit_shadowRayHigh scene hs]
  rfl

/-- C25 (the code at the failing input): the plane `y = 0`, the sphere of radius 1 at
`(0,5,0)`, a white point light of intensity 9 at `(0,3,0)` and one of intensity 100 at
`(0,10,0)`; the view ray from `(3,4,0)` along `(-3/5,-4/5,0)` hits the plane at the origin.
In `Radiance` mode with shadows enabled each light contributes `(1,1,1)`; the shadow ray
towards the first light is not occluded and the one towards the second is (by the sphere).
The loop leaves `((0 + 1) + 1) * 0.5 = (1,1,1)`: the halving for the second light halves the
first light's contribution as well, where the sum with only the occluded contribution
halved is `1 + 0.5 = (1.5,1.5,1.5)`.  With the two lights added in the other order the loop
leaves `(0 + 1) * 0.5 + 1 = (1.5,1.5,1.5)`, so the result depends on the order. -/
theorem accumulatedColor_halves_earlier_lights :
    (Scene.GetClosestHit Rat.sqrt sceneTwoLights viewRayToGround
        (HitRecord.default fltMax)).didHit = true
    ∧ sceneTwoLights.m_Lights = [lowLight, highLight]
    ∧ sceneTwoLightsSwapped.m_Lights = [highLight, lowLight]
    ∧ (lightStep Rat.sqrt powQ piQ fltMax sceneTwoLights viewRayToGround
        LightingMode.Radiance true ⟨⟨0, 0, 0⟩, groundHit, defaultRay fltMax⟩ lowLight).lightRay
        = shadowRayLow
    ∧ (lightStep Rat.sqrt powQ piQ fltMax sceneTwoLights viewRayToGround
        LightingMode.Radiance true ⟨⟨0, 0, 0⟩, groundHit, defaultRay fltMax⟩ highLight).lightRay
        = shadowRayHigh
    ∧ Scene.DoesHit Rat.sqrt fltMax sceneTwoLights shadowRayLow = false
    ∧ Scene.DoesHit Rat.sqrt fltMax sceneTwoLights shadowRayHigh = true
    ∧ contribution LightingMode.Radiance
        (LightUtils.GetRadiance Rat.sqrt lowLight groundHit.origin) ⟨1, 0, 0⟩ 1
        = some ⟨1, 1, 1⟩
    ∧ contribution LightingMode.Radiance
        (LightUtils.GetRadiance Rat.sqrt highLight groundHit.origin) ⟨1, 0, 0⟩ 1
        = some ⟨1, 1, 1⟩
    ∧ accumulatedColor Rat.sqrt powQ piQ fltMax sceneTwoLights viewRayToGround
        LightingMode.Radiance true = ⟨1, 1, 1⟩
    ∧ accumulatedColor Rat.sqrt powQ piQ fltMax sceneTwoLights viewRayToGround
        LightingMode.Radiance true
        ≠ (⟨1, 1, 1⟩ : ColorRGB ℚ) + (⟨1, 1, 1⟩ : ColorRGB ℚ) * (1 / 2 : ℚ)
    ∧ accumulatedColor Rat.sqrt powQ piQ fltMax sceneTwoLightsSwapped viewRayToGround
        LightingMode.Radiance true = ⟨3 / 2, 3 / 2, 3 / 2⟩ := by
  have hs : sceneTwoLights.m_SphereGeometries = [highSphere] := rfl
  have hp : sceneTwoLights.m_PlaneGeometries = [groundPlane] := rfl
  have hl : sceneTwoLights.m_Lights = [lowLight, highLight] := rfl
  have hs2 : sceneTwoLightsSwapped.m_SphereGeometries = [highSphere] := rfl
  have hp2 : sceneTwoLightsSwapped.m_PlaneGeometries = [groundPlane] := rfl
  have hl2 : sceneTwoLightsSwapped.m_Lights = [highLight, lowLight] := rfl
  have hhit := GetClosestHit_viewRayToGround sceneTwoLights hs hp
  have hhit2 := GetClosestHit_viewRayToGround sceneTwoLightsSwapped hs2 hp2
  have hd : groundHit.didHit = true := rfl
  have hacc : accumulatedColor Rat.sqrt powQ piQ fltMax sceneTwoLights viewRayToGround
      LightingMode.Radiance true = ⟨1, 1, 1⟩ := by
    unfold accumulatedColor
    dsimp only
    rw [hhit, if_pos hd, hl, List.foldl, List.foldl, List.foldl,
      lightStep_lowLight sceneTwoLights hs hp, lightStep_highLight sceneTwoLights hs]
    norm_num [ColorRGB.color_add, ColorRGB.color_mul_scalar]
  have hacc2 : accumulatedColor Rat.sqrt powQ piQ fltMax sceneTwoLightsSwapped
      viewRayToGround LightingMode.Radiance true = ⟨3 / 2, 3 / 2, 3 / 2⟩ := by
    unfold accumulatedColor
    dsimp only
    rw [hhit2, if_pos hd, hl2, List.foldl, List.foldl, List.foldl,
      lightStep_highLight sceneTwoLightsSwapped hs2,
      lightStep_lowLight sceneTwoLightsSwapped hs2 hp2]
    norm_num [ColorRGB.color_add, ColorRGB.color_mul_scalar]
  refine ⟨by rw [hhit, hd], hl, hl2, ?_, ?_, DoesHit_shadowRayLow _ hs hp,
    DoesHit_shadowRayHigh _ hs, ?_, ?_, hacc, ?_, hacc2⟩
  · rw [lightStep_lowLight sceneTwoLights hs hp]
  · rw [lightStep_highLight sceneTwoLights hs]
  · rw [GetRadiance_lowLight]
    rfl
  · rw [GetRadiance_highLight]
    rfl
  · rw [hacc]
    norm_num [ColorRGB.color_add, ColorRGB.color_mul_scalar]

end Renderer

/-! ## `Shade` on floats that may be non-finite (claim C15) -/

namespace Flt

variable {K : Type} [LinearOrderedField K]

theorem mul_nan (a : Flt K) : mul a nan = nan := by
  cases a <;> rfl

theorem add_nan (a : Flt K) : add a nan = nan := by
  cases a <;> rfl

theorem div_nan (a : Flt K) : div a nan = nan := by
  cases a <;> rfl

theorem lt_nan (a : Flt K) : lt a nan = false := by
  cases a <;> rfl

theorem mul_fin (a b : K) : mul (fin a) (fin b) = fin (a * b) := rfl

theorem add_fin (a b : K) : add (fin a) (fin b) = fin (a + b) := rfl

theorem sub_fin (a b : K) : sub (fin a) (fin b) = fin (a - b) := by
  show fin (a + -b) = fin (a - b)
  rw [sub_eq_add_neg]

theorem div_fin (a : K) {b : K} (h : b ≠ 0) : div (fin a) (fin b) = fin (a / b) :=
  fdiv_of_ne a h

theorem sqrtf_fin (sqrt : K → K) {a : K} (h : 0 ≤ a) : sqrtf sqrt (fin a) = fin (sqrt a) := by
  show (if a < 0 then nan else fin (sqrt a)) = fin (sqrt a)
  rw [if_neg (not_lt.mpr h)]

end Flt

namespace Ieee

variable {K : Type} [LinearOrderedField K]

namespace Vec

theorem Dot_ofFinite (a b : Vector3 K) :
    Dot (ofFinite a) (ofFinite b) = Flt.fin (Vector3.Dot a b) := rfl

theorem Magnitude_ofFinite (sqrt : K → K) (v : Vector3 K) :
    Magnitude sqrt (ofFinite v) = Flt.fin (Vector3.Magnitude sqrt v) := by
  unfold Magnitude ofFinite
  simp only [Flt.mul_fin, Flt.add_fin]
  exact Flt.sqrtf_fin sqrt (Vector3.Dot_self_nonneg v)

/-- On a vector of non-zero magnitude the float quotients of `Normalized` are the finite
ones. -/
theorem Normalized_ofFinite (sqrt : K → K) (v : Vector3 K)
    (hm : Vector3.Magnitude sqrt v ≠ 0) :
    Normalized sqrt (ofFinite v) = ofFinite (Vector3.Normalized sqrt v) := by
  unfold Normalized
  rw [Magnitude_ofFinite]
  simp only [ofFinite, Flt.div_fin _ hm, Vector3.Normalized]

/-- On a vector of finite components `Vec.Normalized` is the `Normalized` of the geometry
term's embedding. -/
theorem Normalized_ofFinite_eq (sqrt : K → K) (v : Vector3 K) :
    Normalized sqrt (ofFinite v) = Ieee.Normalized sqrt v := by
  unfold Normalized
  rw [Magnitude_ofFinite]
  rfl

/-- On a vector of magnitude zero whose components are zero, `Normalized` yields NaN in every
component. -/
theorem Normalized_zero (sqrt : K → K) (hs : sqrt 0 = 0) :
    Normalized sqrt (ofFinite (⟨0, 0, 0⟩ : Vector3 K)) = ⟨Flt.nan, Flt.nan, Flt.nan⟩ := by
  unfold Normalized
  rw [Magnitude_ofFinite]
  have hm : Vector3.Magnitude sqrt (⟨0, 0, 0⟩ : Vector3 K) = 0 := by
    unfold Vector3.Magnitude
    simp only [mul_zero, add_zero]
    exact hs
  rw [hm]
  simp [ofFinite, Flt.div, Flt.fdiv]

/-- Normalizing a vector of NaN components yields NaN components. -/
theorem Normalized_nan (sqrt : K → K) :
    Normalized sqrt (⟨Flt.nan, Flt.nan, Flt.nan⟩ : Vector3 (Flt K))
      = ⟨Flt.nan, Flt.nan, Flt.nan⟩ := by
  simp only [Normalized, Flt.nan_div]

theorem Dot_nan_left (b : Vector3 (Flt K)) :
    Dot (⟨Flt.nan, Flt.nan, Flt.nan⟩ : Vector3 (Flt K)) b = Flt.nan := by
  simp only [Dot, Flt.nan_mul, Flt.nan_add]

end Vec

namespace Color

theorem MaxToOne_ofFinite (c : ColorRGB K) :
    MaxToOne (ofFinite c) = ofFinite (ColorRGB.MaxToOne c) := by
  unfold MaxToOne ColorRGB.MaxToOne
  simp only [ofFinite, Flt.max_fin, Flt.lt, decide_eq_true_eq, gt_iff_lt]
  split_ifs with h
  · have hne : max c.r (max c.g c.b) ≠ 0 := (lt_trans zero_lt_one h).ne.symm
    simp only [div, Flt.div_fin _ hne, ColorRGB.color_div]
  · rfl

theorem MaxToOne_nan :
    MaxToOne (⟨Flt.nan, Flt.nan, Flt.nan⟩ : ColorRGB (Flt K)) = ⟨Flt.nan, Flt.nan, Flt.nan⟩ := by
  unfold MaxToOne
  simp only [Flt.nan_max, Flt.lt_nan]
  rfl

end Color

namespace Shading

/-- On vectors of finite components the geometry term of this section is the one of the
embedding on finite vectors. -/
theorem GeometryFunction_SchlickGGX_ofFinite (sqrt : K → K) (n v : Vector3 K)
    (roughness : K) :
    GeometryFunction_SchlickGGX sqrt (Vec.ofFinite n) (Vec.ofFinite v) roughness
      = Ieee.GeometryFunction_SchlickGGX sqrt n v roughness := by
  unfold GeometryFunction_SchlickGGX Ieee.GeometryFunction_SchlickGGX
  rw [Vec.Normalized_ofFinite_eq, Vec.Normalized_ofFinite_eq]

/-- With a NaN normal the normal distribution term is NaN. -/
theorem NormalDistribution_GGX_nan (sqrt : K → K) (M_PI : K) (h : Vector3 (Flt K))
    (roughness : K) :
    NormalDistribution_GGX sqrt M_PI ⟨Flt.nan, Flt.nan, Flt.nan⟩ h roughness = Flt.nan := by
  unfold NormalDistribution_GGX
  simp only [Vec.Normalized_nan, Vec.Dot_nan_left, Flt.nan_max, Flt.nan_mul, Flt.nan_add,
    Flt.mul_nan, Flt.div_nan]

end Shading

namespace CookTorrence

/-- When the normal distribution term is NaN, so is every channel of the colour `Shade`
returns. -/
theorem Shade_nan_of_D_nan (sqrt : K → K) (pow : K → K → K) (M_PI : K) (m_Albedo : ColorRGB K)
    (m_Metalness m_Roughness : K) (hitRecord : HitRecord K) (l v : Vector3 K)
    (hD : Shading.NormalDistribution_GGX sqrt M_PI
        (Vec.Normalized sqrt (Vec.ofFinite hitRecord.normal))
        (Vec.Normalized sqrt (Vec.ofFinite (v + l))) m_Roughness = Flt.nan) :
    Shade sqrt pow M_PI m_Albedo m_Metalness m_Roughness hitRecord l v
      = ⟨Flt.nan, Flt.nan, Flt.nan⟩ := by
  have hs : specular sqrt pow M_PI m_Albedo m_Metalness m_Roughness hitRecord l v
      = ⟨Flt.nan, Flt.nan, Flt.nan⟩ := by
    unfold specular
    simp only [hD, Color.scale, Color.div, Flt.mul_nan, Flt.nan_mul, Flt.nan_div]
  unfold Shade
  simp only [hs, Color.add, Flt.add_nan]
  exact Color.MaxToOne_nan

theorem Magnitude_unitZ : Vector3.Magnitude Rat.sqrt unitZ = 1 := by
  simp only [Vector3.Magnitude, unitZ]
  norm_num [dae.BRDF.rat_sqrt_one_eq]

theorem Magnitude_two_unitZ : Vector3.Magnitude Rat.sqrt (unitZ + unitZ) = 2 := by
  simp only [Vector3.Magnitude, Vector3.add_def, unitZ]
  norm_num [dae.BRDF.rat_sqrt_four_eq]

theorem Normalized_ofFinite_unitZ :
    Vec.Normalized Rat.sqrt (Vec.ofFinite unitZ) = Vec.ofFinite unitZ := by
  rw [Vec.Normalized_ofFinite Rat.sqrt unitZ (by rw [Magnitude_unitZ]; norm_num),
    dae.BRDF.Normalized_unitZ]

theorem Normalized_ofFinite_two_unitZ :
    Vec.Normalized Rat.sqrt (Vec.ofFinite (unitZ + unitZ)) = Vec.ofFinite unitZ := by
  rw [Vec.Normalized_ofFinite Rat.sqrt _ (by rw [Magnitude_two_unitZ]; norm_num),
    dae.Material_CookTorrence.Normalized_two_unitZ]

theorem Normalized_ofFinite_hitFacingZ :
    Vec.Normalized Rat.sqrt (Vec.ofFinite hitFacingZ.normal) = Vec.ofFinite unitZ :=
  Normalized_ofFinite_unitZ

theorem max_fin_one_small :
    Flt.max (Flt.fin (1 : ℚ)) (Flt.fin (1 / 10000)) = Flt.fin 1 := by
  rw [Flt.max_fin, dae.Material_CookTorrence.max_one_small]

/-- The normal distribution term at roughness 0 with `n = h = (0,0,1)`: `0 / 0`. -/
theorem NormalDistribution_GGX_mirror :
    Shading.NormalDistribution_GGX Rat.sqrt piQ (Vec.ofFinite unitZ) (Vec.ofFinite unitZ) 0
      = Flt.nan := by
  unfold Shading.NormalDistribution_GGX
  simp only [Normalized_ofFinite_unitZ, Vec.Dot_ofFinite, dae.BRDF.Dot_unitZ, max_fin_one_small,
    Flt.mul_fin, Flt.add_fin, Square]
  norm_num [Flt.div, Flt.fdiv]

/-- C15 (counterexample): with white albedo, metalness 1 and `l = v = (0,0,1)`, (a) for the
normal `n = (0,0,1)` and roughness 0 the vectors `n`, `v`, `l`, `h` are unit vectors, the
normal distribution term is `0 / (π·0)` = NaN, and (b) for the zero normal and roughness 1
the magnitude `Normalized` divides by is 0 and the normal is NaN; in both cases every channel
of the colour `Shade` returns is NaN, which is not a value that is at most 1. -/
theorem Shade_nan_channels :
    Vector3.Magnitude Rat.sqrt unitZ = 1
    ∧ Vector3.Magnitude Rat.sqrt (unitZ + unitZ) = 2
    ∧ Shading.NormalDistribution_GGX Rat.sqrt piQ
        (Vec.Normalized Rat.sqrt (Vec.ofFinite hitFacingZ.normal))
        (Vec.Normalized Rat.sqrt (Vec.ofFinite (unitZ + unitZ))) 0 = Flt.nan
    ∧ Shade Rat.sqrt powQ piQ whiteAlbedo 1 0 hitFacingZ unitZ unitZ
        = ⟨Flt.nan, Flt.nan, Flt.nan⟩
    ∧ Vector3.Magnitude Rat.sqrt hitZeroNormal.normal = 0
    ∧ Vec.Normalized Rat.sqrt (Vec.ofFinite hitZeroNormal.normal)
        = ⟨Flt.nan, Flt.nan, Flt.nan⟩
    ∧ Shade Rat.sqrt powQ piQ whiteAlbedo 1 1 hitZeroNormal unitZ unitZ
        = ⟨Flt.nan, Flt.nan, Flt.nan⟩
    ∧ Flt.le (Flt.nan : Flt ℚ) (Flt.fin 1) = false
    ∧ ∀ c : ColorRGB ℚ,
        Shade Rat.sqrt powQ piQ whiteAlbedo 1 0 hitFacingZ unitZ unitZ ≠ Color.ofFinite c := by
  have hs0 : Rat.sqrt 0 = 0 := by
    rw [show (0 : ℚ) = 0 * 0 by norm_num, Rat.sqrt_eq]
    norm_num
  have hD : Shading.NormalDistribution_GGX Rat.sqrt piQ
      (Vec.Normalized Rat.sqrt (Vec.ofFinite hitFacingZ.normal))
      (Vec.Normalized Rat.sqrt (Vec.ofFinite (unitZ + unitZ))) 0 = Flt.nan := by
    rw [Normalized_ofFinite_hitFacingZ, Normalized_ofFinite_two_unitZ]
    exact NormalDistribution_GGX_mirror
  have hn : Vec.Normalized Rat.sqrt (Vec.ofFinite hitZeroNormal.normal)
      = ⟨Flt.nan, Flt.nan, Flt.nan⟩ := Vec.Normalized_zero Rat.sqrt hs0
  have h1 := Shade_nan_of_D_nan Rat.sqrt powQ piQ whiteAlbedo 1 0 hitFacingZ unitZ unitZ hD
  refine ⟨Magnitude_unitZ, Magnitude_two_unitZ, hD, h1, ?_, hn, ?_, rfl, ?_⟩
  · show Rat.sqrt ((0 : ℚ) * 0 + 0 * 0 + 0 * 0) = 0
    rw [show ((0 : ℚ) * 0 + 0 * 0 + 0 * 0) = 0 by norm_num]
    exact hs0
  · apply Shade_nan_of_D_nan
    rw [hn]
    exact Shading.NormalDistribution_GGX_nan _ _ _ _
  · intro c hc
    rw [h1] at hc
    have h2 := congrArg ColorRGB.r hc
    exact Flt.noConfusion h2

/-- C15 (amended): for every Cook-Torrance material and all inputs for which
`diffuse + specular` is a colour `s` with finite channels (no quotient of `Shade` yields NaN
or an infinity), every channel of the colour `Shade` returns is finite and at most 1: when
the largest channel `m` of `s` exceeds 1 the result is `s / m`, all three channels divided by
`m`, and otherwise it is `s` unchanged. -/
theorem Shade_le_one_of_finite (sqrt : K → K) (pow : K → K → K) (M_PI : K)
    (m_Albedo : ColorRGB K) (m_Metalness m_Roughness : K) (hitRecord : HitRecord K)
    (l v : Vector3 K) (s : ColorRGB K)
    (hfin : Color.add (diffuse sqrt pow M_PI m_Albedo m_Metalness l v)
        (specular sqrt pow M_PI m_Albedo m_Metalness m_Roughness hitRecord l v)
      = Color.ofFinite s) :
    Shade sqrt pow M_PI m_Albedo m_Metalness m_Roughness hitRecord l v
        = Color.ofFinite (ColorRGB.MaxToOne s)
    ∧ (ColorRGB.MaxToOne s).r ≤ 1 ∧ (ColorRGB.MaxToOne s).g ≤ 1 ∧ (ColorRGB.MaxToOne s).b ≤ 1
    ∧ (1 < max s.r (max s.g s.b) →
        Shade sqrt pow M_PI m_Albedo m_Metalness m_Roughness hitRecord l v
          = Color.ofFinite ⟨s.r / max s.r (max s.g s.b), s.g / max s.r (max s.g s.b),
              s.b / max s.r (max s.g s.b)⟩)
    ∧ (max s.r (max s.g s.b) ≤ 1 →
        Shade sqrt pow M_PI m_Albedo m_Metalness m_Roughness hitRecord l v
          = Color.ofFinite s) := by
  have h : Shade sqrt pow M_PI m_Albedo m_Metalness m_Roughness hitRecord l v
      = Color.ofFinite (ColorRGB.MaxToOne s) := by
    unfold Shade
    dsimp only
    rw [hfin, Color.MaxToOne_ofFinite]
  obtain ⟨hr, hg, hb⟩ := ColorRGB.MaxToOne_le_one s
  refine ⟨h, hr, hg, hb, ?_, ?_⟩
  · intro hm
    rw [h, ColorRGB.MaxToOne_of_gt s hm, ColorRGB.color_div]
  · intro hm
    rw [h, ColorRGB.MaxToOne_of_le s hm]

/-- The Fresnel term at `l = v = (0,0,1)` for metalness `1/2`. -/
theorem fresnel_half_metal :
    fresnel Rat.sqrt powQ whiteAlbedo (1 / 2) unitZ unitZ
      = Color.ofFinite ⟨4 / 100, 4 / 100, 4 / 100⟩ := by
  have hf0 : dae.Material_CookTorrence.f0 whiteAlbedo (1 / 2 : ℚ)
      = ⟨4 / 100, 4 / 100, 4 / 100⟩ := by
    unfold dae.Material_CookTorrence.f0
    rw [if_neg (by norm_num)]
  unfold fresnel Shading.FresnelFunction_Schlick
  simp only [Normalized_ofFinite_two_unitZ, Normalized_ofFinite_unitZ, Vec.Dot_ofFinite,
    dae.BRDF.Dot_unitZ, max_fin_one_small, Flt.sub_fin, Flt.powf, sub_self,
    dae.BRDF.powQ_zero_five, hf0, Color.scale, Color.add, Color.ofFinite, Flt.mul_fin,
    Flt.add_fin, mul_zero, add_zero]
  have hm := Color.MaxToOne_ofFinite (⟨4 / 100, 4 / 100, 4 / 100⟩ : ColorRGB ℚ)
  rw [ColorRGB.MaxToOne_of_le _ (by norm_num)] at hm
  exact hm

/-- The specular term at `l = v = n = (0,0,1)`, roughness 1, metalness `1/2`: `1 / (100 π)`
on every channel, with no zero divisor on the way. -/
theorem specular_half_metal :
    specular Rat.sqrt powQ piQ whiteAlbedo (1 / 2) 1 hitFacingZ unitZ unitZ
      = Color.ofFinite ⟨1 / (100 * piQ), 1 / (100 * piQ), 1 / (100 * piQ)⟩ := by
  unfold specular Shading.NormalDistribution_GGX Shading.GeometryFunction_Smith
    Shading.GeometryFunction_SchlickGGX
  simp only [fresnel_half_metal, Normalized_ofFinite_two_unitZ, Normalized_ofFinite_hitFacingZ,
    Normalized_ofFinite_unitZ, Vec.Dot_ofFinite, dae.BRDF.Dot_unitZ, max_fin_one_small,
    Flt.mul_fin, Flt.add_fin, Square, Color.scale, Color.div, Color.ofFinite]
  norm_num [Flt.div, Flt.fdiv, piQ, Flt.mul_fin]

/-- Witness for the amended C15: at `l = v = n = (0,0,1)`, white albedo, metalness `1/2`,
roughness 1, `diffuse + specular` is finite, its largest channel is below 1 and `Shade`
returns it unchanged. -/
theorem Shade_le_one_of_finite_witness :
    Shade Rat.sqrt powQ piQ whiteAlbedo (1 / 2) 1 hitFacingZ unitZ unitZ
      = Color.ofFinite ⟨1 / (100 * piQ), 1 / (100 * piQ), 1 / (100 * piQ)⟩ :=
  (Shade_le_one_of_finite Rat.sqrt powQ piQ whiteAlbedo (1 / 2) 1 hitFacingZ unitZ unitZ
    ⟨1 / (100 * piQ), 1 / (100 * piQ), 1 / (100 * piQ)⟩
    (by
      have hd : diffuse Rat.sqrt powQ piQ whiteAlbedo (1 / 2) unitZ unitZ
          = Color.ofFinite ⟨0, 0, 0⟩ := by
        unfold diffuse
        simp only [show (1 / 2 : ℚ) ≠ 0 by norm_num, if_false]
      rw [hd, specular_half_metal]
      simp only [Color.add, Color.ofFinite, Flt.add_fin, zero_add])).2.2.2.2.2
    (by norm_num [piQ])

end CookTorrence

end Ieee

/-! ## The plane test with an infinite bound (claim C27) -/

namespace Unbounded

variable {K : Type} [LinearOrderedField K]

open GeometryUtils

/-- For finite bounds the plane test on floats that may be non-finite is the plane test of
`GeometryUtils`. -/
theorem HitTest_Plane_ofFinite (plane : Plane K) (ray : dae.Ray K) (r : dae.HitRecord K)
    (ignoreHitRecord : Bool) :
    HitTest_Plane plane (Ray.ofFinite ray) (HitRecord.ofFinite r) ignoreHitRecord
      = ((GeometryUtils.HitTest_Plane plane ray r ignoreHitRecord).1,
         HitRecord.ofFinite (GeometryUtils.HitTest_Plane plane ray r ignoreHitRecord).2) := by
  unfold HitTest_Plane GeometryUtils.HitTest_Plane
  dsimp only [Ray.ofFinite, HitRecord.ofFinite]
  split_ifs with hc
  · rw [Flt.le_le_fin] at hc
    obtain ⟨x, hx, _, _⟩ := hc
    simp only [hx, Vector3.scale_fin, Vector3.add_def, Vector3.smul_def]
    rfl
  · rfl

/-- C27 (the code at the failing input): for the plane `y = 0` and the ray from `(0,-1,0)`
along `(1,0,0)`, parallel to it, with `min = 0.0001` and `max = +∞`, the quotient is
`1 / 0 = +∞`; the strict test `t < ray.max && t > ray.min` of Utils.h:61 is false, but the
closed test `t >= ray.min && t <= ray.max` of Utils.h:65 is true, and `HitTest_Plane` returns
true with `didHit = true`, `t = +∞` and the hit point `(+∞, NaN, NaN)`.  With `max = FLT_MAX`
the same ray misses. -/
theorem HitTest_Plane_parallel_hit_unbounded :
    Vector3.Dot rayBelowGroundUnbounded.direction groundPlane.normal = 0
    ∧ Flt.fdiv (Vector3.Dot (groundPlane.origin - rayBelowGroundUnbounded.origin)
          groundPlane.normal)
        (Vector3.Dot rayBelowGroundUnbounded.direction groundPlane.normal) = Flt.pinf
    ∧ (Flt.lt (Flt.pinf : Flt ℚ) rayBelowGroundUnbounded.max
        && Flt.lt rayBelowGroundUnbounded.min Flt.pinf) = false
    ∧ (Flt.le rayBelowGroundUnbounded.min (Flt.pinf : Flt ℚ)
        && Flt.le Flt.pinf rayBelowGroundUnbounded.max) = true
    ∧ HitTest_Plane groundPlane rayBelowGroundUnbounded
        (HitRecord.ofFinite (dae.HitRecord.default fltMax)) false
        = (true, { origin := ⟨Flt.pinf, Flt.nan, Flt.nan⟩, normal := ⟨0, 1, 0⟩, t := Flt.pinf,
                   didHit := true, materialIndex := 0 })
    ∧ HitTest_Plane groundPlane { rayBelowGroundUnbounded with max := Flt.fin fltMax }
        (HitRecord.ofFinite (dae.HitRecord.default fltMax)) false
        = (false, { HitRecord.ofFinite (dae.HitRecord.default fltMax) with
                    t := Flt.pinf, didHit := false }) := by
  have hdot : Vector3.Dot rayBelowGroundUnbounded.direction groundPlane.normal = 0 := by
    norm_num [Vector3.Dot, rayBelowGroundUnbounded, groundPlane]
  have ht : Flt.fdiv (Vector3.Dot (groundPlane.origin - rayBelowGroundUnbounded.origin)
        groundPlane.normal)
      (Vector3.Dot rayBelowGroundUnbounded.direction groundPlane.normal) = Flt.pinf := by
    norm_num [Flt.fdiv, Vector3.Dot, Vector3.sub_def, rayBelowGroundUnbounded, groundPlane]
  have ht2 : Flt.fdiv
      (Vector3.Dot (groundPlane.origin
        - ({ rayBelowGroundUnbounded with max := Flt.fin fltMax } : Ray ℚ).origin)
        groundPlane.normal)
      (Vector3.Dot ({ rayBelowGroundUnbounded with max := Flt.fin fltMax } : Ray ℚ).direction
        groundPlane.normal) = Flt.pinf := ht
  refine ⟨hdot, ht, rfl, rfl, ?_, ?_⟩
  · unfold HitTest_Plane
    simp only [ht]
    norm_num [Flt.le, Flt.lt, Flt.mul, Flt.add, rayBelowGroundUnbounded, groundPlane,
      HitRecord.ofFinite, dae.HitRecord.default]
  · unfold HitTest_Plane
    simp only [ht2]
    norm_num [Flt.le, Flt.lt, rayBelowGroundUnbounded, HitRecord.ofFinite,
      dae.HitRecord.default]

end Unbounded

end dae
